import Mathlib

/-!
# ovn-kubernetes-mcp: validation, command construction and output post-processing

A shallow embedding of the Go sources under `pkg/`.

Conventions of the embedding

* a Go `string` is a Lean `String`; `len(s)` is `String.utf8ByteSize`;
* a Go `int` is an `Int` (no arithmetic in the modelled code can overflow: the
  values are only compared, or counted up from zero);
* a Go `error` result is `Except String α` (the message is kept where the source
  builds it from literals, and shortened to its literal prefix otherwise);
* calls that leave the process (the cluster API, the filesystem, an external
  binary) are functions of an explicit environment, and every such call is
  recorded in a log that is returned next to the result.
-/

namespace OvnkMcp

deriving instance DecidableEq for Except

/-! ## Go standard library: `strings`, `strconv`, `unicode` -/

/-- Split a character list at every occurrence of `sep`; the result always has one more
piece than there are separators (`strings.Split` with a one-character separator). -/
def splitChars (sep : Char) : List Char → List (List Char)
  | [] => [[]]
  | c :: cs =>
    if c = sep then [] :: splitChars sep cs
    else
      match splitChars sep cs with
      | [] => [[c]]
      | l :: ls => (c :: l) :: ls

/-- The Go call `strings.Split(s, sep)` for a separator of exactly one character, which is
the only way the modelled code calls it (`"\n"`, `" "`, `"/"`). -/
def stringsSplit (s : String) (sep : Char) : List String :=
  (splitChars sep s.data).map String.mk

/-- The Go call `strings.Join(elems, sep)`. -/
def stringsJoin : List String → String → String
  | [], _ => ""
  | [a], _ => a
  | a :: b :: rest, sep => a ++ sep ++ stringsJoin (b :: rest) sep

/-- Does `pre` start `s` (on character lists)? -/
def hasPrefixChars : List Char → List Char → Bool
  | _, [] => true
  | [], _ :: _ => false
  | c :: cs, p :: ps => c == p && hasPrefixChars cs ps

/-- The Go call `strings.HasPrefix(s, prefix)`. -/
def stringsHasPrefix (s pre : String) : Bool :=
  hasPrefixChars s.data pre.data

/-- The Go call `strings.HasSuffix(s, suffix)`. -/
def stringsHasSuffix (s suf : String) : Bool :=
  hasPrefixChars s.data.reverse suf.data.reverse

/-- Does `sub` occur in `s` as a contiguous block (on character lists)? -/
def containsChars : List Char → List Char → Bool
  | [], sub => sub.isEmpty
  | c :: cs, sub => hasPrefixChars (c :: cs) sub || containsChars cs sub

/-- The Go call `strings.Contains(s, substr)`. -/
def stringsContains (s sub : String) : Bool :=
  containsChars s.data sub.data

/-- The Go predicate `unicode.IsSpace`: the Unicode White_Space property. -/
def unicodeIsSpace (c : Char) : Bool :=
  let n := c.toNat
  (9 ≤ n && n ≤ 13) || n == 0x20 || n == 0x85 || n == 0xA0 || n == 0x1680 ||
  (0x2000 ≤ n && n ≤ 0x200A) || n == 0x2028 || n == 0x2029 || n == 0x202F ||
  n == 0x205F || n == 0x3000

/-- The Go call `strings.TrimSpace(s)`: leading and trailing white space removed. -/
def stringsTrimSpace (s : String) : String :=
  String.mk (((s.data.dropWhile unicodeIsSpace).reverse.dropWhile unicodeIsSpace).reverse)

/-- Worker of `stringsFields`: `cur` is the field being read, in reverse. -/
def fieldsAux : List Char → List Char → List String
  | [], cur => if cur.isEmpty then [] else [String.mk cur.reverse]
  | c :: cs, cur =>
    if unicodeIsSpace c then
      (if cur.isEmpty then fieldsAux cs [] else String.mk cur.reverse :: fieldsAux cs [])
    else fieldsAux cs (c :: cur)

/-- The Go call `strings.Fields(s)`: the maximal runs of non-space characters. -/
def stringsFields (s : String) : List String :=
  fieldsAux s.data []

/-- The Go call `strconv.Itoa(n)` (also what `%d` prints): the decimal digits of `n`, with a
leading `-` for a negative number. -/
def strconvItoa (n : Int) : String :=
  toString n

/-- Is the character an ASCII decimal digit? -/
def isDigitChar (c : Char) : Bool :=
  '0' ≤ c && c ≤ '9'

/-- Value of a list of decimal digits, most significant first. -/
def digitsValue (ds : List Char) : Nat :=
  ds.foldl (fun acc c => 10 * acc + (c.toNat - '0'.toNat)) 0

/-- Does `strconv.Atoi(s)` return a nil error?  It does exactly when `s` is an optional sign
followed by one or more decimal digits whose value fits a 64-bit signed integer. -/
def strconvAtoiOk (s : String) : Bool :=
  match s.data with
  | [] => false
  | '-' :: ds => !ds.isEmpty && ds.all isDigitChar && digitsValue ds ≤ 2 ^ 63
  | '+' :: ds => !ds.isEmpty && ds.all isDigitChar && digitsValue ds < 2 ^ 63
  | ds => ds.all isDigitChar && digitsValue ds < 2 ^ 63

/-! ## Go standard library: `path/filepath` on a Unix system -/

/-- The Go call `filepath.IsAbs(path)`: does the path start with a slash? -/
def filepathIsAbs (path : String) : Bool :=
  stringsHasPrefix path "/"

/-- One element of the path met by `filepath.Clean`; `stack` holds the elements written so
far, the last one first.  An empty element and `.` are skipped; `..` removes the last
element written when there is one that is not itself `..`, is dropped at the root of a rooted
path, and is written otherwise; any other element is written. -/
def cleanStep (rooted : Bool) (stack : List String) (elem : String) : List String :=
  if elem = "" ∨ elem = "." then stack
  else if elem = ".." then
    match stack with
    | top :: rest =>
      if top ≠ ".." then rest
      else if rooted then stack
      else ".." :: stack
    | [] => if rooted then [] else [".."]
  else elem :: stack

/-- The elements that `filepath.Clean` writes for a path, the last one first. -/
def cleanStack (path : String) : List String :=
  (stringsSplit path '/').foldl (cleanStep (filepathIsAbs path)) []

/-- What `filepath.Clean` returns for the elements it wrote: they are joined by single
slashes after the leading slash of a rooted path, and nothing written reads `.`. -/
def cleanOutput (rooted : Bool) (stack : List String) : String :=
  let out := (if rooted then "/" else "") ++ stringsJoin stack.reverse "/"
  if out = "" then "." else out

/-- The Go call `filepath.Clean(path)`: the shortest path that names the same file by
lexical processing alone. -/
def filepathClean (path : String) : String :=
  if path = "" then "."
  else cleanOutput (filepathIsAbs path) (cleanStack path)

/-- The Go call `filepath.Join(elem...)`: the elements from the first non-empty one on,
joined by slashes and cleaned; the empty string when every element is empty. -/
def filepathJoin (elem : List String) : String :=
  match elem.dropWhile (fun e => e == "") with
  | [] => ""
  | e :: rest => filepathClean (stringsJoin (e :: rest) "/")

/-! ## The command builder (`pkg/kernel/mcp/util.go`, `pkg/nettools/mcp/utils.go`,
`pkg/external_tools/mcp/utils.go`: three identical copies) -/

/-- The struct `commandBuilder`: the argument list built so far. -/
structure commandBuilder where
  args : List String
  deriving DecidableEq, Repr

/-- The constructor `newCommand(baseCmd...)`. -/
def newCommand (baseCmd : List String) : commandBuilder :=
  ⟨baseCmd⟩

/-- The method `add(args...)`. -/
def commandBuilder.add (cb : commandBuilder) (args : List String) : commandBuilder :=
  ⟨cb.args ++ args⟩

/-- The method `addIf(condition, args...)`. -/
def commandBuilder.addIf (cb : commandBuilder) (condition : Bool) (args : List String) :
    commandBuilder :=
  if condition then ⟨cb.args ++ args⟩ else cb

/-- The method `addIfNotEmpty(value, args...)`. -/
def commandBuilder.addIfNotEmpty (cb : commandBuilder) (value : String) (args : List String) :
    commandBuilder :=
  if value ≠ "" then ⟨cb.args ++ args⟩ else cb

/-- The method `build()`. -/
def commandBuilder.build (cb : commandBuilder) : List String :=
  cb.args

/-- One method call on a `commandBuilder`, with its arguments. -/
inductive builderCall where
  | add (args : List String)
  | addIf (condition : Bool) (args : List String)
  | addIfNotEmpty (value : String) (args : List String)
  | build
  deriving DecidableEq, Repr

/-- The builder after one call: `add`, `addIf` and `addIfNotEmpty` return the receiver they
updated, and `build` only reads it. -/
def commandBuilder.call (cb : commandBuilder) : builderCall → commandBuilder
  | .add args => cb.add args
  | .addIf condition args => cb.addIf condition args
  | .addIfNotEmpty value args => cb.addIfNotEmpty value args
  | .build => cb

/-- The builder after a sequence of calls, made in order. -/
def commandBuilder.calls (cb : commandBuilder) (cs : List builderCall) : commandBuilder :=
  cs.foldl commandBuilder.call cb

/-- The tokens that a call contributes as the documentation of the methods has it: the
arguments of an `add`, of an `addIf` whose condition is true, of an `addIfNotEmpty` whose
value is not the empty string; nothing otherwise. -/
def builderCall.specTokens : builderCall → List String
  | .add args => args
  | .addIf condition args => if condition then args else []
  | .addIfNotEmpty value args => if value = "" then [] else args
  | .build => []

/-! ## The cluster executor

`clientSet.DebugNode` and `clientSet.ExecPod` are the two ways a tool handler reaches the
cluster.  A handler is modelled as a function of the clientset, its input and the log of the
calls made so far; it returns its Go results together with the extended log. -/

/-- One call made on the clientset. -/
inductive ExecCall where
  | DebugNode (name image : String) (command : List String) (hostPath mountPath : String)
  | ExecPod (name ns container : String) (command : List String)
  deriving DecidableEq, Repr

/-- What `DebugNode` and `ExecPod` return: `(stdout, stderr, err)`, with `none` for a nil
error. -/
structure ExecResult where
  stdout : String := ""
  stderr : String := ""
  err : Option String := none
  deriving DecidableEq, Repr

/-- The clientset as an oracle: its answer to a call may depend on the calls made before. -/
abbrev ClientSet := List ExecCall → ExecCall → ExecResult

/-- Go results of a handler (`result`, `err`) and the call log after it ran. -/
structure HandlerReturn (ρ : Type) where
  result : ρ
  err : Option String
  calls : List ExecCall
  deriving DecidableEq, Repr

/-- How `%w` prints an error value; a nil error prints as `%!w(<nil>)`. -/
def errText : Option String → String
  | some e => e
  | none => "%!w(<nil>)"

/-! ## `pkg/kubernetes/mcp/nodes.go` -/

namespace kubernetes

/-- The struct `types.DebugNodeParams`. -/
structure DebugNodeParams where
  Name : String := ""
  Image : String := ""
  Command : List String := []
  HostPath : String := ""
  MountPath : String := ""
  deriving DecidableEq, Repr

/-- The struct `types.DebugNodeResult`. -/
structure DebugNodeResult where
  Stdout : String := ""
  Stderr : String := ""
  deriving DecidableEq, Repr

/-- The character test of `validatePath`: alphanumeric, `/`, `-`, `_`, `.`, `~`. -/
def isSafePathChar (r : Char) : Bool :=
  ('a' ≤ r && r ≤ 'z') || ('A' ≤ r && r ≤ 'Z') || ('0' ≤ r && r ≤ '9') ||
  r == '/' || r == '-' || r == '_' || r == '.' || r == '~'

/-- The function `validatePath`: empty, or absolute, free of `..` elements and made of safe
characters only. -/
def validatePath (path pathType : String) : Except String Unit :=
  if path = "" then .ok ()
  else if !stringsHasPrefix path "/" then
    .error (pathType ++ " must be an absolute path (start with /), got: " ++ path)
  else if (stringsSplit path '/').any (fun elem => elem == "..") then
    .error (pathType ++ " contains path traversal element '..': " ++ path)
  else if !path.data.all isSafePathChar then
    .error (pathType ++ " contains unsafe character")
  else .ok ()

/-- The handler `(*MCPServer).DebugNode` of the kubernetes package: both paths are checked,
then the clientset is called once. -/
def DebugNode (cs : ClientSet) (inp : DebugNodeParams) (log : List ExecCall) :
    HandlerReturn DebugNodeResult :=
  match validatePath inp.HostPath "hostPath" with
  | .error e => ⟨{}, some e, log⟩
  | .ok _ =>
    match validatePath inp.MountPath "mountPath" with
    | .error e => ⟨{}, some e, log⟩
    | .ok _ =>
      let call := ExecCall.DebugNode inp.Name inp.Image inp.Command inp.HostPath inp.MountPath
      let r := cs log call
      match r.err with
      | some e => ⟨{}, some e, log ++ [call]⟩
      | none => ⟨⟨r.stdout, r.stderr⟩, none, log ++ [call]⟩

end kubernetes

/-! ## `pkg/kernel/mcp` -/

namespace kernel

/-- The constant `MaxOutputLines`. -/
def MaxOutputLines : Int := 100

/-- The function `filterWarnings`: drop every line containing `Warning`, `warning` or
`WARNING`. -/
def filterWarnings (output : String) : String :=
  if output = "" then output
  else
    let lines := stringsSplit output '\n'
    let filteredLines := lines.filter (fun line =>
      !stringsContains line "Warning" && !stringsContains line "warning" &&
        !stringsContains line "WARNING")
    stringsJoin filteredLines "\n"

/-- The function `limitOutputLines`: keep at most `maxLines` lines (the default when
`maxLines <= 0`) and say so when lines were cut. -/
def limitOutputLines (output : String) (maxLines : Int) : String :=
  if output = "" then output
  else
    let maxLines := if maxLines ≤ 0 then MaxOutputLines else maxLines
    let lines := stringsSplit output '\n'
    if (lines.length : Int) ≤ maxLines then output
    else
      let truncatedLines := lines.take maxLines.toNat
      let truncatedLines := truncatedLines ++
        ["\n... Output truncated. Showing first " ++ strconvItoa maxLines ++ " lines out of " ++
          strconvItoa lines.length ++ " total lines."]
      stringsJoin truncatedLines "\n"

/-- The character class of the regular expression in `validateParameters`:
`; & | $` backtick `< > \ ( )`. -/
def isShellMetacharacter (c : Char) : Bool :=
  c == ';' || c == '&' || c == '|' || c == '$' || c == '\x60' || c == '<' || c == '>' ||
  c == '\\' || c == '(' || c == ')'

/-- The function `validateParameters`: an error when a shell metacharacter occurs. -/
def validateParameters (param : String) : Except String Unit :=
  if param.data.any isShellMetacharacter then
    .error ("invalid use of metacharacters in parameter: " ++ param)
  else .ok ()

/-- The struct `types.CommonParams`. -/
structure CommonParams where
  Node : String := ""
  Image : String := ""
  MaxLines : Int := 0
  deriving DecidableEq, Repr

/-- The struct `types.Result`. -/
structure Result where
  Data : String := ""
  deriving DecidableEq, Repr

/-- The method `executeCommand` of the kernel package: run `chroot /host <command>` through the
node debug handler, fail on a non-warning stderr line, return the filtered stdout. -/
def executeCommand (cs : ClientSet) (node image : String) (command : List String)
    (log : List ExecCall) : HandlerReturn String :=
  let chrootCommand := ["chroot", "/host"] ++ command
  let r := kubernetes.DebugNode cs { Name := node, Image := image, Command := chrootCommand } log
  match r.err with
  | some e => ⟨"", some ("error while establishing tty connection to the node: " ++ e), r.calls⟩
  | none =>
    if r.result.Stderr ≠ "" ∧ filterWarnings r.result.Stderr ≠ "" then
      ⟨"", some ("error while running command: " ++ filterWarnings r.result.Stderr), r.calls⟩
    else ⟨filterWarnings r.result.Stdout, none, r.calls⟩

/-- The method `UtilityExists`: run `chroot /host <utility> -V` through the node debug
handler. -/
def UtilityExists (cs : ClientSet) (node image utility : String) (log : List ExecCall) :
    HandlerReturn Bool :=
  let cmd := newCommand ["chroot", "/host", utility, "-V"]
  let r := kubernetes.DebugNode cs { Name := node, Image := image, Command := cmd.build } log
  if r.err ≠ none ∨ filterWarnings r.result.Stderr ≠ "" then
    ⟨false, some ("error while checking availability of the utility " ++ utility ++ ": " ++
      filterWarnings r.result.Stderr ++ " : " ++ errText r.err), r.calls⟩
  else ⟨true, none, r.calls⟩

/-- The struct `types.ListIPTablesParams`. -/
structure ListIPTablesParams extends CommonParams where
  Table : String := ""
  Command : String := ""
  FilterParameters : String := ""
  deriving DecidableEq, Repr

/-- The function `iptablesCommand`: `ip6tables` when an item of the filter parameters is
`--ipv6` or holds both a `-` and a `6`. -/
def iptablesCommand (filterParameters : String) : String :=
  if (stringsSplit filterParameters ' ').any (fun item =>
      item == "--ipv6" || (stringsContains item "-" && stringsContains item "6")) then
    "ip6tables"
  else "iptables"

/-- The function `validateTableName` of the kernel package. -/
def validateTableName (table : String) : Except String Unit :=
  if table = "" then .ok ()
  else if strconvAtoiOk table then .error ("invalid table name: " ++ table)
  else if !(["filter", "nat", "mangle", "raw", "security"].contains (stringsTrimSpace table)) then
    .error ("invalid table name: " ++ table)
  else .ok ()

/-- The function `validateIptablesCommand`: only the list operations are allowed. -/
def validateIptablesCommand (command : String) : Except String Unit :=
  if command = "" then .ok ()
  else if strconvAtoiOk command then .error ("invalid iptables command: " ++ command)
  else if !(["-L", "-S", "--list", "--list-rules"].contains (stringsTrimSpace command)) then
    .error ("invalid iptables command: " ++ command)
  else .ok ()

/-- The argument list that `GetIptables` builds (lines 34 to 42 of `iptables.go`). -/
def iptablesArgv (inp : ListIPTablesParams) : List String :=
  let cmd := newCommand [iptablesCommand inp.FilterParameters]
  let cmd := cmd.addIf (inp.Table == "") ["-t", "filter"]
  let cmd := cmd.addIfNotEmpty inp.Table ["-t", inp.Table]
  let cmd := cmd.addIf (inp.Command == "") ["-L"]
  let cmd := cmd.addIfNotEmpty inp.Command [inp.Command]
  let cmd := cmd.addIf
    (inp.FilterParameters != "" && inp.Command != "-S" && inp.Command != "--list-rules")
    (stringsFields inp.FilterParameters)
  cmd.build

/-- The handler `GetIptables`. -/
def GetIptables (cs : ClientSet) (inp : ListIPTablesParams) (log : List ExecCall) :
    HandlerReturn Result :=
  let probe := UtilityExists cs inp.Node inp.Image "iptables" log
  if !probe.result then
    ⟨{}, some ("error while getting list of iptables rules: mentioned image does not have " ++
      "iptables utility: " ++ errText probe.err), probe.calls⟩
  else
    match validateTableName inp.Table with
    | .error e => ⟨{}, some ("error while getting list of iptables rules: " ++ e), probe.calls⟩
    | .ok _ =>
      match validateIptablesCommand inp.Command with
      | .error e => ⟨{}, some ("error while getting list of iptables rules: " ++ e), probe.calls⟩
      | .ok _ =>
        match (if inp.FilterParameters ≠ "" then validateParameters inp.FilterParameters
               else .ok ()) with
        | .error e =>
          ⟨{}, some ("error while getting list of iptables rules: " ++ e), probe.calls⟩
        | .ok _ =>
          let r := executeCommand cs inp.Node inp.Image (iptablesArgv inp) probe.calls
          match r.err with
          | some e => ⟨{}, some ("error while getting list of iptables rules: " ++ e), r.calls⟩
          | none => ⟨{ Data := limitOutputLines r.result inp.MaxLines }, none, r.calls⟩

/-- The struct `types.ListNFTParams`. -/
structure ListNFTParams extends CommonParams where
  Command : String := ""
  AddressFamilies : String := ""
  deriving DecidableEq, Repr

/-- The function `validateNFTCommand`. -/
def validateNFTCommand (command : String) : Except String Unit :=
  if strconvAtoiOk command then .error ("invalid nft command: " ++ command)
  else if !(["list ruleset", "list tables", "list chains", "list sets", "list maps",
      "list flowtables"].contains (stringsTrimSpace command)) then
    .error ("invalid nft command: " ++ command)
  else .ok ()

/-- The function `validateNFTAddressFamily`. -/
def validateNFTAddressFamily (addrFamily : String) : Except String Unit :=
  if addrFamily = "" then .ok ()
  else if strconvAtoiOk addrFamily then .error ("invalid nft address family: " ++ addrFamily)
  else if !(["ip", "ip6", "inet", "arp", "bridge", "netdev"].contains
      (stringsTrimSpace addrFamily)) then
    .error ("invalid nft address family: " ++ addrFamily)
  else .ok ()

/-- The handler `GetNFT`. -/
def GetNFT (cs : ClientSet) (inp : ListNFTParams) (log : List ExecCall) : HandlerReturn Result :=
  let probe := UtilityExists cs inp.Node inp.Image "nft" log
  if !probe.result then
    ⟨{}, some ("error while getting nft data: mentioned image does not have nft utility: " ++
      errText probe.err), probe.calls⟩
  else
    match validateNFTCommand inp.Command with
    | .error e => ⟨{}, some ("error while getting nft data: " ++ e), probe.calls⟩
    | .ok _ =>
      match validateNFTAddressFamily inp.AddressFamilies with
      | .error e => ⟨{}, some ("error while getting nft data: " ++ e), probe.calls⟩
      | .ok _ =>
        let cmd := newCommand ["nft"]
        let cmd := cmd.add (stringsFields inp.Command)
        let cmd := cmd.addIf (inp.AddressFamilies != "") [inp.AddressFamilies]
        let r := executeCommand cs inp.Node inp.Image cmd.build probe.calls
        match r.err with
        | some e => ⟨{}, some ("error while getting nft data: " ++ e), r.calls⟩
        | none => ⟨{ Data := limitOutputLines r.result inp.MaxLines }, none, r.calls⟩

/-- The struct `types.ListIPParams`. -/
structure ListIPParams extends CommonParams where
  Options : String := ""
  Command : String := ""
  FilterParameters : String := ""
  deriving DecidableEq, Repr

/-- The keys of the map `validIpCommand` in `validateIPCommand`. -/
def validIpCommand : List String :=
  ["address", "link", "neighbour", "netns", "route", "rule", "vrf", "xfrm state", "xfrm policy"]

/-- The body of the loop over `validIpCommand`: does the split input match this command? -/
def ipCommandMatches (splitCommand : List String) (command : String) : Bool :=
  let commandFields := stringsFields command
  if commandFields.length = 1 then
    stringsHasPrefix command (splitCommand.getD 0 "") &&
      stringsHasPrefix "show" (splitCommand.getD 1 "")
  else if splitCommand.length ≥ commandFields.length + 1 then
    let allMatch := (commandFields.zip splitCommand).all (fun p => stringsHasPrefix p.1 p.2)
    allMatch && (command == "xfrm state" || command == "xfrm policy") &&
      stringsHasPrefix "list" (splitCommand.getD commandFields.length "")
  else false

/-- The function `validateIPCommand`. -/
def validateIPCommand (ipCommand : String) : Except String Unit :=
  if strconvAtoiOk ipCommand then .error ("invalid ip command: " ++ ipCommand)
  else
    let splitCommand := stringsFields (stringsTrimSpace ipCommand)
    if splitCommand.length < 2 then .error ("invalid ip command: " ++ ipCommand)
    else if stringsHasPrefix (splitCommand.getD 0 "") "l" && splitCommand.getD 1 "" == "s" then
      .error ("invalid ip command: " ++ ipCommand)
    else if !(validIpCommand.any (ipCommandMatches splitCommand)) then
      .error ("invalid ip command: " ++ ipCommand)
    else .ok ()

/-- The handler `GetIPCommandOutput`. -/
def GetIPCommandOutput (cs : ClientSet) (inp : ListIPParams) (log : List ExecCall) :
    HandlerReturn Result :=
  let probe := UtilityExists cs inp.Node inp.Image "ip" log
  if !probe.result then
    ⟨{}, some ("error while getting ip data: mentioned image does not have ip utility: " ++
      errText probe.err), probe.calls⟩
  else
    match validateIPCommand inp.Command with
    | .error e => ⟨{}, some ("error while getting ip data: " ++ e), probe.calls⟩
    | .ok _ =>
      match (if inp.FilterParameters ≠ "" then validateParameters inp.FilterParameters
             else .ok ()) with
      | .error e => ⟨{}, some ("error while getting ip data: " ++ e), probe.calls⟩
      | .ok _ =>
        match (if inp.Options ≠ "" then validateParameters inp.Options else .ok ()) with
        | .error e => ⟨{}, some ("error while getting ip data: " ++ e), probe.calls⟩
        | .ok _ =>
          let cmd := newCommand ["ip"]
          let cmd := cmd.addIfNotEmpty inp.Options [inp.Options]
          let cmd := cmd.add (stringsFields inp.Command)
          let cmd := cmd.addIfNotEmpty inp.FilterParameters (stringsFields inp.FilterParameters)
          let r := executeCommand cs inp.Node inp.Image cmd.build probe.calls
          match r.err with
          | some e => ⟨{}, some ("error while getting ip data: " ++ e), r.calls⟩
          | none => ⟨{ Data := limitOutputLines r.result inp.MaxLines }, none, r.calls⟩

/-- The struct `types.ListConntrackParams`. -/
structure ListConntrackParams extends CommonParams where
  Command : String := ""
  FilterParameters : String := ""
  deriving DecidableEq, Repr

/-- The constant `conntrackSystemFile`. -/
def conntrackSystemFile : String := "/proc/net/nf_conntrack"

/-- The function `validateConntrackCommand`. -/
def validateConntrackCommand (command : String) (cliAvailable : Bool) : Except String Unit :=
  if command = "" then .ok ()
  else if !cliAvailable &&
      (stringsTrimSpace command != "-L" && stringsTrimSpace command != "--dump") then
    .error ("mentioned image does not have conntrack utility, only -L is supported with " ++
      "limited filters")
  else if strconvAtoiOk command then .error ("invalid command: " ++ command)
  else if !(["-L", "-S", "-C", "--dump", "--stats", "--count"].contains
      (stringsTrimSpace command)) then
    .error ("invalid command: " ++ command)
  else .ok ()

/-- The method `getConntrackUsingCLI`. -/
def getConntrackUsingCLI (cs : ClientSet) (node image command filterParameters : String)
    (log : List ExecCall) : HandlerReturn String :=
  let cmd := newCommand ["conntrack"]
  let cmd :=
    if command = "-L" ∨ command = "--dump" then
      (cmd.add [command]).add (stringsFields filterParameters)
    else if command = "-S" ∨ command = "--stats" then cmd.add [command]
    else if command = "-C" ∨ command = "--count" then cmd.add [command]
    else (cmd.add ["-L"]).add (stringsFields filterParameters)
  executeCommand cs node image cmd.build log

/-- The method `getConntrackFromFile`. -/
def getConntrackFromFile (cs : ClientSet) (node image : String) (log : List ExecCall) :
    HandlerReturn String :=
  let cmd := newCommand ["cat"]
  let cmd := cmd.add [conntrackSystemFile]
  executeCommand cs node image cmd.build log

/-- The handler `GetConntrack`. -/
def GetConntrack (cs : ClientSet) (inp : ListConntrackParams) (log : List ExecCall) :
    HandlerReturn Result :=
  let probe := UtilityExists cs inp.Node inp.Image "conntrack" log
  let conntrackCliAvailable := probe.result
  match validateConntrackCommand inp.Command conntrackCliAvailable with
  | .error e => ⟨{}, some ("error while getting list of conntrack entries: " ++ e), probe.calls⟩
  | .ok _ =>
    match (if inp.FilterParameters ≠ "" then validateParameters inp.FilterParameters
           else .ok ()) with
    | .error e =>
      ⟨{}, some ("error while getting list of conntrack entries: " ++ e), probe.calls⟩
    | .ok _ =>
      let r :=
        if !conntrackCliAvailable then getConntrackFromFile cs inp.Node inp.Image probe.calls
        else getConntrackUsingCLI cs inp.Node inp.Image inp.Command inp.FilterParameters
          probe.calls
      match r.err with
      | some e => ⟨{}, some ("error while getting list of conntrack entries: " ++ e), r.calls⟩
      | none => ⟨{ Data := limitOutputLines r.result inp.MaxLines }, none, r.calls⟩

end kernel

/-! ## Interface names: the regular expression `^[a-zA-Z0-9][a-zA-Z0-9._-]*$` -/

/-- The class `[a-zA-Z0-9]`. -/
def isAlnumChar (c : Char) : Bool :=
  ('a' ≤ c && c ≤ 'z') || ('A' ≤ c && c ≤ 'Z') || ('0' ≤ c && c ≤ '9')

/-- The class `[a-zA-Z0-9._-]`. -/
def isInterfaceChar (c : Char) : Bool :=
  isAlnumChar c || c == '.' || c == '_' || c == '-'

/-- The call `interfaceNamePattern.MatchString(s)`; the pattern is anchored at both ends of
the text, so the whole string is one character of the first class and then characters of the
second. -/
def interfaceNamePattern (s : String) : Bool :=
  match s.data with
  | [] => false
  | c :: cs => isAlnumChar c && cs.all isInterfaceChar

/-! ## `pkg/nettools/mcp/utils.go` -/

namespace nettools

/-- The function `validateInterface`. -/
def validateInterface (iface : String) : Except String Unit :=
  if iface = "" then .ok ()
  else if iface = "any" then .ok ()
  else if iface.utf8ByteSize > 15 then .error ("interface name too long: " ++ iface)
  else if !interfaceNamePattern iface then .error ("invalid interface name: " ++ iface)
  else .ok ()

/-- The function `validatePacketFilter`. -/
def validatePacketFilter (filter : String) : Except String Unit :=
  if filter = "" then .ok ()
  else if filter.utf8ByteSize > 1024 then .error "packet filter too long (max 1024 characters)"
  else if [";", "|", "&", "\x60", "$", "$(", "\n", "\x00", ">", "<", "'", "\""].any
      (fun pattern => stringsContains filter pattern) then
    .error "packet filter contains potentially dangerous characters"
  else .ok ()

end nettools

/-! ## `pkg/ovs/mcp/commands.go` -/

namespace ovs

/-- The character class of the regular expression `dangerousChars` in `validateFlowSpec`:
`; & | $` backtick `< > \`. -/
def isDangerousFlowChar (c : Char) : Bool :=
  c == ';' || c == '&' || c == '|' || c == '$' || c == '\x60' || c == '<' || c == '>' ||
  c == '\\'

/-- The function `validateFlowSpec`. -/
def validateFlowSpec (flow : String) : Except String Unit :=
  if flow = "" then .error "flow specification cannot be empty"
  else if flow.data.any isDangerousFlowChar then
    .error "invalid flow specification: contains potentially dangerous characters"
  else .ok ()

/-- The character class of the regular expression `dangerousChars` in
`validateConntrackParams`: `; & | $` backtick `< > \ ( )`. -/
def isDangerousParamChar (c : Char) : Bool :=
  c == ';' || c == '&' || c == '|' || c == '$' || c == '\x60' || c == '<' || c == '>' ||
  c == '\\' || c == '(' || c == ')'

/-- The class `[a-zA-Z]`. -/
def isLetterChar (c : Char) : Bool :=
  ('a' ≤ c && c ≤ 'z') || ('A' ≤ c && c ≤ 'Z')

/-- The class `[a-zA-Z0-9_-]` of a parameter key. -/
def isParamKeyChar (c : Char) : Bool :=
  isAlnumChar c || c == '_' || c == '-'

/-- The class `[a-zA-Z0-9x.:,/_-]` of a parameter value. -/
def isParamValueChar (c : Char) : Bool :=
  isAlnumChar c || c == 'x' || c == '.' || c == ':' || c == ',' || c == '/' || c == '_' ||
  c == '-'

/-- The call `validParam.MatchString(s)` for the pattern
`^(-[a-zA-Z]|[a-zA-Z0-9_-]+=[a-zA-Z0-9x.:,/_-]+)$`, anchored at both ends of the text:
either a hyphen and one letter, or a key and a value around an equals sign.  Neither class
holds the equals sign, so the key is the text before the first one. -/
def validParam (s : String) : Bool :=
  (match s.data with
    | ['-', c] => isLetterChar c
    | _ => false) ||
  (match s.data.dropWhile (fun c => c != '=') with
    | [] => false
    | _ :: value =>
      let key := s.data.takeWhile (fun c => c != '=')
      !key.isEmpty && key.all isParamKeyChar && !value.isEmpty && value.all isParamValueChar)

/-- The function `validateConntrackParams`; the two messages that quote the parameter with
`%q` are kept without the quoted text. -/
def validateConntrackParams : List String → Except String Unit
  | [] => .ok ()
  | param :: rest =>
    if param = "" then .error "conntrack parameter cannot be empty"
    else if param.data.any isDangerousParamChar then
      .error "invalid conntrack parameter: contains potentially dangerous characters"
    else if !validParam param then .error "invalid conntrack parameter format"
    else validateConntrackParams rest

end ovs

/-! ## `pkg/external_tools/client/validator.go` -/

namespace client

/-- The function `ValidateInterface`. -/
def ValidateInterface (iface : String) : Except String Unit :=
  if iface = "" then .ok ()
  else if iface = "any" then .ok ()
  else if iface.utf8ByteSize > 15 then .error ("interface name too long: " ++ iface)
  else if !interfaceNamePattern iface then .error ("invalid interface name: " ++ iface)
  else .ok ()

/-- The function `ValidateBPFFilter`. -/
def ValidateBPFFilter (filter : String) : Except String Unit :=
  if filter = "" then .ok ()
  else if filter.utf8ByteSize > 1024 then .error "BPF filter too long (max 1024 characters)"
  else if [";", "|", "&", "\x60", "$", "$("].any
      (fun pattern => stringsContains filter pattern) then
    .error "BPF filter contains potentially dangerous characters"
  else .ok ()

/-- The function `ValidateSysctlPattern`. -/
def ValidateSysctlPattern (pattern : String) : Except String Unit :=
  if pattern = "" then .ok ()
  else if !stringsHasPrefix pattern "net." && pattern != "net" then
    .error "sysctl pattern must start with 'net.'"
  else if [";", "|", "&", "\x60", "$", "(", ")", "<", ">"].any
      (fun char => stringsContains pattern char) then
    .error "sysctl pattern contains invalid characters"
  else .ok ()

/-- The function `ValidateTableName` of the external-tools client: empty, any text that
`strconv.Atoi` reads, or one of seven names. -/
def ValidateTableName (table : String) : Except String Unit :=
  if table = "" then .ok ()
  else if strconvAtoiOk table then .ok ()
  else if !(["filter", "nat", "mangle", "raw", "main", "local", "default"].contains table) then
    .error ("invalid table name: " ++ table)
  else .ok ()

/-- The function `ValidateIP`; `netParseIP s` says whether the library call `net.ParseIP(s)`
returns a non-nil address. -/
def ValidateIP (netParseIP : String → Bool) (ipStr : String) : Except String Unit :=
  if ipStr = "" then .ok ()
  else if !netParseIP ipStr then .error ("invalid IP address: " ++ ipStr)
  else .ok ()

/-- The class `[a-zA-Z0-9.-]`. -/
def isHostnameChar (c : Char) : Bool :=
  isAlnumChar c || c == '.' || c == '-'

/-- The call `hostnamePattern.MatchString(s)` for the pattern
`^[a-zA-Z0-9][a-zA-Z0-9.-]*[a-zA-Z0-9]$`, anchored at both ends of the text: a first
character of the class `[a-zA-Z0-9]`, then characters of the class `[a-zA-Z0-9.-]`, then a
last character of the class `[a-zA-Z0-9]`, which is another position than the first. -/
def hostnamePattern (s : String) : Bool :=
  match s.data with
  | [] => false
  | c :: cs =>
    isAlnumChar c &&
      (match cs.reverse with
      | [] => false
      | d :: ds => isAlnumChar d && ds.all isHostnameChar)

/-- The function `ValidateHostname`; `netParseIP s` says whether the library call
`net.ParseIP(s)` returns a non-nil address. -/
def ValidateHostname (netParseIP : String → Bool) (host : String) : Except String Unit :=
  if host = "" then .error "hostname cannot be empty"
  else if netParseIP host then .ok ()
  else if host.utf8ByteSize > 253 then .error ("hostname too long: " ++ host)
  else if !hostnamePattern host then .error ("invalid hostname: " ++ host)
  else .ok ()

/-- The function `ValidatePort`. -/
def ValidatePort (port : Int) : Except String Unit :=
  if port < 1 ∨ port > 65535 then
    .error ("invalid port number: " ++ strconvItoa port ++ " (must be 1-65535)")
  else .ok ()

end client

/-! ## `pkg/external_tools/mcp` -/

namespace external_tools

/-- The struct `types.TargetParams`. -/
structure TargetParams where
  TargetType : String := ""
  NodeName : String := ""
  NodeImage : String := ""
  PodName : String := ""
  PodNamespace : String := ""
  ContainerName : String := ""
  deriving DecidableEq, Repr

/-- The struct `types.TcpdumpParams`. -/
structure TcpdumpParams extends TargetParams where
  Interface : String := ""
  Duration : Int := 0
  PacketCount : Int := 0
  BPFFilter : String := ""
  Snaplen : Int := 0
  OutputFormat : String := ""
  deriving DecidableEq, Repr

/-- The struct `types.CommandResult`. -/
structure CommandResult where
  Output : String := ""
  ExitCode : Int := 0
  Error : String := ""
  deriving DecidableEq, Repr

/-- The constant `MaxTcpdumpDuration`. -/
def MaxTcpdumpDuration : Int := 30

/-- The constant `MaxPacketCount`. -/
def MaxPacketCount : Int := 1000

/-- The constant `DefaultSnaplen`. -/
def DefaultSnaplen : Int := 96

/-- The constant `MaxSnaplen`. -/
def MaxSnaplen : Int := 262

/-- The method `executeCommand` of the external_tools package: resolve the target and make
one call on the clientset. -/
def executeCommand (cs : ClientSet) (target : TargetParams) (command : List String)
    (log : List ExecCall) : HandlerReturn String :=
  if target.TargetType = "node" then
    if target.NodeName = "" then
      ⟨"", some "node_name is required when target_type is 'node'", log⟩
    else if target.NodeImage = "" then
      ⟨"", some "node_image is required when target_type is 'node'", log⟩
    else
      let chrootCommand := ["chroot", "/host"] ++ command
      let call := ExecCall.DebugNode target.NodeName target.NodeImage chrootCommand "" ""
      let r := cs log call
      match r.err with
      | some e => ⟨r.stdout ++ "\n" ++ r.stderr, some e, log ++ [call]⟩
      | none => ⟨r.stdout, none, log ++ [call]⟩
  else if target.TargetType = "pod" then
    if target.PodName = "" then
      ⟨"", some "pod_name is required when target_type is 'pod'", log⟩
    else
      let namespace1 := if target.PodNamespace = "" then "default" else target.PodNamespace
      let call := ExecCall.ExecPod target.PodName namespace1 target.ContainerName command
      let r := cs log call
      match r.err with
      | some e => ⟨r.stdout ++ "\n" ++ r.stderr, some e, log ++ [call]⟩
      | none => ⟨r.stdout, none, log ++ [call]⟩
  else
    ⟨"", some ("invalid target_type: " ++ target.TargetType ++ " (must be 'node' or 'pod')"),
      log⟩

/-- The method `executeAndWrapResult`. -/
def executeAndWrapResult (cs : ClientSet) (target : TargetParams) (command : List String)
    (log : List ExecCall) : HandlerReturn CommandResult :=
  let r := executeCommand cs target command log
  match r.err with
  | some e => ⟨{ Output := r.result, Error := e }, some e, r.calls⟩
  | none => ⟨{ Output := r.result }, none, r.calls⟩

/-- The function `validateIntMax` of the external_tools package. -/
def validateIntMax (value max : Int) (fieldName unit : String) : Except String Unit :=
  if value > max then
    if unit ≠ "" then
      .error (fieldName ++ " cannot exceed " ++ strconvItoa max ++ " " ++ unit)
    else .error (fieldName ++ " cannot exceed " ++ strconvItoa max)
  else .ok ()

/-- The function `stringWithDefault`. -/
def stringWithDefault (value defaultValue : String) : String :=
  if value = "" then defaultValue else value

/-- The function `requireAtLeastNParams`; the Go map is a list of key and value pairs (the
order in which Go walks a map only affects the order of the names in the message). -/
def requireAtLeastNParams (required : Int) (params : List (String × Bool)) :
    Except String Unit :=
  let count : Int := (params.filter (fun p => p.2)).length
  let paramNames := params.map (fun p => p.1)
  if count < required then
    .error ("requires at least " ++ strconvItoa required ++ " of: [" ++
      stringsJoin paramNames " " ++ "] for safety")
  else .ok ()

/-- The handler `Tcpdump` of the external_tools package.  The two checks nested under
`in.Interface == "any"` and `in.BPFFilter == ""` are written with their guards conjoined;
the `switch` on the output format is the closing `if` chain. -/
def Tcpdump (cs : ClientSet) (inp : TcpdumpParams) (log : List ExecCall) :
    HandlerReturn CommandResult :=
  match client.ValidateInterface inp.Interface with
  | .error e => ⟨{}, some e, log⟩
  | .ok _ =>
  match client.ValidateBPFFilter inp.BPFFilter with
  | .error e => ⟨{}, some e, log⟩
  | .ok _ =>
  if inp.Interface = "any" ∧ inp.BPFFilter = "" ∧ inp.Duration = 0 ∧ inp.PacketCount = 0 then
    ⟨{}, some ("capturing on 'any' interface requires either a BPF filter or explicit " ++
      "duration/packet_count limits"), log⟩
  else if inp.Interface = "any" ∧ inp.BPFFilter = "" ∧
      (inp.Duration > 10 ∨ inp.PacketCount > 100) then
    ⟨{}, some ("capturing on 'any' interface without BPF filter requires duration <= 10s " ++
      "and packet_count <= 100"), log⟩
  else
  match requireAtLeastNParams 2 [("duration", decide (inp.Duration > 0)),
      ("packet_count", decide (inp.PacketCount > 0)), ("bpf_filter", inp.BPFFilter != "")] with
  | .error e => ⟨{}, some ("tcpdump " ++ e), log⟩
  | .ok _ =>
  match validateIntMax inp.Duration MaxTcpdumpDuration "duration" "seconds" with
  | .error e => ⟨{}, some e, log⟩
  | .ok _ =>
  match validateIntMax inp.PacketCount MaxPacketCount "packet_count" "" with
  | .error e => ⟨{}, some e, log⟩
  | .ok _ =>
  let snaplen := if inp.Snaplen = 0 then DefaultSnaplen else inp.Snaplen
  match validateIntMax snaplen MaxSnaplen "snaplen" "bytes" with
  | .error e => ⟨{}, some e, log⟩
  | .ok _ =>
  let cmd := (newCommand ["tcpdump", "-i", inp.Interface, "-n", "-s", strconvItoa snaplen]).addIf
    (inp.PacketCount > 0) ["-c", strconvItoa inp.PacketCount]
  let outputFormat := stringWithDefault inp.OutputFormat "text"
  if outputFormat = "text" then
    let cmd := cmd.add ["-v"]
    let cmd := cmd.addIfNotEmpty inp.BPFFilter [inp.BPFFilter]
    executeAndWrapResult cs inp.toTargetParams cmd.build log
  else if outputFormat = "pcap" then
    let cmd := cmd.add ["-w", "-"]
    let cmd := cmd.addIfNotEmpty inp.BPFFilter [inp.BPFFilter]
    executeAndWrapResult cs inp.toTargetParams cmd.build log
  else
    ⟨{}, some ("invalid output_format: " ++ outputFormat ++ " (must be 'text' or 'pcap')"), log⟩

/-- The struct `types.IPTablesListParams`. -/
structure IPTablesListParams extends TargetParams where
  Table : String := ""
  Chain : String := ""
  LineNumbers : Bool := false
  Verbose : Bool := false
  IPv6 : Bool := false
  deriving DecidableEq, Repr

/-- The handler `IPTablesList`. -/
def IPTablesList (cs : ClientSet) (inp : IPTablesListParams) (log : List ExecCall) :
    HandlerReturn CommandResult :=
  match client.ValidateTableName inp.Table with
  | .error e => ⟨{}, some e, log⟩
  | .ok _ =>
    let cmdName := if inp.IPv6 then "ip6tables" else "iptables"
    let table := stringWithDefault inp.Table "filter"
    let cmd := (((((newCommand [cmdName, "-L"]).addIfNotEmpty inp.Chain [inp.Chain]).add
      ["-t", table]).addIf inp.LineNumbers ["--line-numbers"]).addIf inp.Verbose ["-v"]).add
      ["-n"]
    executeAndWrapResult cs inp.toTargetParams cmd.build log

/-- The struct `types.IPRouteShowParams`. -/
structure IPRouteShowParams extends TargetParams where
  Destination : String := ""
  Table : String := ""
  deriving DecidableEq, Repr

/-- The handler `IPRouteShow`. -/
def IPRouteShow (cs : ClientSet) (inp : IPRouteShowParams) (log : List ExecCall) :
    HandlerReturn CommandResult :=
  match client.ValidateTableName inp.Table with
  | .error e => ⟨{}, some e, log⟩
  | .ok _ =>
    let command := (((newCommand ["ip", "route", "show"]).addIfNotEmpty inp.Table
      ["table", inp.Table]).addIfNotEmpty inp.Destination [inp.Destination]).build
    executeAndWrapResult cs inp.toTargetParams command log

/-- The struct `types.DigParams`. -/
structure DigParams extends TargetParams where
  Hostname : String := ""
  Server : String := ""
  RecordType : String := ""
  Short : Bool := false
  deriving DecidableEq, Repr

/-- The handler `Dig`; `netParseIP` is the library call behind `client.ValidateIP`. -/
def Dig (netParseIP : String → Bool) (cs : ClientSet) (inp : DigParams) (log : List ExecCall) :
    HandlerReturn CommandResult :=
  if inp.Hostname = "" then ⟨{}, some "hostname is required", log⟩
  else
    let cmd := newCommand ["dig"]
    match (if inp.Server ≠ "" then client.ValidateIP netParseIP inp.Server else .ok ()) with
    | .error e => ⟨{}, some ("invalid DNS server: " ++ e), log⟩
    | .ok _ =>
      let cmd := if inp.Server ≠ "" then cmd.add ["@" ++ inp.Server] else cmd
      let recordType := stringWithDefault inp.RecordType "A"
      let cmd := (cmd.add [inp.Hostname, recordType]).addIf inp.Short ["+short"]
      executeAndWrapResult cs inp.toTargetParams cmd.build log

/-- The struct `types.ConntrackListParams`. -/
structure ConntrackListParams extends TargetParams where
  Protocol : String := ""
  SourceIP : String := ""
  DestIP : String := ""
  SourcePort : Int := 0
  DestPort : Int := 0
  deriving DecidableEq, Repr

/-- The handler `ConntrackList`; `netParseIP` is the library call behind
`client.ValidateIP`. -/
def ConntrackList (netParseIP : String → Bool) (cs : ClientSet) (inp : ConntrackListParams)
    (log : List ExecCall) : HandlerReturn CommandResult :=
  let cmd := (newCommand ["conntrack", "-L"]).addIfNotEmpty inp.Protocol ["-p", inp.Protocol]
  match (if inp.SourceIP ≠ "" then client.ValidateIP netParseIP inp.SourceIP else .ok ()) with
  | .error e => ⟨{}, some ("invalid source IP: " ++ e), log⟩
  | .ok _ =>
    let cmd := if inp.SourceIP ≠ "" then cmd.add ["--orig-src", inp.SourceIP] else cmd
    match (if inp.DestIP ≠ "" then client.ValidateIP netParseIP inp.DestIP else .ok ()) with
    | .error e => ⟨{}, some ("invalid destination IP: " ++ e), log⟩
    | .ok _ =>
      let cmd := if inp.DestIP ≠ "" then cmd.add ["--orig-dst", inp.DestIP] else cmd
      match (if inp.SourcePort > 0 then client.ValidatePort inp.SourcePort else .ok ()) with
      | .error e => ⟨{}, some e, log⟩
      | .ok _ =>
        let cmd :=
          if inp.SourcePort > 0 then cmd.add ["--orig-port-src", strconvItoa inp.SourcePort]
          else cmd
        match (if inp.DestPort > 0 then client.ValidatePort inp.DestPort else .ok ()) with
        | .error e => ⟨{}, some e, log⟩
        | .ok _ =>
          let cmd :=
            if inp.DestPort > 0 then cmd.add ["--orig-port-dst", strconvItoa inp.DestPort]
            else cmd
          executeAndWrapResult cs inp.toTargetParams cmd.build log

end external_tools

/-! ## `pkg/must-gather/ovsdb-tool` -/

namespace ovsdbtool

/-- The Go call `filepath.Base(path)` on a Unix host: trailing slashes are dropped, then
everything up to the last slash. -/
def filepathBase (path : String) : String :=
  if path = "" then "."
  else
    let stripped := path.data.reverse.dropWhile (fun c => c == '/')
    let last := (stripped.takeWhile (fun c => c != '/')).reverse
    if last.isEmpty then "/" else String.mk last

/-- The constant `ovnkDatabaseStore`. -/
def ovnkDatabaseStore : String := "ovnk_database_store"

/-- One access to the host that `QueryDatabase` can make. -/
inductive HostCall where
  | getNetworkLogsDirectory (mustGatherPath : String)
  | Stat (path : String)
  | Command (name : String) (args : List String)
  deriving DecidableEq, Repr

/-- Result of `os.Stat` as far as `QueryDatabase` looks at it. -/
inductive StatResult where
  | found
  | notExist (msg : String)
  | failed (msg : String)
  deriving DecidableEq, Repr

/-- What `QueryDatabase` needs from outside the package: the JSON library (over its own type
`J` of parsed values), `filepath.Join`, and the host.  `getNetworkLogsDirectory` only reads
the filesystem and is kept as one host access; `jsonMarshal` receives the schema name, the
table, the parsed conditions and the columns of the query document. -/
structure Host (J : Type) where
  jsonUnmarshal : String → Except String J
  jsonMarshal : String → String → List J → List String → Except String String
  filepathJoin : List String → String
  getNetworkLogsDirectory : String → Except String String
  stat : String → StatResult
  combinedOutput : String → List String → String × Option String

/-- The regular expression `ovnTableNamesPattern`, `^[A-Z][a-zA-Z0-9_]*$`. -/
def ovnTableNamesPattern (s : String) : Bool :=
  match s.data with
  | [] => false
  | c :: cs => ('A' ≤ c && c ≤ 'Z') && cs.all (fun d => isAlnumChar d || d == '_')

/-- The function `validateOVNTableName`. -/
def validateOVNTableName (table : String) : Except String Unit :=
  if table = "" then .error "table name is required"
  else if !ovnTableNamesPattern table then .error ("invalid OVN table name: " ++ table)
  else .ok ()

/-- Parse every condition string, stopping at the first that is not JSON. -/
def parseConditions {J : Type} (h : Host J) : List String → Except String (List J)
  | [] => .ok []
  | condStr :: rest =>
    match h.jsonUnmarshal condStr with
    | .error e => .error ("failed to parse condition " ++ condStr ++ ": " ++ e)
    | .ok cond =>
      match parseConditions h rest with
      | .error e => .error e
      | .ok conds => .ok (cond :: conds)

/-- The function `buildQueryString`. -/
def buildQueryString {J : Type} (h : Host J) (schemaName table : String)
    (conditions columns : List String) : Except String String :=
  if schemaName ≠ "OVN_Northbound" ∧ schemaName ≠ "OVN_Southbound" then
    .error ("schema name must be either \"OVN_Northbound\" or \"OVN_Southbound\": " ++
      schemaName)
  else if table = "" then .error "table must not be empty"
  else
    match parseConditions h conditions with
    | .error e => .error e
    | .ok parsedConditions =>
      match h.jsonMarshal schemaName table parsedConditions columns with
      | .error e => .error ("failed to marshal query to JSON: " ++ e)
      | .ok jsonBytes => .ok jsonBytes

/-- Go results of `QueryDatabase` and the host accesses made. -/
structure QueryReturn where
  output : String
  err : Option String
  accesses : List HostCall
  deriving DecidableEq, Repr

/-- The method `QueryDatabase`; `commandPath` is the field of the receiver. -/
def QueryDatabase {J : Type} (h : Host J) (commandPath mustGatherPath dbName table : String)
    (conditions columns : List String) (log : List HostCall) : QueryReturn :=
  if dbName = "" ∨ (!stringsHasSuffix dbName "_nbdb" && !stringsHasSuffix dbName "_sbdb") then
    ⟨"", some ("database name is required and must end with _nbdb or _sbdb: " ++ dbName), log⟩
  else if filepathBase dbName ≠ dbName then
    ⟨"", some ("database name " ++ dbName ++ " contains path traversal characters"), log⟩
  else
    match validateOVNTableName table with
    | .error e => ⟨"", some ("failed to validate table: " ++ e), log⟩
    | .ok _ =>
      let schemaName :=
        if stringsHasSuffix dbName "_nbdb" then "OVN_Northbound" else "OVN_Southbound"
      match buildQueryString h schemaName table conditions columns with
      | .error e => ⟨"", some ("failed to build query string: " ++ e), log⟩
      | .ok queryString =>
        let log1 := log ++ [HostCall.getNetworkLogsDirectory mustGatherPath]
        match h.getNetworkLogsDirectory mustGatherPath with
        | .error e => ⟨"", some ("failed to get network logs directory: " ++ e), log1⟩
        | .ok networkLogsPath =>
          let dbPath := h.filepathJoin [networkLogsPath, ovnkDatabaseStore, dbName]
          let log2 := log1 ++ [HostCall.Stat dbPath]
          match h.stat dbPath with
          | .notExist e => ⟨"", some ("database file " ++ dbPath ++ " not found: " ++ e), log2⟩
          | .failed e => ⟨"", some ("failed to stat database file " ++ dbPath ++ ": " ++ e), log2⟩
          | .found =>
            let log3 := log2 ++ [HostCall.Command commandPath ["query", dbPath, queryString]]
            match h.combinedOutput commandPath ["query", dbPath, queryString] with
            | (output, some e) =>
              ⟨"", some ("failed to query database. output: " ++ output ++ ", error: " ++ e),
                log3⟩
            | (output, none) => ⟨output, none, log3⟩

end ovsdbtool

/-! ## `pkg/kubernetes/client/nodes.go` -/

namespace k8sclient

/-- The pod object that `createPod` submits, as far as the function sets it. -/
structure DebugPod where
  GenerateName : String
  Namespace : String
  NodeName : String
  HostNetwork : Bool
  HostPID : Bool
  HostIPC : Bool
  HostPath : String
  Image : String
  Command : List String
  Privileged : Bool
  RunAsUser : Int
  MountPath : String
  Env : List (String × String)
  deriving DecidableEq, Repr

/-- One request to the cluster API server. -/
inductive ApiCall where
  | Create (pod : DebugPod)
  | Get (ns name : String)
  | Exec (name ns container : String) (command : List String)
  | Delete (ns name : String)
  deriving DecidableEq, Repr

/-- Answer of the API server; each request reads the fields that concern it: `name` for a
create, `running` for a get, the two streams for an exec, `err` for all of them. -/
structure ApiResult where
  name : String := ""
  running : Bool := false
  stdout : String := ""
  stderr : String := ""
  err : Option String := none
  deriving DecidableEq, Repr

/-- The API server as an oracle over the history of requests. -/
abbrev Cluster := List ApiCall → ApiCall → ApiResult

/-- The library call `wait.PollUntilContextTimeout(ctx, interval, timeout, true, condition)`:
the condition runs at once and then once per interval until it holds, fails, or the time is
up (or the context is cancelled); `ticks` is the number of intervals that fit.  The result
is the error (`none` for nil) and the log after the last run of the condition. -/
def pollUntilContextTimeout (condition : List ApiCall → Except String Bool × List ApiCall) :
    Nat → List ApiCall → Option String × List ApiCall
  | 0, log =>
    match condition log with
    | (.error e, log1) => (some e, log1)
    | (.ok true, log1) => (none, log1)
    | (.ok false, log1) => (some "context deadline exceeded", log1)
  | ticks + 1, log =>
    match condition log with
    | (.error e, log1) => (some e, log1)
    | (.ok true, log1) => (none, log1)
    | (.ok false, log1) => pollUntilContextTimeout condition ticks log1

/-- Go results of `createPod`: the pod name, the cleanup closure (`none` for nil; run on a
log, it records its delete request), the error, and the log. -/
structure CreatePodReturn where
  name : String
  cleanupPod : Option (List ApiCall → List ApiCall)
  err : Option String
  log : List ApiCall

/-- The pod object `debugPod` that `createPod` builds before it talks to the cluster. -/
def debugPodObject (node ns image hostPath mountPath : String) : DebugPod :=
  let sleepCommand := ["sleep", "infinity"]
  let hostPath := if hostPath = "" then "/" else hostPath
  let mountPath := if mountPath = "" then "/host" else mountPath
  let envVars := if hostPath = "/" then [("HOST", mountPath)] else []
  { GenerateName := "debug-node-" ++ node ++ "-", Namespace := ns, NodeName := node,
    HostNetwork := true, HostPID := true, HostIPC := true, HostPath := hostPath,
    Image := image, Command := sleepCommand, Privileged := true, RunAsUser := 0,
    MountPath := mountPath, Env := envVars }

/-- Is the request a pod deletion? -/
def ApiCall.isDelete : ApiCall → Bool
  | .Delete _ _ => true
  | _ => false

/-- Is the request an exec? -/
def ApiCall.isExec : ApiCall → Bool
  | .Exec _ _ _ _ => true
  | _ => false

/-- The method `createPod`. -/
def createPod (c : Cluster) (ticks : Nat) (node ns image hostPath mountPath : String)
    (log : List ApiCall) : CreatePodReturn :=
  let debugPod := debugPodObject node ns image hostPath mountPath
  let created := c log (.Create debugPod)
  let log1 := log ++ [.Create debugPod]
  match created.err with
  | some e => ⟨"", none, some ("failed to create debug pod: " ++ e), log1⟩
  | none =>
    let cleanupPod : List ApiCall → List ApiCall := fun l => l ++ [.Delete ns created.name]
    let polled := pollUntilContextTimeout
      (fun l =>
        let pod := c l (.Get ns created.name)
        match pod.err with
        | some e => (.error e, l ++ [.Get ns created.name])
        | none => (.ok pod.running, l ++ [.Get ns created.name]))
      ticks log1
    match polled.1 with
    | some e =>
      ⟨"", none,
        some ("debug pod did not reach running state within timeout of 1 minute: " ++ e),
        cleanupPod polled.2⟩
    | none => ⟨created.name, some cleanupPod, none, polled.2⟩

/-- Go results of the client method `DebugNode` and the log of API requests. -/
structure DebugNodeReturn where
  stdout : String
  stderr : String
  err : Option String
  log : List ApiCall

/-- The client method `DebugNode`: create the pod, run the command in it, and run the
deferred cleanup on the way out. -/
def DebugNode (c : Cluster) (ticks : Nat) (name image : String) (command : List String)
    (hostPath mountPath : String) (log : List ApiCall) : DebugNodeReturn :=
  let ns := "default"
  let made := createPod c ticks name ns image hostPath mountPath log
  match made.err with
  | some e => ⟨"", "", some e, made.log⟩
  | none =>
    let deferred : List ApiCall → List ApiCall :=
      match made.cleanupPod with
      | some cleanupPod => cleanupPod
      | none => id
    let call := ApiCall.Exec made.name ns "debug-container" command
    let r := c made.log call
    let log2 := made.log ++ [call]
    match r.err with
    | some e => ⟨"", "", some ("failed to execute command in debug pod: " ++ e), deferred log2⟩
    | none => ⟨r.stdout, r.stderr, none, deferred log2⟩

/-- The clientset that the handlers hold, over a cluster: its `DebugNode` is the client
method above and its `ExecPod` is one exec request.  Each call starts on an empty request
log, which is exact for a cluster whose answers do not depend on the requests made before. -/
def clientSet (c : Cluster) (ticks : Nat) : ClientSet := fun _ call =>
  match call with
  | .DebugNode name image command hostPath mountPath =>
    let r := DebugNode c ticks name image command hostPath mountPath []
    ⟨r.stdout, r.stderr, r.err⟩
  | .ExecPod name ns container command =>
    let r := c [] (.Exec name ns container command)
    ⟨r.stdout, r.stderr, r.err⟩

end k8sclient

/-! ## `pkg/sosreport/mcp` -/

namespace sosreport

/-- One access to the filesystem. -/
inductive FsCall where
  | Stat (path : String)
  | Open (path : String)
  deriving DecidableEq, Repr

/-- What a `bufio.Scanner` yields from an opened file: its lines in order, and the error
that `scanner.Err()` reports once they are used up (`none` for nil). -/
structure Scanned where
  lines : List String
  err : Option String := none

/-- The filesystem and the libraries that the package calls: `notExist path` says whether
`os.IsNotExist` holds for the error of `os.Stat(path)`, `osOpen` is `os.Open` followed by the
scan of the file, `regexpCompile` is `regexp.Compile` (the compiled expression is its
`MatchString`), and `quote` is how `%q` prints a string. -/
structure Host where
  notExist : String → Bool
  osOpen : String → Except String Scanned
  regexpCompile : String → Except String (String → Bool)
  quote : String → String

/-- The constant `defaultResultLimit`. -/
def defaultResultLimit : Int := 100

/-- The function `validateSosreportPath`, with the log of filesystem accesses. -/
def validateSosreportPath (h : Host) (sosreportPath : String) (log : List FsCall) :
    Option String × List FsCall :=
  let log1 := log ++ [.Stat sosreportPath]
  if h.notExist sosreportPath then
    (some ("sosreport path does not exist: " ++ sosreportPath), log1)
  else
    let sosCommandsPath := filepathJoin [sosreportPath, "sos_commands"]
    let log2 := log1 ++ [.Stat sosCommandsPath]
    if h.notExist sosCommandsPath then
      (some "not a valid sosreport: missing sos_commands directory", log2)
    else
      let manifestPath := filepathJoin [sosreportPath, "sos_reports", "manifest.json"]
      let log3 := log2 ++ [.Stat manifestPath]
      if h.notExist manifestPath then
        (some "not a valid sosreport: missing sos_reports/manifest.json", log3)
      else (none, log3)

/-- The function `validateRelativePath`. -/
def validateRelativePath (relPath : String) : Except String Unit :=
  let cleanPath := filepathClean relPath
  if stringsContains cleanPath ".." || filepathIsAbs cleanPath then
    .error "invalid path: path traversal not allowed"
  else .ok ()

/-- The scan loop of `readWithLimit` over the lines still to come: the text written so far,
the count of lines written, and whether the loop was left by its `break`. -/
def readLoop (pattern : Option (String → Bool)) (maxLines : Int) :
    List String → String → Int → String × Bool
  | [], result, _ => (result, false)
  | line :: rest, result, lineCount =>
    let matched := match pattern with
      | none => true
      | some p => p line
    let result := if matched then result ++ line ++ "\n" else result
    let lineCount := if matched then lineCount + 1 else lineCount
    if maxLines > 0 ∧ lineCount ≥ maxLines then
      (result ++ ("\n... (output truncated at " ++ strconvItoa maxLines ++ " lines)\n"), true)
    else readLoop pattern maxLines rest result lineCount

/-- The function `readWithLimit`; a scan that was left by `break` has met no error. -/
def readWithLimit (reader : Scanned) (pattern : Option (String → Bool)) (maxLines : Int) :
    Except String String :=
  let scanned := readLoop pattern maxLines reader.lines "" 0
  if scanned.2 then .ok scanned.1
  else
    match reader.err with
    | some e => .error e
    | none => .ok scanned.1

/-- The function `getCommandOutput`, with the log of filesystem accesses. -/
def getCommandOutput (h : Host) (sosreportPath relativeFilepath pattern : String)
    (maxLines : Int) (log : List FsCall) : Except String String × List FsCall :=
  match validateSosreportPath h sosreportPath log with
  | (some e, log1) => (.error e, log1)
  | (none, log1) =>
    match validateRelativePath relativeFilepath with
    | .error e => (.error e, log1)
    | .ok _ =>
      let fullPath := filepathJoin [sosreportPath, relativeFilepath]
      let log2 := log1 ++ [.Stat fullPath]
      if h.notExist fullPath then
        (.error ("command output file not found: " ++ relativeFilepath), log2)
      else
        let log3 := log2 ++ [.Open fullPath]
        match h.osOpen fullPath with
        | .error e => (.error ("failed to open file: " ++ e), log3)
        | .ok file =>
          let compiled : Except String (Option (String → Bool)) :=
            if pattern ≠ "" then
              match h.regexpCompile pattern with
              | .error e => .error ("invalid pattern: " ++ e)
              | .ok re => .ok (some re)
            else .ok none
          match compiled with
          | .error e => (.error e, log3)
          | .ok searchPattern =>
            let maxLines := if maxLines ≤ 0 then defaultResultLimit else maxLines
            match readWithLimit file searchPattern maxLines with
            | .error e => (.error e, log3)
            | .ok output =>
              if output = "" ∧ pattern ≠ "" then
                (.ok ("No lines matching pattern " ++ h.quote pattern ++ " found\n"), log3)
              else (.ok output, log3)

/-- The Go call `strings.TrimPrefix(s, prefix)`. -/
def stringsTrimPrefix (s pre : String) : String :=
  if stringsHasPrefix s pre then String.mk (s.data.drop pre.data.length) else s

/-- The struct `types.FilesDetail`, as far as `searchPodLogs` reads it. -/
structure FilesDetail where
  FilesCopied : List String
  deriving DecidableEq, Repr

/-- The struct `types.PluginDetail`, as far as `searchPodLogs` reads it. -/
structure PluginDetail where
  Files : List FilesDetail
  deriving DecidableEq, Repr

/-- The struct `types.Manifest`, as far as `searchPodLogs` reads it: the map
`Components.Report.Plugins`, as a list of keys and values. -/
structure Manifest where
  Plugins : List (String × PluginDetail)
  deriving DecidableEq, Repr

/-- The libraries behind `loadManifest` and `searchInFile`: `os.ReadFile`, `json.Unmarshal`
into a manifest, and `gzip.NewReader` on the file at a path, followed by the scan of the
stream it gives. -/
structure Lib where
  osReadFile : String → Except String String
  jsonUnmarshal : String → Except String Manifest
  gzipNewReader : String → Except String Scanned

/-- The function `loadManifest`. -/
def loadManifest (lib : Lib) (sosreportPath : String) : Except String Manifest :=
  let manifestPath := filepathJoin [sosreportPath, "sos_reports", "manifest.json"]
  match lib.osReadFile manifestPath with
  | .error e => .error ("failed to read manifest.json: " ++ e)
  | .ok data =>
    match lib.jsonUnmarshal data with
    | .error e => .error ("failed to parse manifest.json: " ++ e)
    | .ok manifest => .ok manifest

/-- The reader that `searchInFile` hands to `readWithLimit`: the opened file, or the gzip
stream over it when the name ends in `.gz`. -/
def searchReader (h : Host) (lib : Lib) (filePath : String) : Except String Scanned :=
  match h.osOpen filePath with
  | .error e => .error e
  | .ok file =>
    if stringsHasSuffix filePath ".gz" then
      match lib.gzipNewReader filePath with
      | .error e => .error ("failed to create gzip reader: " ++ e)
      | .ok gzReader => .ok gzReader
    else .ok file

/-- The function `searchInFile`. -/
def searchInFile (h : Host) (lib : Lib) (filePath : String) (pattern : Option (String → Bool))
    (maxLines : Int) : Except String String :=
  match searchReader h lib filePath with
  | .error e => .error e
  | .ok reader => readWithLimit reader pattern maxLines

/-- The matching lines that `searchInFile` can write for a file under the budget `maxLines`:
the first `maxLines` lines of its reader that match; none when the file cannot be read. -/
def searchedLines (h : Host) (lib : Lib) (searchPattern : String → Bool) (filePath : String)
    (maxLines : Int) : List String :=
  match searchReader h lib filePath with
  | .error _ => []
  | .ok reader => (reader.lines.filter searchPattern).take maxLines.toNat

/-- One call of `searchInFile` made by `searchPodLogs`: the log path, the full path, and
the line budget passed as `maxLines`. -/
structure SearchCall where
  logPath : String
  fullPath : String
  maxLines : Int
  deriving DecidableEq, Repr

/-- The two nested loops of `searchPodLogs` over the copied files of the plugin, as one
loop over the paths in order.  The result is the text built, the count `totalMatches`, and
whether the function returned from inside the loop; each call of `searchInFile` is logged. -/
def searchFiles (h : Host) (lib : Lib) (searchPattern : String → Bool)
    (sosreportPath podFilter : String) (maxResults : Int) :
    List String → String → Int → List SearchCall →
      Except String (String × Int × Bool) × List SearchCall
  | [], result, totalMatches, log => (.ok (result, totalMatches, false), log)
  | logPath :: rest, result, totalMatches, log =>
    if podFilter ≠ "" ∧ !stringsContains logPath podFilter then
      searchFiles h lib searchPattern sosreportPath podFilter maxResults rest result
        totalMatches log
    else
      let logPath := stringsTrimPrefix logPath "host/"
      let fullPath := filepathJoin [sosreportPath, logPath]
      let log1 := log ++ [⟨logPath, fullPath, maxResults - totalMatches⟩]
      match searchInFile h lib fullPath (some searchPattern) (maxResults - totalMatches) with
      | .error e => (.error e, log1)
      | .ok found =>
        if found.utf8ByteSize > 0 then
          let result := result ++ ("\n=== " ++ logPath ++ " ===\n") ++ found
          let totalMatches := totalMatches + (stringsSplit found '\n').length
          if totalMatches ≥ maxResults then
            (.ok (result ++ ("\n... (search truncated at " ++ strconvItoa maxResults ++
              " results)\n"), totalMatches, true), log1)
          else
            searchFiles h lib searchPattern sosreportPath podFilter maxResults rest result
              totalMatches log1
        else
          searchFiles h lib searchPattern sosreportPath podFilter maxResults rest result
            totalMatches log1

/-- The function `searchPodLogs`, with the log of its calls of `searchInFile`. -/
def searchPodLogs (h : Host) (lib : Lib) (sosreportPath pattern podFilter : String)
    (maxResults : Int) : Except String String × List SearchCall :=
  match h.regexpCompile pattern with
  | .error e => (.error ("invalid search pattern: " ++ e), [])
  | .ok searchPattern =>
    match loadManifest lib sosreportPath with
    | .error e => (.error e, [])
    | .ok manifest =>
      let maxResults := if maxResults ≤ 0 then defaultResultLimit else maxResults
      match manifest.Plugins.lookup "container_log" with
      | none => (.ok "No pod logs found in sosreport\n", [])
      | some containerLogPlugin =>
        if containerLogPlugin.Files.length = 0 then
          (.ok "No pod logs found in sosreport\n", [])
        else
          let paths := (containerLogPlugin.Files.map (fun f => f.FilesCopied)).flatten
          match searchFiles h lib searchPattern sosreportPath podFilter maxResults paths "" 0
              [] with
          | (.error e, log) => (.error e, log)
          | (.ok (result, totalMatches, returned), log) =>
            if returned then (.ok result, log)
            else if totalMatches = 0 then
              (.ok ("No matches found for pattern: " ++ pattern ++ "\n"), log)
            else (.ok result, log)

end sosreport

/-! ## `pkg/utils/utils.go` -/

namespace utils

/-- The function `StripEmptyLines`: the lines that are not blank. -/
def StripEmptyLines (lines : List String) : List String :=
  if lines.length = 0 then lines
  else lines.filter (fun line => stringsTrimSpace line != "")

/-- The function `MatchPattern`; `regexpCompile` is the library call `regexp.Compile`, and a
compiled expression is its `MatchString`. -/
def MatchPattern (regexpCompile : String → Except String (String → Bool)) (pattern : String)
    (lines : List String) : Except String (List String) :=
  if lines.length = 0 then .ok lines
  else
    match regexpCompile pattern with
    | .error e => .error ("invalid search pattern: " ++ e)
    | .ok searchPattern => .ok (lines.filter (fun line => searchPattern line))

/-- The function `Head`. -/
def Head (lines : List String) (n : Int) : List String :=
  if lines.length = 0 then lines
  else if n ≤ 0 ∨ n ≥ lines.length then lines
  else lines.take n.toNat

/-- The function `Tail`. -/
def Tail (lines : List String) (n : Int) : List String :=
  if lines.length = 0 then lines
  else if n ≤ 0 ∨ n ≥ lines.length then lines
  else lines.drop (lines.length - n.toNat)

end utils

/-! ## `pkg/must-gather/utils/utils.go` -/

namespace mustgatherUtils

/-- The function `ValidateMustGatherPath`; `stat` is `os.Stat`, and the second component
lists the paths it was called on, in order. -/
def ValidateMustGatherPath (stat : String → ovsdbtool.StatResult) (mustGatherPath : String) :
    Option String × List String :=
  if mustGatherPath = "" then (some "must gather path is required", [])
  else if !filepathIsAbs mustGatherPath then
    (some ("must gather path " ++ mustGatherPath ++ " is not an absolute path"), [])
  else
    let mustGatherPath := filepathClean mustGatherPath
    match stat mustGatherPath with
    | .notExist msg =>
      (some ("must gather path " ++ mustGatherPath ++ " does not exist: " ++ msg),
        [mustGatherPath])
    | .failed msg =>
      (some ("failed to stat must gather path " ++ mustGatherPath ++ ": " ++ msg),
        [mustGatherPath])
    | .found =>
      let logFile := filepathJoin [mustGatherPath, "must-gather.log"]
      match stat logFile with
      | .notExist msg =>
        (some ("must gather log file " ++ logFile ++ " not found: " ++ msg),
          [mustGatherPath, logFile])
      | .failed msg =>
        (some ("failed to stat must gather log file " ++ logFile ++ ": " ++ msg),
          [mustGatherPath, logFile])
      | .found => (none, [mustGatherPath, logFile])

end mustgatherUtils

/-! ## `pkg/must-gather/omc-client` -/

namespace omcclient

/-- One step of a client method that takes or releases the lock of the client, reads the
filesystem, or runs the `omc` binary. -/
inductive Event where
  | Lock
  | Unlock
  | Stat (path : String)
  | Run (commandPath : String) (args : List String)
  deriving DecidableEq, Repr

/-- What the client needs from outside the package: `strings.ToLower`, `os.Stat`, and
`exec.CommandContext(...).CombinedOutput()`, whose answer may depend on the steps made before
(`omc use` selects the archive that later commands read). -/
structure Host where
  stringsToLower : String → String
  stat : String → ovsdbtool.StatResult
  combinedOutput : List Event → String → List String → String × Option String

/-- The class `[a-z0-9]`. -/
def isLowerAlnumChar (c : Char) : Bool :=
  ('a' ≤ c && c ≤ 'z') || ('0' ≤ c && c ≤ '9')

/-- The call `kubernetesNamePattern.MatchString(s)` for the pattern
`^[a-z0-9]([a-z0-9._-]*[a-z0-9])?$`. -/
def kubernetesNamePattern (s : String) : Bool :=
  match s.data with
  | [] => false
  | c :: cs =>
    isLowerAlnumChar c &&
      (match cs.reverse with
      | [] => true
      | d :: ds =>
        isLowerAlnumChar d &&
          ds.all (fun x => isLowerAlnumChar x || x == '.' || x == '_' || x == '-'))

/-- The function `validateKubernetesName`. -/
def validateKubernetesName (h : Host) (name : String) (allowEmpty : Bool) :
    Except String Unit :=
  if name = "" then
    if allowEmpty then .ok () else .error "field cannot be empty"
  else if stringsHasPrefix name "-" then .error ("name cannot start with '-': " ++ name)
  else if !kubernetesNamePattern (h.stringsToLower name) then
    .error ("invalid name format: " ++ name)
  else .ok ()

/-- The method `useMustGather`; the caller holds the lock. -/
def useMustGather (h : Host) (commandPath mustGatherPath : String) (log : List Event) :
    Option String × List Event :=
  match mustgatherUtils.ValidateMustGatherPath h.stat mustGatherPath with
  | (some e, paths) =>
    (some ("failed to validate must gather path: " ++ e), log ++ paths.map Event.Stat)
  | (none, paths) =>
    let log1 := log ++ paths.map Event.Stat
    let args := ["use", mustGatherPath]
    let r := h.combinedOutput log1 commandPath args
    let log2 := log1 ++ [.Run commandPath args]
    match r.2 with
    | some e =>
      (some ("failed to execute omc command. output: " ++ r.1 ++ ", error: " ++ e), log2)
    | none => (none, log2)

/-- Go results of a client method that returns text, and the log of its steps. -/
structure OutputReturn where
  output : String
  err : Option String
  log : List Event
  deriving DecidableEq, Repr

/-- The method `(*OmcClient).GetPodLogs`; the deferred unlock is the last step on every way
out once the lock is taken. -/
def GetPodLogs (h : Host) (commandPath mustGatherPath ns name container : String)
    (previous rotated : Bool) (log : List Event) : OutputReturn :=
  match validateKubernetesName h name false with
  | .error e => ⟨"", some ("failed to validate name: " ++ e), log⟩
  | .ok _ =>
    match validateKubernetesName h ns true with
    | .error e => ⟨"", some ("failed to validate namespace: " ++ e), log⟩
    | .ok _ =>
      match validateKubernetesName h container true with
      | .error e => ⟨"", some ("failed to validate container: " ++ e), log⟩
      | .ok _ =>
        let log1 := log ++ [.Lock]
        match useMustGather h commandPath mustGatherPath log1 with
        | (some e, log2) =>
          ⟨"", some ("failed to use must gather: " ++ e), log2 ++ [.Unlock]⟩
        | (none, log2) =>
          let args := ["logs", name]
          let args := if container ≠ "" then args ++ ["-c", container] else args
          let args := if ns ≠ "" then args ++ ["-n", ns] else args
          let args := if previous then args ++ ["-p"] else args
          let args := if rotated then args ++ ["-r"] else args
          let r := h.combinedOutput log2 commandPath args
          let log3 := log2 ++ [.Run commandPath args]
          match r.2 with
          | some e =>
            ⟨"", some ("failed to get pod logs. output: " ++ r.1 ++ ", error: " ++ e),
              log3 ++ [.Unlock]⟩
          | none => ⟨r.1, none, log3 ++ [.Unlock]⟩

/-- The constants of the type `OutputType` of `pkg/kubernetes/types`, a package that is not
among the sources; the client only compares its argument with them. -/
structure OutputTypes where
  JSONOutputType : String
  YAMLOutputType : String
  WideOutputType : String

/-- The character class of the regular expression `shellMetacharacters`:
`; & | $` backtick `< > \ ( )`. -/
def isShellMetacharacter (c : Char) : Bool :=
  c == ';' || c == '&' || c == '|' || c == '$' || c == '\x60' || c == '<' || c == '>' ||
  c == '\\' || c == '(' || c == ')'

/-- The function `validateLabelSelector`. -/
def validateLabelSelector (selector : String) : Except String Unit :=
  if selector = "" then .ok ()
  else if selector.data.any isShellMetacharacter then
    .error ("invalid characters in label selector: " ++ selector)
  else .ok ()

/-- The function `appendOutputTypeArgs`. -/
def appendOutputTypeArgs (k : OutputTypes) (args : List String) (outputType : String) :
    List String :=
  if outputType = k.JSONOutputType then args ++ ["-o", "json"]
  else if outputType = k.YAMLOutputType then args ++ ["-o", "yaml"]
  else if outputType = k.WideOutputType then args ++ ["-o", "wide"]
  else args

/-- The method `(*OmcClient).GetResource`. -/
def GetResource (h : Host) (k : OutputTypes) (commandPath mustGatherPath kind ns name : String)
    (outputType : String) (log : List Event) : OutputReturn :=
  match validateKubernetesName h kind false with
  | .error e => ⟨"", some ("failed to validate kind: " ++ e), log⟩
  | .ok _ =>
    match validateKubernetesName h name false with
    | .error e => ⟨"", some ("failed to validate name: " ++ e), log⟩
    | .ok _ =>
      match validateKubernetesName h ns true with
      | .error e => ⟨"", some ("failed to validate namespace: " ++ e), log⟩
      | .ok _ =>
        let log1 := log ++ [.Lock]
        match useMustGather h commandPath mustGatherPath log1 with
        | (some e, log2) =>
          ⟨"", some ("failed to use must gather: " ++ e), log2 ++ [.Unlock]⟩
        | (none, log2) =>
          let args := ["get", kind, name]
          let ns := if ns = "" then "default" else ns
          let args := args ++ ["-n", ns]
          let args := appendOutputTypeArgs k args outputType
          let r := h.combinedOutput log2 commandPath args
          let log3 := log2 ++ [.Run commandPath args]
          match r.2 with
          | some e =>
            ⟨"", some ("failed to get resource. output: " ++ r.1 ++ ", error: " ++ e),
              log3 ++ [.Unlock]⟩
          | none =>
            if stringsContains (h.stringsToLower r.1) "no resources" then
              ⟨"", some ("failed to get resource " ++ kind ++ " with name " ++ name ++
                " in namespace " ++ ns ++ ": " ++ r.1), log3 ++ [.Unlock]⟩
            else ⟨r.1, none, log3 ++ [.Unlock]⟩

/-- The method `(*OmcClient).ListResources`. -/
def ListResources (h : Host) (k : OutputTypes)
    (commandPath mustGatherPath kind ns labelSelector : String) (outputType : String)
    (log : List Event) : OutputReturn :=
  match validateKubernetesName h kind false with
  | .error e => ⟨"", some ("failed to validate kind: " ++ e), log⟩
  | .ok _ =>
    match validateKubernetesName h ns true with
    | .error e => ⟨"", some ("failed to validate namespace: " ++ e), log⟩
    | .ok _ =>
      match validateLabelSelector labelSelector with
      | .error e => ⟨"", some ("failed to validate label selector: " ++ e), log⟩
      | .ok _ =>
        let log1 := log ++ [.Lock]
        match useMustGather h commandPath mustGatherPath log1 with
        | (some e, log2) =>
          ⟨"", some ("failed to use must gather: " ++ e), log2 ++ [.Unlock]⟩
        | (none, log2) =>
          let args := ["get", kind]
          let args := if labelSelector ≠ "" then args ++ ["-l", labelSelector] else args
          let args := appendOutputTypeArgs k args outputType
          let args := if ns ≠ "" then args ++ ["-n", ns] else args ++ ["-A"]
          let r := h.combinedOutput log2 commandPath args
          let log3 := log2 ++ [.Run commandPath args]
          match r.2 with
          | some e =>
            ⟨"", some ("failed to list resources. output: " ++ r.1 ++ ", error: " ++ e),
              log3 ++ [.Unlock]⟩
          | none =>
            if stringsContains (h.stringsToLower r.1) "no resources" then
              if outputType = k.JSONOutputType then
                ⟨"\x7b\n  \"apiVersion\": \"v1\",\n  \"kind\": \"List\",\n  \"items\": []\n\x7d", none,
                  log3 ++ [.Unlock]⟩
              else if outputType = k.YAMLOutputType then
                ⟨"apiVersion: v1\nkind: List\nitems: []", none, log3 ++ [.Unlock]⟩
              else ⟨"", none, log3 ++ [.Unlock]⟩
            else ⟨r.1, none, log3 ++ [.Unlock]⟩

/-- The method `(*OmcClient).GetOvnKInfo`; the three constants of `types.InfoType` are
`extrainfo`, `hostnetinfo` and `subnets`. -/
def GetOvnKInfo (h : Host) (commandPath mustGatherPath infoType : String) (log : List Event) :
    OutputReturn :=
  let chosen : Option (List String) :=
    if infoType = "extrainfo" then some ["ovnk", "extrainfo"]
    else if infoType = "hostnetinfo" then some ["ovnk", "hostnetinfo"]
    else if infoType = "subnets" then some ["ovnk", "subnets"]
    else none
  match chosen with
  | none => ⟨"", some ("invalid info type: " ++ infoType), log⟩
  | some args =>
    let log1 := log ++ [.Lock]
    match useMustGather h commandPath mustGatherPath log1 with
    | (some e, log2) =>
      ⟨"", some ("failed to use must gather: " ++ e), log2 ++ [.Unlock]⟩
    | (none, log2) =>
      let r := h.combinedOutput log2 commandPath args
      let log3 := log2 ++ [.Run commandPath args]
      match r.2 with
      | some e =>
        ⟨"", some ("failed to get ovnk info. output: " ++ r.1 ++ ", error: " ++ e),
          log3 ++ [.Unlock]⟩
      | none => ⟨r.1, none, log3 ++ [.Unlock]⟩

/-- One request to the client: the method and its arguments. -/
inductive Request where
  | podLogs (mustGatherPath ns name container : String) (previous rotated : Bool)
  | getResource (mustGatherPath kind ns name outputType : String)
  | listResources (mustGatherPath kind ns labelSelector outputType : String)
  | ovnkInfo (mustGatherPath infoType : String)
  deriving DecidableEq, Repr

/-- The must-gather path of a request. -/
def Request.mustGatherPath : Request → String
  | .podLogs p _ _ _ _ _ => p
  | .getResource p _ _ _ _ => p
  | .listResources p _ _ _ _ => p
  | .ovnkInfo p _ => p

/-- The argument checks that the method makes before it takes the lock, in the order of
the source. -/
def Request.validation (h : Host) : Request → List (Except String Unit)
  | .podLogs _ ns name container _ _ =>
    [validateKubernetesName h name false, validateKubernetesName h ns true,
      validateKubernetesName h container true]
  | .getResource _ kind ns name _ =>
    [validateKubernetesName h kind false, validateKubernetesName h name false,
      validateKubernetesName h ns true]
  | .listResources _ kind ns labelSelector _ =>
    [validateKubernetesName h kind false, validateKubernetesName h ns true,
      validateLabelSelector labelSelector]
  | .ovnkInfo _ infoType =>
    [if infoType = "extrainfo" ∨ infoType = "hostnetinfo" ∨ infoType = "subnets" then .ok ()
      else .error ("invalid info type: " ++ infoType)]

/-- The method call that a request stands for. -/
def Request.call (h : Host) (k : OutputTypes) (commandPath : String) :
    Request → List Event → OutputReturn
  | .podLogs p ns name container previous rotated, log =>
    GetPodLogs h commandPath p ns name container previous rotated log
  | .getResource p kind ns name outputType, log =>
    GetResource h k commandPath p kind ns name outputType log
  | .listResources p kind ns labelSelector outputType, log =>
    ListResources h k commandPath p kind ns labelSelector outputType log
  | .ovnkInfo p infoType, log => GetOvnKInfo h commandPath p infoType log

/-- The state of two requests that run at the same time on one client: whether the mutex
is locked, the steps that each request has still to make, and the steps made so far, each
with the request that made it (`false` for the first, `true` for the second). -/
structure Sched where
  locked : Bool
  restFirst : List Event
  restSecond : List Event
  trace : List (Bool × Event)
  deriving DecidableEq, Repr

/-- The next step of request `t`, as `sync.Mutex` allows it: `Lock` waits while the mutex
is locked (no step), `Unlock` needs a locked mutex, any other step is free.  `none` when the
request cannot step. -/
def Sched.step (s : Sched) (t : Bool) : Option Sched :=
  match (if t then s.restSecond else s.restFirst) with
  | [] => none
  | e :: es =>
    let next (locked : Bool) : Sched :=
      if t then ⟨locked, s.restFirst, es, s.trace ++ [(t, e)]⟩
      else ⟨locked, es, s.restSecond, s.trace ++ [(t, e)]⟩
    match e with
    | .Lock => if s.locked then none else some (next true)
    | .Unlock => if s.locked then some (next false) else none
    | _ => some (next s.locked)

/-- Run a schedule, the list of the requests that step in turn; `none` when a scheduled
request cannot step. -/
def Sched.run : List Bool → Sched → Option Sched
  | [], s => some s
  | t :: ts, s =>
    match s.step t with
    | none => none
    | some s1 => Sched.run ts s1

end omcclient

/-! ## `pkg/must-gather/mcp/pods.go` -/

namespace mustgather

/-- The struct `types.GetPodLogsParams`, with the fields of the two structs it embeds. -/
structure GetPodLogsParams where
  MustGatherPath : String := ""
  Name : String := ""
  Namespace : String := ""
  Container : String := ""
  Previous : Bool := false
  Rotated : Bool := false
  Pattern : String := ""
  Head : Int := 0
  Tail : Int := 0
  deriving DecidableEq, Repr

/-- The constant `defaultMaxLines`. -/
def defaultMaxLines : Int := 100

/-- Go results of the handler `GetPodLogs`: the field `Logs` of its result, the error, and
the log of the steps of the omc client. -/
structure GetPodLogsReturn where
  Logs : List String
  err : Option String
  log : List omcclient.Event
  deriving DecidableEq, Repr

/-- The handler `(*MustGatherMCPServer).GetPodLogs`. -/
def GetPodLogs (h : omcclient.Host) (regexpCompile : String → Except String (String → Bool))
    (commandPath : String) (inp : GetPodLogsParams) (log : List omcclient.Event) :
    GetPodLogsReturn :=
  if inp.Name = "" then ⟨[], some "name is required", log⟩
  else if inp.Head ≠ 0 ∧ inp.Tail ≠ 0 then
    ⟨[], some "head and tail cannot be used together", log⟩
  else
    let got := omcclient.GetPodLogs h commandPath inp.MustGatherPath inp.Namespace inp.Name
      inp.Container inp.Previous inp.Rotated log
    match got.err with
    | some e => ⟨[], some e, got.log⟩
    | none =>
      let lines := utils.StripEmptyLines (stringsSplit got.output '\n')
      let matched : Except String (List String) :=
        if inp.Pattern ≠ "" then utils.MatchPattern regexpCompile inp.Pattern lines
        else .ok lines
      match matched with
      | .error e => ⟨[], some e, got.log⟩
      | .ok lines =>
        if inp.Tail = 0 then
          let maxLines := if inp.Head > 0 then inp.Head else defaultMaxLines
          ⟨utils.Head lines maxLines, none, got.log⟩
        else
          let maxLines := if inp.Tail > 0 then inp.Tail else defaultMaxLines
          ⟨utils.Tail lines maxLines, none, got.log⟩

end mustgather

/-! ## Properties -/

/-! ### Line splitting and joining -/

theorem splitChars_ne_nil (sep : Char) (cs : List Char) : splitChars sep cs ≠ [] := by
  cases cs with
  | nil => simp [splitChars]
  | cons c cs =>
    simp only [splitChars]
    split_ifs
    · simp
    · split <;> simp

theorem stringsSplit_length_pos (s : String) (sep : Char) :
    0 < (stringsSplit s sep).length := by
  unfold stringsSplit
  rw [List.length_map]
  exact List.length_pos.mpr (splitChars_ne_nil sep s.data)

theorem stringsSplit_empty (sep : Char) : stringsSplit "" sep = [""] := by
  rfl

theorem stringsJoin_append_singleton (xs : List String) (m sep : String) (h : xs ≠ []) :
    stringsJoin (xs ++ [m]) sep = stringsJoin xs sep ++ sep ++ m := by
  induction xs with
  | nil => exact absurd rfl h
  | cons a rest ih =>
    cases rest with
    | nil => simp [stringsJoin]
    | cons b rest =>
      have hb := ih (by simp)
      simp only [List.cons_append] at hb ⊢
      simp only [stringsJoin, hb, String.append_assoc]

/-! ### C7, C8: the line limit -/

/-- C7: when the text has more lines than the effective limit `L` (`maxLines` if positive,
else 100), `limitOutputLines` returns the first `L` lines joined by a newline, followed by the
single notice `\n\n... Output truncated. Showing first L lines out of N total lines.`. -/
theorem limitOutputLines_truncates (output : String) (maxLines : Int)
    (h : (if 0 < maxLines then maxLines else 100) < ((stringsSplit output '\n').length : Int)) :
    kernel.limitOutputLines output maxLines =
      stringsJoin ((stringsSplit output '\n').take (if 0 < maxLines then maxLines else 100).toNat)
          "\n" ++
        ("\n\n... Output truncated. Showing first " ++
          strconvItoa (if 0 < maxLines then maxLines else 100) ++ " lines out of " ++
          strconvItoa (stringsSplit output '\n').length ++ " total lines.") := by
  have hL : (if maxLines ≤ 0 then kernel.MaxOutputLines else maxLines) =
      (if 0 < maxLines then maxLines else 100) := by
    unfold kernel.MaxOutputLines
    split_ifs <;> first | rfl | omega
  have hpos : (1 : Int) ≤ (if 0 < maxLines then maxLines else 100) := by
    split_ifs <;> omega
  have hne : output ≠ "" := by
    rintro rfl
    rw [stringsSplit_empty] at h
    simp only [List.length_singleton, Nat.cast_one] at h
    omega
  have htake : (stringsSplit output '\n').take
      (if 0 < maxLines then maxLines else 100).toNat ≠ [] := by
    intro hnil
    rw [List.take_eq_nil_iff] at hnil
    rcases hnil with h0 | h0
    · omega
    · have := stringsSplit_length_pos output '\n'
      rw [h0] at this
      simp at this
  unfold kernel.limitOutputLines
  rw [if_neg hne]
  simp only [hL]
  rw [if_neg (not_le.mpr h), stringsJoin_append_singleton _ _ _ htake]
  simp only [String.append_assoc]
  rfl

/-- Witness for C7: three lines under a limit of two. -/
theorem limitOutputLines_truncates_witness :
    kernel.limitOutputLines "a\nb\nc" 2 =
      stringsJoin ((stringsSplit "a\nb\nc" '\n').take (if (0 : Int) < 2 then (2 : Int) else 100).toNat)
          "\n" ++
        ("\n\n... Output truncated. Showing first " ++
          strconvItoa (if (0 : Int) < 2 then 2 else 100) ++ " lines out of " ++
          strconvItoa (stringsSplit "a\nb\nc" '\n').length ++ " total lines.") :=
  limitOutputLines_truncates "a\nb\nc" 2 (by decide)

/-- C8: a limit `maxLines <= 0` behaves as the limit 100, and a text with at most `L` lines
(`L` the effective limit) is returned unchanged. -/
theorem limitOutputLines_default_and_unchanged (output : String) (maxLines : Int) :
    (maxLines ≤ 0 → kernel.limitOutputLines output maxLines = kernel.limitOutputLines output 100) ∧
    (((stringsSplit output '\n').length : Int) ≤ (if 0 < maxLines then maxLines else 100) →
      kernel.limitOutputLines output maxLines = output) := by
  constructor
  · intro h
    unfold kernel.limitOutputLines kernel.MaxOutputLines
    simp only [if_pos h]
    norm_num
  · intro h
    have hL : (if maxLines ≤ 0 then kernel.MaxOutputLines else maxLines) =
        (if 0 < maxLines then maxLines else 100) := by
      unfold kernel.MaxOutputLines
      split_ifs <;> first | rfl | omega
    unfold kernel.limitOutputLines
    by_cases hne : output = ""
    · rw [if_pos hne]
    · rw [if_neg hne]
      simp only [hL]
      rw [if_pos h]

/-- Witness for C8: two lines under the limit -5. -/
theorem limitOutputLines_default_and_unchanged_witness :
    kernel.limitOutputLines "a\nb" (-5) = kernel.limitOutputLines "a\nb" 100 ∧
      kernel.limitOutputLines "a\nb" (-5) = "a\nb" :=
  ⟨(limitOutputLines_default_and_unchanged "a\nb" (-5)).1 (by decide),
    (limitOutputLines_default_and_unchanged "a\nb" (-5)).2 (by decide)⟩

/-! ### C6: interface names -/

theorem char_le_iff (a b : Char) : a ≤ b ↔ a.toNat ≤ b.toNat := by
  rfl

theorem utf8Size_of_toNat_le (c : Char) (h : c.toNat ≤ 127) : c.utf8Size = 1 := by
  have h1 : c.val ≤ UInt32.ofNatCore 127 (by decide) := by
    show c.val.toNat ≤ 127
    exact h
  unfold Char.utf8Size
  simp only [h1, if_true]

theorem isInterfaceChar_toNat (c : Char) (h : isInterfaceChar c = true) : c.toNat ≤ 127 := by
  simp only [isInterfaceChar, isAlnumChar, Bool.or_eq_true, Bool.and_eq_true, decide_eq_true_eq,
    beq_iff_eq, char_le_iff] at h
  have hz : ('z' : Char).toNat = 122 := by decide
  have hZ : ('Z' : Char).toNat = 90 := by decide
  have h9 : ('9' : Char).toNat = 57 := by decide
  rcases h with ((((⟨_, h⟩ | ⟨_, h⟩) | ⟨_, h⟩) | h) | h) | h
  · omega
  · omega
  · omega
  · subst h; decide
  · subst h; decide
  · subst h; decide


theorem utf8ByteSize_go_ge_length (cs : List Char) : cs.length ≤ String.utf8ByteSize.go cs := by
  induction cs with
  | nil => simp [String.utf8ByteSize.go]
  | cons c cs ih =>
    have := Char.utf8Size_pos c
    simp only [String.utf8ByteSize.go, List.length_cons]
    omega

theorem utf8ByteSize_ge_length (s : String) : s.length ≤ s.utf8ByteSize := by
  cases s with
  | mk cs => exact utf8ByteSize_go_ge_length cs

theorem utf8ByteSize_go_ascii (cs : List Char) (h : ∀ c ∈ cs, c.toNat ≤ 127) :
    String.utf8ByteSize.go cs = cs.length := by
  induction cs with
  | nil => simp [String.utf8ByteSize.go]
  | cons c cs ih =>
    have h1 := utf8Size_of_toNat_le c (h c (List.mem_cons_self c cs))
    have h2 := ih (fun d hd => h d (List.mem_cons_of_mem c hd))
    simp only [String.utf8ByteSize.go, List.length_cons, h1, h2]

theorem isAlnumChar_isInterfaceChar (c : Char) (h : isAlnumChar c = true) :
    isInterfaceChar c = true := by
  simp [isInterfaceChar, h]

theorem interfaceNamePattern_all (s : String) (h : interfaceNamePattern s = true) :
    ∀ c ∈ s.data, isInterfaceChar c = true := by
  unfold interfaceNamePattern at h
  cases hs : s.data with
  | nil => simp
  | cons c cs =>
    rw [hs] at h
    simp only [Bool.and_eq_true, List.all_eq_true] at h
    intro d hd
    rcases List.mem_cons.mp hd with rfl | hd
    · exact isAlnumChar_isInterfaceChar d h.1
    · exact h.2 d hd

theorem interfaceNamePattern_utf8ByteSize (s : String) (h : interfaceNamePattern s = true) :
    s.utf8ByteSize = s.length := by
  have hall := interfaceNamePattern_all s h
  cases s with
  | mk cs => exact utf8ByteSize_go_ascii cs (fun c hc => isInterfaceChar_toNat c (hall c hc))

/-- C6: interface-name validation in `nettools` and in the external-tools client.  A name of
at most 15 characters that matches the allow pattern is accepted, and so are `any` and the
empty string; a string of more than 15 characters, or holding a character outside
`[A-Za-z0-9._-]`, is rejected. -/
theorem validateInterface_accepts_and_rejects (s : String) :
    (s.length ≤ 15 → interfaceNamePattern s = true →
      nettools.validateInterface s = .ok () ∧ client.ValidateInterface s = .ok ()) ∧
    (nettools.validateInterface "any" = .ok () ∧ client.ValidateInterface "any" = .ok () ∧
      nettools.validateInterface "" = .ok () ∧ client.ValidateInterface "" = .ok ()) ∧
    (15 < s.length →
      (∃ e, nettools.validateInterface s = .error e) ∧
        (∃ e, client.ValidateInterface s = .error e)) ∧
    ((∃ c ∈ s.data, isInterfaceChar c = false) →
      (∃ e, nettools.validateInterface s = .error e) ∧
        (∃ e, client.ValidateInterface s = .error e)) := by
  refine ⟨?_, ⟨rfl, rfl, rfl, rfl⟩, ?_, ?_⟩
  · intro hlen hpat
    have hsize : ¬ s.utf8ByteSize > 15 := by
      rw [interfaceNamePattern_utf8ByteSize s hpat]
      omega
    unfold nettools.validateInterface client.ValidateInterface
    simp only [hsize, hpat, if_false, Bool.not_true]
    constructor <;> split_ifs <;> first | rfl | contradiction
  · intro hlen
    have hsize : s.utf8ByteSize > 15 := lt_of_lt_of_le hlen (utf8ByteSize_ge_length s)
    have h1 : s ≠ "" := by
      rintro rfl
      simp at hlen
    have h2 : s ≠ "any" := by
      rintro rfl
      revert hlen
      decide
    unfold nettools.validateInterface client.ValidateInterface
    simp only [h1, h2, hsize, if_true, if_false]
    exact ⟨⟨_, rfl⟩, ⟨_, rfl⟩⟩
  · rintro ⟨c, hc, hbad⟩
    have h1 : s ≠ "" := by
      rintro rfl
      simp at hc
    have h2 : s ≠ "any" := by
      rintro rfl
      have hany : ∀ d ∈ "any".data, isInterfaceChar d = true := by decide
      rw [hany c hc] at hbad
      exact absurd hbad (by decide)
    have hpat : interfaceNamePattern s = false := by
      by_contra hne
      have hall := interfaceNamePattern_all s (by simpa using hne)
      rw [hall c hc] at hbad
      exact absurd hbad (by decide)
    unfold nettools.validateInterface client.ValidateInterface
    simp only [h1, h2, hpat, if_false, Bool.not_false, if_true]
    constructor <;> split_ifs <;> exact ⟨_, rfl⟩

/-- Witness for C6: the name `eth0.100` is accepted, the 16-character name
`eth0123456789abc` and the name `eth0;` are rejected. -/
theorem validateInterface_accepts_and_rejects_witness :
    (nettools.validateInterface "eth0.100" = .ok () ∧
      client.ValidateInterface "eth0.100" = .ok ()) ∧
    ((∃ e, nettools.validateInterface "eth0123456789abc" = .error e) ∧
      (∃ e, client.ValidateInterface "eth0123456789abc" = .error e)) ∧
    ((∃ e, nettools.validateInterface "eth0;" = .error e) ∧
      (∃ e, client.ValidateInterface "eth0;" = .error e)) :=
  ⟨(validateInterface_accepts_and_rejects "eth0.100").1 (by decide) (by decide),
    (validateInterface_accepts_and_rejects "eth0123456789abc").2.2.1 (by decide),
    (validateInterface_accepts_and_rejects "eth0;").2.2.2 ⟨';', by decide, by decide⟩⟩

/-! ### C9: free-text expression validators -/

theorem containsChars_singleton (cs : List Char) (c : Char) (h : c ∈ cs) :
    containsChars cs [c] = true := by
  induction cs with
  | nil => simp at h
  | cons d ds ih =>
    rcases List.mem_cons.mp h with rfl | hmem
    · simp [containsChars, hasPrefixChars]
    · simp [containsChars, ih hmem]

theorem stringsContains_singleton (s : String) (c : Char) (h : c ∈ s.data) :
    stringsContains s (String.singleton c) = true :=
  containsChars_singleton s.data c h

section

set_option maxRecDepth 20000

/-- C9, as stated, fails: `validatePacketFilter` accepts a backslash and parentheses,
`validateFlowSpec` accepts parentheses, NUL, a newline and a text of 1025 characters, and
`ValidateSysctlPattern` accepts a backslash, NUL, a newline and a text of 1025 characters. -/
theorem expression_validators_gaps :
    nettools.validatePacketFilter "tcp and \\(port 53\\)" = .ok () ∧
    ovs.validateFlowSpec "in_port=1,actions=ct(commit)" = .ok () ∧
    ovs.validateFlowSpec "in_port=1\x00\nactions=drop" = .ok () ∧
    ovs.validateFlowSpec (String.mk (List.replicate 1025 'a')) = .ok () ∧
    client.ValidateSysctlPattern "net.ipv4\\\x00\nx" = .ok () ∧
    client.ValidateSysctlPattern (String.mk ("net.".data ++ List.replicate 1021 'a')) = .ok () := by
  refine ⟨by decide, by decide, by decide, by decide, by decide, by decide⟩

end

theorem string_ne_empty_of_mem (s : String) (c : Char) (h : c ∈ s.data) : s ≠ "" := by
  rintro rfl
  simp at h

theorem validatePacketFilter_rejects_char (s : String) (c : Char) (hc : c ∈ s.data)
    (hp : String.singleton c ∈
      [";", "|", "&", "\x60", "$", "$(", "\n", "\x00", ">", "<", "'", "\""]) :
    ∃ e, nettools.validatePacketFilter s = .error e := by
  have hany : ([";", "|", "&", "\x60", "$", "$(", "\n", "\x00", ">", "<", "'", "\""].any
      (fun pattern => stringsContains s pattern)) = true :=
    List.any_eq_true.mpr ⟨String.singleton c, hp, stringsContains_singleton s c hc⟩
  unfold nettools.validatePacketFilter
  rw [if_neg (string_ne_empty_of_mem s c hc), hany]
  split_ifs <;> first | exact ⟨_, rfl⟩ | contradiction

theorem validateFlowSpec_rejects_char (s : String) (c : Char) (hc : c ∈ s.data)
    (hp : ovs.isDangerousFlowChar c = true) : ∃ e, ovs.validateFlowSpec s = .error e := by
  have hany : s.data.any ovs.isDangerousFlowChar = true := List.any_eq_true.mpr ⟨c, hc, hp⟩
  unfold ovs.validateFlowSpec
  rw [if_neg (string_ne_empty_of_mem s c hc), hany]
  exact ⟨_, rfl⟩

theorem ValidateSysctlPattern_rejects_char (s : String) (c : Char) (hc : c ∈ s.data)
    (hp : String.singleton c ∈ [";", "|", "&", "\x60", "$", "(", ")", "<", ">"]) :
    ∃ e, client.ValidateSysctlPattern s = .error e := by
  have hany : ([";", "|", "&", "\x60", "$", "(", ")", "<", ">"].any
      (fun char => stringsContains s char)) = true :=
    List.any_eq_true.mpr ⟨String.singleton c, hp, stringsContains_singleton s c hc⟩
  unfold client.ValidateSysctlPattern
  rw [if_neg (string_ne_empty_of_mem s c hc), hany]
  split_ifs <;> first | exact ⟨_, rfl⟩ | contradiction

/-- C9, amended: each of the three validators rejects every input holding one of
`; | & $` backtick `< >`; on top of that `validatePacketFilter` rejects NUL, a newline and
every input of more than 1024 characters, `validateFlowSpec` rejects a backslash, and
`ValidateSysctlPattern` rejects parentheses. -/
theorem expression_validators_reject (s : String) :
    ((∃ c ∈ s.data, c ∈ [';', '|', '&', '$', '\x60', '<', '>']) →
      (∃ e, nettools.validatePacketFilter s = .error e) ∧
        (∃ e, ovs.validateFlowSpec s = .error e) ∧
        (∃ e, client.ValidateSysctlPattern s = .error e)) ∧
    ((∃ c ∈ s.data, c ∈ ['\x00', '\n']) → ∃ e, nettools.validatePacketFilter s = .error e) ∧
    (1024 < s.length → ∃ e, nettools.validatePacketFilter s = .error e) ∧
    ('\\' ∈ s.data → ∃ e, ovs.validateFlowSpec s = .error e) ∧
    ((∃ c ∈ s.data, c ∈ ['(', ')']) → ∃ e, client.ValidateSysctlPattern s = .error e) := by
  refine ⟨?_, ?_, ?_, ?_, ?_⟩
  · rintro ⟨c, hc, hmem⟩
    simp only [List.mem_cons, List.mem_singleton, List.not_mem_nil, or_false] at hmem
    rcases hmem with rfl | rfl | rfl | rfl | rfl | rfl | rfl
    all_goals
      exact ⟨validatePacketFilter_rejects_char s _ hc (by decide),
        validateFlowSpec_rejects_char s _ hc (by decide),
        ValidateSysctlPattern_rejects_char s _ hc (by decide)⟩
  · rintro ⟨c, hc, hmem⟩
    simp only [List.mem_cons, List.mem_singleton, List.not_mem_nil, or_false] at hmem
    rcases hmem with rfl | rfl
    all_goals exact validatePacketFilter_rejects_char s _ hc (by decide)
  · intro hlen
    have hsize : s.utf8ByteSize > 1024 := lt_of_lt_of_le hlen (utf8ByteSize_ge_length s)
    have hne : s ≠ "" := by
      rintro rfl
      simp at hlen
    unfold nettools.validatePacketFilter
    rw [if_neg hne, if_pos hsize]
    exact ⟨_, rfl⟩
  · intro hc
    exact validateFlowSpec_rejects_char s _ hc (by decide)
  · rintro ⟨c, hc, hmem⟩
    simp only [List.mem_cons, List.mem_singleton, List.not_mem_nil, or_false] at hmem
    rcases hmem with rfl | rfl
    all_goals exact ValidateSysctlPattern_rejects_char s _ hc (by decide)

/-- Witness for the amended C9: `a;b` is rejected by all three validators, `a\nb` and a text
of 1025 characters by `validatePacketFilter`, `a\b` by `validateFlowSpec` and `net.(x)` by
`ValidateSysctlPattern`. -/
theorem expression_validators_reject_witness :
    ((∃ e, nettools.validatePacketFilter "a;b" = .error e) ∧
      (∃ e, ovs.validateFlowSpec "a;b" = .error e) ∧
      (∃ e, client.ValidateSysctlPattern "a;b" = .error e)) ∧
    (∃ e, nettools.validatePacketFilter "a\nb" = .error e) ∧
    (∃ e, nettools.validatePacketFilter (String.mk (List.replicate 1025 'a')) = .error e) ∧
    (∃ e, ovs.validateFlowSpec "a\\b" = .error e) ∧
    (∃ e, client.ValidateSysctlPattern "net.(x)" = .error e) :=
  ⟨(expression_validators_reject "a;b").1 ⟨';', by decide, by decide⟩,
    (expression_validators_reject "a\nb").2.1 ⟨'\n', by decide, by decide⟩,
    (expression_validators_reject (String.mk (List.replicate 1025 'a'))).2.2.1
      (by show 1024 < (List.replicate 1025 'a').length
          rw [List.length_replicate]
          norm_num),
    (expression_validators_reject "a\\b").2.2.2.1 (by decide),
    (expression_validators_reject "net.(x)").2.2.2.2 ⟨'(', by decide, by decide⟩⟩

/-! ### C3, C4: the external-tools packet capture -/

/-- C3: a capture request that passes every validation rule of `Tcpdump`, with no packet
count, no snaplen and the text output format, hands exactly
`tcpdump -i <interface> -n -s 96 -v` to the execution, followed by the BPF filter as one
token when there is one. -/
theorem Tcpdump_default_argv (cs : ClientSet) (inp : external_tools.TcpdumpParams)
    (log : List ExecCall)
    (hiface : client.ValidateInterface inp.Interface = .ok ())
    (hfilter : client.ValidateBPFFilter inp.BPFFilter = .ok ())
    (hany : ¬ (inp.Interface = "any" ∧ inp.BPFFilter = "" ∧
      ((inp.Duration = 0 ∧ inp.PacketCount = 0) ∨ inp.Duration > 10 ∨ inp.PacketCount > 100)))
    (htwo : external_tools.requireAtLeastNParams 2 [("duration", decide (inp.Duration > 0)),
      ("packet_count", decide (inp.PacketCount > 0)), ("bpf_filter", inp.BPFFilter != "")] =
        .ok ())
    (hduration : external_tools.validateIntMax inp.Duration external_tools.MaxTcpdumpDuration
      "duration" "seconds" = .ok ())
    (hcount : inp.PacketCount = 0) (hsnaplen : inp.Snaplen = 0)
    (hformat : inp.OutputFormat = "" ∨ inp.OutputFormat = "text") :
    external_tools.Tcpdump cs inp log =
      external_tools.executeAndWrapResult cs inp.toTargetParams
        (["tcpdump", "-i", inp.Interface, "-n", "-s", "96", "-v"] ++
          (if inp.BPFFilter = "" then [] else [inp.BPFFilter])) log := by
  have h1 : ¬ (inp.Interface = "any" ∧ inp.BPFFilter = "" ∧ inp.Duration = 0 ∧
      inp.PacketCount = 0) := fun h => hany ⟨h.1, h.2.1, Or.inl h.2.2⟩
  have h2 : ¬ (inp.Interface = "any" ∧ inp.BPFFilter = "" ∧
      (inp.Duration > 10 ∨ inp.PacketCount > 100)) := fun h => hany ⟨h.1, h.2.1, Or.inr h.2.2⟩
  have hfmt : external_tools.stringWithDefault inp.OutputFormat "text" = "text" := by
    rcases hformat with h | h <;> simp [external_tools.stringWithDefault, h]
  unfold external_tools.Tcpdump
  simp only [hiface, hfilter, if_neg h1, if_neg h2, htwo, hduration, hfmt, if_true]
  simp only [hcount, hsnaplen, external_tools.validateIntMax, external_tools.MaxPacketCount,
    external_tools.DefaultSnaplen, external_tools.MaxSnaplen, if_true]
  by_cases hb : inp.BPFFilter = ""
  · simp [hb, newCommand, commandBuilder.addIf, commandBuilder.add, commandBuilder.addIfNotEmpty,
      commandBuilder.build]
    rfl
  · simp [hb, newCommand, commandBuilder.addIf, commandBuilder.add, commandBuilder.addIfNotEmpty,
      commandBuilder.build]
    rfl

/-- Witness for C3: the request `interface=eth0, duration=5, bpf_filter="port 53"` on a node
hands `tcpdump -i eth0 -n -s 96 -v "port 53"` to the execution. -/
theorem Tcpdump_default_argv_witness :
    external_tools.Tcpdump (fun _ _ => {})
        { TargetType := "node", NodeName := "worker-1", NodeImage := "netshoot",
          Interface := "eth0", Duration := 5, BPFFilter := "port 53" } [] =
      external_tools.executeAndWrapResult (fun _ _ => {})
        { TargetType := "node", NodeName := "worker-1", NodeImage := "netshoot" }
        ["tcpdump", "-i", "eth0", "-n", "-s", "96", "-v", "port 53"] [] :=
  Tcpdump_default_argv (fun _ _ => {})
    { TargetType := "node", NodeName := "worker-1", NodeImage := "netshoot",
      Interface := "eth0", Duration := 5, BPFFilter := "port 53" } []
    (by decide) (by decide) (by decide) (by decide) (by decide) rfl rfl (Or.inl rfl)

/-- C4: a capture on the interface `any` without a BPF filter is accepted only if
`1 <= duration <= 10` and `1 <= packet_count <= 100`; any other such request is answered
with an error and no call on the executor. -/
theorem Tcpdump_any_without_filter (cs : ClientSet) (inp : external_tools.TcpdumpParams)
    (log : List ExecCall) (hiface : inp.Interface = "any") (hfilter : inp.BPFFilter = "")
    (hbounds : ¬ (1 ≤ inp.Duration ∧ inp.Duration ≤ 10 ∧ 1 ≤ inp.PacketCount ∧
      inp.PacketCount ≤ 100)) :
    ∃ e, external_tools.Tcpdump cs inp log = ⟨{}, some e, log⟩ := by
  unfold external_tools.Tcpdump
  rw [hiface, hfilter]
  have h1 : client.ValidateInterface "any" = .ok () := rfl
  have h2 : client.ValidateBPFFilter "" = .ok () := rfl
  simp only [h1, h2, true_and]
  by_cases ha : inp.Duration = 0 ∧ inp.PacketCount = 0
  · rw [if_pos ha]
    exact ⟨_, rfl⟩
  · rw [if_neg ha]
    by_cases hb : inp.Duration > 10 ∨ inp.PacketCount > 100
    · rw [if_pos hb]
      exact ⟨_, rfl⟩
    · rw [if_neg hb]
      have hcount : ¬ (inp.Duration > 0 ∧ inp.PacketCount > 0) := by
        intro hc
        apply hbounds
        omega
      have htwo : ∃ e, external_tools.requireAtLeastNParams 2
          [("duration", decide (inp.Duration > 0)),
            ("packet_count", decide (inp.PacketCount > 0)), ("bpf_filter", ("" : String) != "")] =
          .error e := by
        unfold external_tools.requireAtLeastNParams
        by_cases hd : inp.Duration > 0 <;> by_cases hp : inp.PacketCount > 0
        · exact absurd ⟨hd, hp⟩ hcount
        all_goals
          simp only [hd, hp, decide_True, decide_False, List.filter]
          exact ⟨_, rfl⟩
      obtain ⟨e, he⟩ := htwo
      rw [he]
      exact ⟨_, rfl⟩

/-- Witness for C4: a capture on `any` with no filter, no duration and no packet count is
rejected before any call. -/
theorem Tcpdump_any_without_filter_witness :
    ∃ e, external_tools.Tcpdump (fun _ _ => {})
      { TargetType := "node", NodeName := "worker-1", NodeImage := "netshoot",
        Interface := "any" } [] = ⟨{}, some e, []⟩ :=
  Tcpdump_any_without_filter (fun _ _ => {})
    { TargetType := "node", NodeName := "worker-1", NodeImage := "netshoot",
      Interface := "any" } [] rfl rfl (by decide)

/-! ### C1: validation and execution -/

theorem kubernetes_DebugNode_default_paths (cs : ClientSet) (node image : String)
    (command : List String) (log : List ExecCall) :
    (kubernetes.DebugNode cs { Name := node, Image := image, Command := command } log).calls =
      log ++ [ExecCall.DebugNode node image command "" ""] := by
  unfold kubernetes.DebugNode
  have h : kubernetes.validatePath "" "hostPath" = .ok () := rfl
  have h' : kubernetes.validatePath "" "mountPath" = .ok () := rfl
  simp only [h, h']
  split <;> rfl

theorem UtilityExists_calls (cs : ClientSet) (node image utility : String)
    (log : List ExecCall) :
    (kernel.UtilityExists cs node image utility log).calls =
      log ++ [ExecCall.DebugNode node image ["chroot", "/host", utility, "-V"] "" ""] := by
  unfold kernel.UtilityExists
  simp only [newCommand, commandBuilder.build]
  split_ifs <;> exact kubernetes_DebugNode_default_paths cs node image _ log

/-- C1, as stated, fails for the kernel handlers: with a table name that `validateTableName`
rejects, `GetIptables` returns the validation error, yet one call has reached the executor:
the probe `chroot /host iptables -V`. -/
theorem GetIptables_rejected_after_probe :
    (∃ e, kernel.validateTableName "bogus" = .error e) ∧
    kernel.GetIptables (fun _ _ => {})
        { Node := "worker-1", Image := "netshoot", Table := "bogus" } [] =
      ⟨{}, some "error while getting list of iptables rules: invalid table name: bogus",
        [ExecCall.DebugNode "worker-1" "netshoot" ["chroot", "/host", "iptables", "-V"] "" ""]⟩ := by
  exact ⟨⟨_, rfl⟩, by decide⟩

theorem GetIptables_rejected (cs : ClientSet) (log : List ExecCall)
    (inp : kernel.ListIPTablesParams)
    (hrej : (∃ e, kernel.validateTableName inp.Table = .error e) ∨
      (∃ e, kernel.validateIptablesCommand inp.Command = .error e) ∨
      (∃ e, kernel.validateParameters inp.FilterParameters = .error e)) :
    ∃ e, kernel.GetIptables cs inp log = ⟨{}, some e,
      log ++ [ExecCall.DebugNode inp.Node inp.Image ["chroot", "/host", "iptables", "-V"] "" ""]⟩ := by
  have hcalls := UtilityExists_calls cs inp.Node inp.Image "iptables" log
  unfold kernel.GetIptables
  generalize kernel.UtilityExists cs inp.Node inp.Image "iptables" log = probe at hcalls ⊢
  simp only [hcalls]
  rcases hrej with ⟨e, he⟩ | ⟨e, he⟩ | ⟨e, he⟩
  · simp only [he]
    split_ifs <;> exact ⟨_, rfl⟩
  · simp only [he]
    split_ifs
    · exact ⟨_, rfl⟩
    · split <;> exact ⟨_, rfl⟩
  · have hne : inp.FilterParameters ≠ "" := by
      intro h
      rw [h] at he
      cases he
    simp only [he, if_pos hne]
    split_ifs
    · exact ⟨_, rfl⟩
    · split
      · exact ⟨_, rfl⟩
      · split <;> exact ⟨_, rfl⟩

theorem GetNFT_rejected (cs : ClientSet) (log : List ExecCall) (inp : kernel.ListNFTParams)
    (hrej : (∃ e, kernel.validateNFTCommand inp.Command = .error e) ∨
      (∃ e, kernel.validateNFTAddressFamily inp.AddressFamilies = .error e)) :
    ∃ e, kernel.GetNFT cs inp log = ⟨{}, some e,
      log ++ [ExecCall.DebugNode inp.Node inp.Image ["chroot", "/host", "nft", "-V"] "" ""]⟩ := by
  have hcalls := UtilityExists_calls cs inp.Node inp.Image "nft" log
  unfold kernel.GetNFT
  generalize kernel.UtilityExists cs inp.Node inp.Image "nft" log = probe at hcalls ⊢
  simp only [hcalls]
  rcases hrej with ⟨e, he⟩ | ⟨e, he⟩
  · simp only [he]
    split_ifs <;> exact ⟨_, rfl⟩
  · simp only [he]
    split_ifs
    · exact ⟨_, rfl⟩
    · split <;> exact ⟨_, rfl⟩

theorem validateParameters_empty : kernel.validateParameters "" = .ok () := by
  rfl

theorem GetIPCommandOutput_rejected (cs : ClientSet) (log : List ExecCall)
    (inp : kernel.ListIPParams)
    (hrej : (∃ e, kernel.validateIPCommand inp.Command = .error e) ∨
      (∃ e, kernel.validateParameters inp.FilterParameters = .error e) ∨
      (∃ e, kernel.validateParameters inp.Options = .error e)) :
    ∃ e, kernel.GetIPCommandOutput cs inp log = ⟨{}, some e,
      log ++ [ExecCall.DebugNode inp.Node inp.Image ["chroot", "/host", "ip", "-V"] "" ""]⟩ := by
  have hcalls := UtilityExists_calls cs inp.Node inp.Image "ip" log
  unfold kernel.GetIPCommandOutput
  generalize kernel.UtilityExists cs inp.Node inp.Image "ip" log = probe at hcalls ⊢
  simp only [hcalls]
  rcases hrej with ⟨e, he⟩ | ⟨e, he⟩ | ⟨e, he⟩
  · simp only [he]
    split_ifs <;> exact ⟨_, rfl⟩
  · have hne : inp.FilterParameters ≠ "" := by
      intro h
      rw [h, validateParameters_empty] at he
      cases he
    simp only [he, if_pos hne]
    split_ifs
    · exact ⟨_, rfl⟩
    · split <;> exact ⟨_, rfl⟩
  · have hne : inp.Options ≠ "" := by
      intro h
      rw [h, validateParameters_empty] at he
      cases he
    simp only [he, if_pos hne]
    repeat' (first | exact ⟨_, rfl⟩ | split)

theorem GetConntrack_rejected (cs : ClientSet) (log : List ExecCall)
    (inp : kernel.ListConntrackParams)
    (hrej : (∃ e, kernel.validateConntrackCommand inp.Command
        (kernel.UtilityExists cs inp.Node inp.Image "conntrack" log).result = .error e) ∨
      (∃ e, kernel.validateParameters inp.FilterParameters = .error e)) :
    ∃ e, kernel.GetConntrack cs inp log = ⟨{}, some e,
      log ++
        [ExecCall.DebugNode inp.Node inp.Image ["chroot", "/host", "conntrack", "-V"] "" ""]⟩ := by
  have hcalls := UtilityExists_calls cs inp.Node inp.Image "conntrack" log
  unfold kernel.GetConntrack
  generalize kernel.UtilityExists cs inp.Node inp.Image "conntrack" log = probe at hcalls hrej ⊢
  simp only [hcalls]
  rcases hrej with ⟨e, he⟩ | ⟨e, he⟩
  · simp only [he]
    exact ⟨_, rfl⟩
  · have hne : inp.FilterParameters ≠ "" := by
      intro h
      rw [h, validateParameters_empty] at he
      cases he
    simp only [he, if_pos hne]
    split <;> exact ⟨_, rfl⟩

theorem Tcpdump_rejected (cs : ClientSet) (log : List ExecCall)
    (inp : external_tools.TcpdumpParams)
    (hrej : (∃ e, client.ValidateInterface inp.Interface = .error e) ∨
      (∃ e, client.ValidateBPFFilter inp.BPFFilter = .error e) ∨
      (inp.Interface = "any" ∧ inp.BPFFilter = "" ∧
        ((inp.Duration = 0 ∧ inp.PacketCount = 0) ∨ inp.Duration > 10 ∨
          inp.PacketCount > 100)) ∨
      (∃ e, external_tools.requireAtLeastNParams 2 [("duration", decide (inp.Duration > 0)),
        ("packet_count", decide (inp.PacketCount > 0)), ("bpf_filter", inp.BPFFilter != "")] =
          .error e) ∨
      (∃ e, external_tools.validateIntMax inp.Duration external_tools.MaxTcpdumpDuration
        "duration" "seconds" = .error e) ∨
      (∃ e, external_tools.validateIntMax inp.PacketCount external_tools.MaxPacketCount
        "packet_count" "" = .error e) ∨
      (∃ e, external_tools.validateIntMax
        (if inp.Snaplen = 0 then external_tools.DefaultSnaplen else inp.Snaplen)
        external_tools.MaxSnaplen "snaplen" "bytes" = .error e) ∨
      (external_tools.stringWithDefault inp.OutputFormat "text" ≠ "text" ∧
        external_tools.stringWithDefault inp.OutputFormat "text" ≠ "pcap")) :
    ∃ e, external_tools.Tcpdump cs inp log = ⟨{}, some e, log⟩ := by
  unfold external_tools.Tcpdump
  split
  · exact ⟨_, rfl⟩
  split
  · exact ⟨_, rfl⟩
  split
  · exact ⟨_, rfl⟩
  split
  · exact ⟨_, rfl⟩
  split
  · exact ⟨_, rfl⟩
  split
  · exact ⟨_, rfl⟩
  split
  · exact ⟨_, rfl⟩
  simp only []
  split
  · exact ⟨_, rfl⟩
  split
  · exfalso
    rename_i x1 a1 hv1 x2 a2 hv2 hn1 hn2 x3 a3 hv3 x4 a4 hv4 x5 a5 hv5 x6 a6 hv6 hfmt
    rcases hrej with ⟨e, he⟩ | ⟨e, he⟩ | ⟨ha, hb, hc⟩ | ⟨e, he⟩ | ⟨e, he⟩ | ⟨e, he⟩ | ⟨e, he⟩ |
      ⟨hf1, hf2⟩
    · rw [he] at hv1
      cases hv1
    · rw [he] at hv2
      cases hv2
    · rcases hc with hc | hc
      · exact hn1 ⟨ha, hb, hc⟩
      · exact hn2 ⟨ha, hb, hc⟩
    · rw [he] at hv3
      cases hv3
    · rw [he] at hv4
      cases hv4
    · rw [he] at hv5
      cases hv5
    · rw [he] at hv6
      cases hv6
    · exact hf1 hfmt
  split
  · exfalso
    rename_i x1 a1 hv1 x2 a2 hv2 hn1 hn2 x3 a3 hv3 x4 a4 hv4 x5 a5 hv5 x6 a6 hv6 hnt hfmt
    rcases hrej with ⟨e, he⟩ | ⟨e, he⟩ | ⟨ha, hb, hc⟩ | ⟨e, he⟩ | ⟨e, he⟩ | ⟨e, he⟩ | ⟨e, he⟩ |
      ⟨hf1, hf2⟩
    · rw [he] at hv1
      cases hv1
    · rw [he] at hv2
      cases hv2
    · rcases hc with hc | hc
      · exact hn1 ⟨ha, hb, hc⟩
      · exact hn2 ⟨ha, hb, hc⟩
    · rw [he] at hv3
      cases hv3
    · rw [he] at hv4
      cases hv4
    · rw [he] at hv5
      cases hv5
    · rw [he] at hv6
      cases hv6
    · exact hf2 hfmt
  · exact ⟨_, rfl⟩

/-- C1, amended: a request that a validation rule rejects gets an error and its command is
never run.  The external-tools handler `Tcpdump` makes no call on the executor; the kernel
handlers `GetIptables`, `GetNFT`, `GetIPCommandOutput` and `GetConntrack` make exactly one
call, the probe `chroot /host <utility> -V` that `UtilityExists` issues before the rules are
applied. -/
theorem rejected_request_is_never_run (cs : ClientSet) (log : List ExecCall) :
    (∀ inp : external_tools.TcpdumpParams,
      ((∃ e, client.ValidateInterface inp.Interface = .error e) ∨
        (∃ e, client.ValidateBPFFilter inp.BPFFilter = .error e) ∨
        (inp.Interface = "any" ∧ inp.BPFFilter = "" ∧
          ((inp.Duration = 0 ∧ inp.PacketCount = 0) ∨ inp.Duration > 10 ∨
            inp.PacketCount > 100)) ∨
        (∃ e, external_tools.requireAtLeastNParams 2
          [("duration", decide (inp.Duration > 0)),
            ("packet_count", decide (inp.PacketCount > 0)),
            ("bpf_filter", inp.BPFFilter != "")] = .error e) ∨
        (∃ e, external_tools.validateIntMax inp.Duration external_tools.MaxTcpdumpDuration
          "duration" "seconds" = .error e) ∨
        (∃ e, external_tools.validateIntMax inp.PacketCount external_tools.MaxPacketCount
          "packet_count" "" = .error e) ∨
        (∃ e, external_tools.validateIntMax
          (if inp.Snaplen = 0 then external_tools.DefaultSnaplen else inp.Snaplen)
          external_tools.MaxSnaplen "snaplen" "bytes" = .error e) ∨
        (external_tools.stringWithDefault inp.OutputFormat "text" ≠ "text" ∧
          external_tools.stringWithDefault inp.OutputFormat "text" ≠ "pcap")) →
      ∃ e, external_tools.Tcpdump cs inp log = ⟨{}, some e, log⟩) ∧
    (∀ inp : kernel.ListIPTablesParams,
      ((∃ e, kernel.validateTableName inp.Table = .error e) ∨
        (∃ e, kernel.validateIptablesCommand inp.Command = .error e) ∨
        (∃ e, kernel.validateParameters inp.FilterParameters = .error e)) →
      ∃ e, kernel.GetIptables cs inp log = ⟨{}, some e, log ++
        [ExecCall.DebugNode inp.Node inp.Image ["chroot", "/host", "iptables", "-V"] "" ""]⟩) ∧
    (∀ inp : kernel.ListNFTParams,
      ((∃ e, kernel.validateNFTCommand inp.Command = .error e) ∨
        (∃ e, kernel.validateNFTAddressFamily inp.AddressFamilies = .error e)) →
      ∃ e, kernel.GetNFT cs inp log = ⟨{}, some e, log ++
        [ExecCall.DebugNode inp.Node inp.Image ["chroot", "/host", "nft", "-V"] "" ""]⟩) ∧
    (∀ inp : kernel.ListIPParams,
      ((∃ e, kernel.validateIPCommand inp.Command = .error e) ∨
        (∃ e, kernel.validateParameters inp.FilterParameters = .error e) ∨
        (∃ e, kernel.validateParameters inp.Options = .error e)) →
      ∃ e, kernel.GetIPCommandOutput cs inp log = ⟨{}, some e, log ++
        [ExecCall.DebugNode inp.Node inp.Image ["chroot", "/host", "ip", "-V"] "" ""]⟩) ∧
    (∀ inp : kernel.ListConntrackParams,
      ((∃ e, kernel.validateConntrackCommand inp.Command
          (kernel.UtilityExists cs inp.Node inp.Image "conntrack" log).result = .error e) ∨
        (∃ e, kernel.validateParameters inp.FilterParameters = .error e)) →
      ∃ e, kernel.GetConntrack cs inp log = ⟨{}, some e, log ++
        [ExecCall.DebugNode inp.Node inp.Image ["chroot", "/host", "conntrack", "-V"] "" ""]⟩) :=
  ⟨fun inp h => Tcpdump_rejected cs log inp h,
    fun inp h => GetIptables_rejected cs log inp h,
    fun inp h => GetNFT_rejected cs log inp h,
    fun inp h => GetIPCommandOutput_rejected cs log inp h,
    fun inp h => GetConntrack_rejected cs log inp h⟩

/-- Witness for the amended C1: one rejected request for each of the five handlers. -/
theorem rejected_request_is_never_run_witness :
    (∃ e, external_tools.Tcpdump (fun _ _ => {})
      { TargetType := "node", NodeName := "worker-1", NodeImage := "netshoot",
        Interface := "eth0;" } [] = ⟨{}, some e, []⟩) ∧
    (∃ e, kernel.GetIptables (fun _ _ => {})
      { Node := "worker-1", Image := "netshoot", Table := "bogus" } [] = ⟨{}, some e,
        [ExecCall.DebugNode "worker-1" "netshoot" ["chroot", "/host", "iptables", "-V"] "" ""]⟩) ∧
    (∃ e, kernel.GetNFT (fun _ _ => {})
      { Node := "worker-1", Image := "netshoot", Command := "flush ruleset" } [] = ⟨{}, some e,
        [ExecCall.DebugNode "worker-1" "netshoot" ["chroot", "/host", "nft", "-V"] "" ""]⟩) ∧
    (∃ e, kernel.GetIPCommandOutput (fun _ _ => {})
      { Node := "worker-1", Image := "netshoot", Command := "link set eth0 down" } [] =
        ⟨{}, some e,
          [ExecCall.DebugNode "worker-1" "netshoot" ["chroot", "/host", "ip", "-V"] "" ""]⟩) ∧
    (∃ e, kernel.GetConntrack (fun _ _ => {})
      { Node := "worker-1", Image := "netshoot", Command := "-D" } [] = ⟨{}, some e,
        [ExecCall.DebugNode "worker-1" "netshoot" ["chroot", "/host", "conntrack", "-V"] "" ""]⟩) :=
  ⟨(rejected_request_is_never_run (fun _ _ => {}) []).1
      { TargetType := "node", NodeName := "worker-1", NodeImage := "netshoot",
        Interface := "eth0;" } (Or.inl ⟨_, rfl⟩),
    (rejected_request_is_never_run (fun _ _ => {}) []).2.1
      { Node := "worker-1", Image := "netshoot", Table := "bogus" } (Or.inl ⟨_, rfl⟩),
    (rejected_request_is_never_run (fun _ _ => {}) []).2.2.1
      { Node := "worker-1", Image := "netshoot", Command := "flush ruleset" } (Or.inl ⟨_, rfl⟩),
    (rejected_request_is_never_run (fun _ _ => {}) []).2.2.2.1
      { Node := "worker-1", Image := "netshoot", Command := "link set eth0 down" }
      (Or.inl ⟨_, rfl⟩),
    (rejected_request_is_never_run (fun _ _ => {}) []).2.2.2.2
      { Node := "worker-1", Image := "netshoot", Command := "-D" } (Or.inl ⟨_, rfl⟩)⟩

/-! ### C5: the database name of a query -/

theorem filepathBase_no_slash (s : String) (h : '/' ∈ (ovsdbtool.filepathBase s).data) :
    ovsdbtool.filepathBase s = "/" := by
  unfold ovsdbtool.filepathBase at h ⊢
  by_cases hs : s = ""
  · rw [if_pos hs] at h
    exact absurd h (by decide)
  · rw [if_neg hs] at h ⊢
    simp only at h ⊢
    split_ifs at h ⊢ with hl
    · rfl
    · exfalso
      simp only [List.mem_reverse] at h
      have := List.mem_takeWhile_imp h
      simp at this

/-- C5: `QueryDatabase` answers with an error, before any access to the filesystem and before
`ovsdb-tool` is run, when the database name is empty, ends neither in `_nbdb` nor in `_sbdb`,
differs from its own `filepath.Base`, or holds a path separator. -/
theorem QueryDatabase_rejects_database_name {J : Type} (h : ovsdbtool.Host J)
    (commandPath mustGatherPath dbName table : String) (conditions columns : List String)
    (log : List ovsdbtool.HostCall)
    (hbad : dbName = "" ∨
      (stringsHasSuffix dbName "_nbdb" = false ∧ stringsHasSuffix dbName "_sbdb" = false) ∨
      ovsdbtool.filepathBase dbName ≠ dbName ∨ '/' ∈ dbName.data) :
    ∃ e, ovsdbtool.QueryDatabase h commandPath mustGatherPath dbName table conditions columns
      log = ⟨"", some e, log⟩ := by
  by_cases h1 : dbName = "" ∨
      (!stringsHasSuffix dbName "_nbdb" && !stringsHasSuffix dbName "_sbdb") = true
  · unfold ovsdbtool.QueryDatabase
    rw [if_pos h1]
    exact ⟨_, rfl⟩
  by_cases h2 : ovsdbtool.filepathBase dbName ≠ dbName
  · unfold ovsdbtool.QueryDatabase
    rw [if_neg h1, if_pos h2]
    exact ⟨_, rfl⟩
  · exfalso
    have hne : dbName ≠ "" := fun hx => h1 (Or.inl hx)
    have hbase : ovsdbtool.filepathBase dbName = dbName := not_not.mp h2
    rcases hbad with hb | ⟨hb1, hb2⟩ | hb | hb
    · exact hne hb
    · exact h1 (Or.inr (by simp [hb1, hb2]))
    · exact hb hbase
    · have hroot : ovsdbtool.filepathBase dbName = "/" :=
        filepathBase_no_slash dbName (by rw [hbase]; exact hb)
      rw [hbase] at hroot
      apply h1
      right
      rw [hroot]
      decide

/-- Witness for C5: the names `ovnkube_db`, `../etc/x_nbdb` and the empty name are rejected
with no host access. -/
theorem QueryDatabase_rejects_database_name_witness :
    (∃ e, ovsdbtool.QueryDatabase (J := Unit)
      ⟨fun _ => .ok (), fun _ _ _ _ => .ok "q", fun _ => "p", fun _ => .ok "d",
        fun _ => .found, fun _ _ => ("", none)⟩
      "ovsdb-tool" "/must-gather" "ovnkube_db" "Logical_Switch" [] [] [] = ⟨"", some e, []⟩) ∧
    (∃ e, ovsdbtool.QueryDatabase (J := Unit)
      ⟨fun _ => .ok (), fun _ _ _ _ => .ok "q", fun _ => "p", fun _ => .ok "d",
        fun _ => .found, fun _ _ => ("", none)⟩
      "ovsdb-tool" "/must-gather" "../etc/x_nbdb" "Logical_Switch" [] [] [] =
        ⟨"", some e, []⟩) ∧
    (∃ e, ovsdbtool.QueryDatabase (J := Unit)
      ⟨fun _ => .ok (), fun _ _ _ _ => .ok "q", fun _ => "p", fun _ => .ok "d",
        fun _ => .found, fun _ _ => ("", none)⟩
      "ovsdb-tool" "/must-gather" "" "Logical_Switch" [] [] [] = ⟨"", some e, []⟩) :=
  ⟨QueryDatabase_rejects_database_name _ _ _ _ _ _ _ _ (Or.inr (Or.inl (by decide))),
    QueryDatabase_rejects_database_name _ _ _ _ _ _ _ _ (Or.inr (Or.inr (Or.inr (by decide)))),
    QueryDatabase_rejects_database_name _ _ _ _ _ _ _ _ (Or.inl rfl)⟩

/-! ### C2: the node debug lifecycle -/

theorem pollUntilContextTimeout_log
    (condition : List k8sclient.ApiCall → Except String Bool × List k8sclient.ApiCall)
    (g : k8sclient.ApiCall) (hc : ∀ l, (condition l).2 = l ++ [g]) :
    ∀ (ticks : Nat) (log : List k8sclient.ApiCall),
      ∃ k, (k8sclient.pollUntilContextTimeout condition ticks log).2 =
        log ++ List.replicate k g := by
  intro ticks
  induction ticks with
  | zero =>
    intro log
    refine ⟨1, ?_⟩
    have h := hc log
    unfold k8sclient.pollUntilContextTimeout
    split <;> simp_all
  | succ n ih =>
    intro log
    have h := hc log
    unfold k8sclient.pollUntilContextTimeout
    split
    · exact ⟨1, by simp_all⟩
    · exact ⟨1, by simp_all⟩
    · rename_i log1 heq
      obtain ⟨k, hk⟩ := ih log1
      refine ⟨k + 1, ?_⟩
      rw [hk]
      have : log1 = log ++ [g] := by simp_all
      rw [this, List.replicate_succ]
      simp

theorem createPod_created (c : k8sclient.Cluster) (ticks : Nat)
    (node ns image hostPath mountPath : String) (log : List k8sclient.ApiCall)
    (hcreated : (c log (.Create (k8sclient.debugPodObject node ns image hostPath mountPath))).err =
      none) :
    ∃ k,
      ((k8sclient.createPod c ticks node ns image hostPath mountPath log).err = none ∧
        (k8sclient.createPod c ticks node ns image hostPath mountPath log).name =
          (c log (.Create (k8sclient.debugPodObject node ns image hostPath mountPath))).name ∧
        (k8sclient.createPod c ticks node ns image hostPath mountPath log).cleanupPod =
          some (fun l => l ++ [.Delete ns
            (c log (.Create (k8sclient.debugPodObject node ns image hostPath mountPath))).name]) ∧
        (k8sclient.createPod c ticks node ns image hostPath mountPath log).log =
          log ++ [.Create (k8sclient.debugPodObject node ns image hostPath mountPath)] ++
            List.replicate k (.Get ns
              (c log (.Create (k8sclient.debugPodObject node ns image hostPath mountPath))).name)) ∨
      ((k8sclient.createPod c ticks node ns image hostPath mountPath log).err ≠ none ∧
        (k8sclient.createPod c ticks node ns image hostPath mountPath log).name = "" ∧
        (k8sclient.createPod c ticks node ns image hostPath mountPath log).cleanupPod.isNone ∧
        (k8sclient.createPod c ticks node ns image hostPath mountPath log).log =
          log ++ [.Create (k8sclient.debugPodObject node ns image hostPath mountPath)] ++
            List.replicate k (.Get ns
              (c log (.Create (k8sclient.debugPodObject node ns image hostPath mountPath))).name) ++
            [.Delete ns
              (c log (.Create (k8sclient.debugPodObject node ns image hostPath mountPath))).name]) := by
  obtain ⟨k, hk⟩ := pollUntilContextTimeout_log
    (fun l =>
      match (c l (.Get ns
        (c log (.Create (k8sclient.debugPodObject node ns image hostPath mountPath))).name)).err with
      | some e => (.error e, l ++ [.Get ns
          (c log (.Create (k8sclient.debugPodObject node ns image hostPath mountPath))).name])
      | none => (.ok (c l (.Get ns
          (c log (.Create (k8sclient.debugPodObject node ns image hostPath mountPath))).name)).running,
          l ++ [.Get ns
            (c log (.Create (k8sclient.debugPodObject node ns image hostPath mountPath))).name]))
    (.Get ns (c log (.Create (k8sclient.debugPodObject node ns image hostPath mountPath))).name)
    (fun l => by dsimp only; split <;> rfl)
    ticks (log ++ [.Create (k8sclient.debugPodObject node ns image hostPath mountPath)])
  refine ⟨k, ?_⟩
  unfold k8sclient.createPod
  simp only [hcreated]
  split
  · right
    simp [hk]
  · left
    simp [hk]

theorem countP_isDelete_replicate_get (k : Nat) (ns name : String) :
    (List.replicate k (k8sclient.ApiCall.Get ns name)).countP k8sclient.ApiCall.isDelete = 0 := by
  induction k with
  | zero => rfl
  | succ n ih => simp [List.replicate_succ, List.countP_cons, ih, k8sclient.ApiCall.isDelete]

theorem countP_isExec_replicate_get (k : Nat) (ns name : String) :
    (List.replicate k (k8sclient.ApiCall.Get ns name)).countP k8sclient.ApiCall.isExec = 0 := by
  induction k with
  | zero => rfl
  | succ n ih => simp [List.replicate_succ, List.countP_cons, ih, k8sclient.ApiCall.isExec]

/-- C2: in every run of the client `DebugNode` in which the pod was created, the pod is
deleted exactly once: right after the exec (whatever the exec returns) when the pod reached
Running, and right after the poll when it did not, in which case `createPod` hands back an
error with no pod name and no cleanup, and no command is executed. -/
theorem DebugNode_deletes_created_pod_once (c : k8sclient.Cluster) (ticks : Nat)
    (name image : String) (command : List String) (hostPath mountPath : String)
    (log : List k8sclient.ApiCall)
    (hcreated :
      (c log (.Create (k8sclient.debugPodObject name "default" image hostPath mountPath))).err =
        none) :
    let pod := (c log (.Create (k8sclient.debugPodObject name "default" image hostPath
      mountPath))).name
    let made := k8sclient.createPod c ticks name "default" image hostPath mountPath log
    let r := k8sclient.DebugNode c ticks name image command hostPath mountPath log
    r.log.countP k8sclient.ApiCall.isDelete = log.countP k8sclient.ApiCall.isDelete + 1 ∧
    (made.err = none →
      r.log = made.log ++
        [.Exec pod "default" "debug-container" command, .Delete "default" pod]) ∧
    (made.err ≠ none →
      made.name = "" ∧ made.cleanupPod.isNone ∧ r.err = made.err ∧ r.log = made.log ∧
        r.log.countP k8sclient.ApiCall.isExec = log.countP k8sclient.ApiCall.isExec ∧
        r.log.getLast? = some (.Delete "default" pod)) := by
  intro pod made r
  obtain ⟨k, h⟩ := createPod_created c ticks name "default" image hostPath mountPath log hcreated
  rcases h with ⟨he, hn, hcl, hl⟩ | ⟨he, hn, hcl, hl⟩
  · have hr : r.log = made.log ++
        [.Exec pod "default" "debug-container" command, .Delete "default" pod] := by
      show (k8sclient.DebugNode c ticks name image command hostPath mountPath log).log = _
      unfold k8sclient.DebugNode
      simp only [he, hn, hcl]
      split <;> simp [pod, made]
    refine ⟨?_, fun _ => hr, fun hne => absurd he hne⟩
    rw [hr]
    show (List.countP _ ((k8sclient.createPod c ticks name "default" image hostPath mountPath
      log).log ++ _)) = _
    rw [hl]
    simp [List.countP_append, List.countP_cons, countP_isDelete_replicate_get,
      k8sclient.ApiCall.isDelete]
  · have hr : r = ⟨"", "", made.err, made.log⟩ := by
      show k8sclient.DebugNode c ticks name image command hostPath mountPath log = _
      unfold k8sclient.DebugNode
      cases hme : (k8sclient.createPod c ticks name "default" image hostPath mountPath log).err with
      | none => exact absurd hme he
      | some e => simp [made, hme]
    have hrl : r.log = made.log := by rw [hr]
    have hre : r.err = made.err := by rw [hr]
    refine ⟨?_, fun hnone => absurd hnone he, fun _ => ⟨hn, hcl, hre, hrl, ?_, ?_⟩⟩
    · rw [hrl]
      show (List.countP _ (k8sclient.createPod c ticks name "default" image hostPath mountPath
        log).log) = _
      rw [hl]
      simp [List.countP_append, List.countP_cons, countP_isDelete_replicate_get,
        k8sclient.ApiCall.isDelete]
    · rw [hrl]
      show (List.countP _ (k8sclient.createPod c ticks name "default" image hostPath mountPath
        log).log) = _
      rw [hl]
      simp [List.countP_append, List.countP_cons, countP_isExec_replicate_get,
        k8sclient.ApiCall.isExec]
    · rw [hrl]
      show (k8sclient.createPod c ticks name "default" image hostPath mountPath log).log.getLast? =
        _
      rw [hl, List.getLast?_concat]

/-- Witness for C2: a cluster that creates the pod and never reports it Running (two
intervals fit in the poll), and a cluster whose pod runs at once but whose exec fails. -/
theorem DebugNode_deletes_created_pod_once_witness :
    ((k8sclient.DebugNode
        (fun _ call => match call with
          | .Create _ => { name := "debug-node-w1-x7k" }
          | _ => {})
        2 "w1" "netshoot" ["ip", "a"] "" "" []).log.countP k8sclient.ApiCall.isDelete = 1 ∧
      (k8sclient.DebugNode
        (fun _ call => match call with
          | .Create _ => { name := "debug-node-w1-x7k" }
          | _ => {})
        2 "w1" "netshoot" ["ip", "a"] "" "" []).log =
        [.Create (k8sclient.debugPodObject "w1" "default" "netshoot" "" ""),
          .Get "default" "debug-node-w1-x7k", .Get "default" "debug-node-w1-x7k",
          .Get "default" "debug-node-w1-x7k", .Delete "default" "debug-node-w1-x7k"]) ∧
    ((k8sclient.DebugNode
        (fun _ call => match call with
          | .Create _ => { name := "debug-node-w1-x7k" }
          | .Get _ _ => { running := true }
          | .Exec _ _ _ _ => { err := some "exit status 1" }
          | _ => {})
        2 "w1" "netshoot" ["ip", "a"] "" "" []).log.countP k8sclient.ApiCall.isDelete = 1 ∧
      (k8sclient.DebugNode
        (fun _ call => match call with
          | .Create _ => { name := "debug-node-w1-x7k" }
          | .Get _ _ => { running := true }
          | .Exec _ _ _ _ => { err := some "exit status 1" }
          | _ => {})
        2 "w1" "netshoot" ["ip", "a"] "" "" []).log =
        [.Create (k8sclient.debugPodObject "w1" "default" "netshoot" "" ""),
          .Get "default" "debug-node-w1-x7k",
          .Exec "debug-node-w1-x7k" "default" "debug-container" ["ip", "a"],
          .Delete "default" "debug-node-w1-x7k"]) :=
  ⟨⟨(DebugNode_deletes_created_pod_once
        (fun _ call => match call with
          | .Create _ => { name := "debug-node-w1-x7k" }
          | _ => {})
        2 "w1" "netshoot" ["ip", "a"] "" "" [] rfl).1, by decide⟩,
    ⟨(DebugNode_deletes_created_pod_once
        (fun _ call => match call with
          | .Create _ => { name := "debug-node-w1-x7k" }
          | .Get _ _ => { running := true }
          | .Exec _ _ _ _ => { err := some "exit status 1" }
          | _ => {})
        2 "w1" "netshoot" ["ip", "a"] "" "" [] rfl).1, by decide⟩⟩

/-! ### C10: the operations that get-iptables can issue -/

/-- C10 fails on the code: the request `command=-L, filter_parameters=-Z` passes
`validateTableName`, `validateIptablesCommand` and `validateParameters`, and the command that
`GetIptables` runs, `iptables -t filter -L -Z`, holds the mutating operation `-Z` (zero the
counters); with `filter_parameters=-F INPUT` it holds `-F` (flush). -/
theorem GetIptables_runs_mutating_operation :
    kernel.validateTableName "" = .ok () ∧
    kernel.validateIptablesCommand "-L" = .ok () ∧
    kernel.validateParameters "-Z" = .ok () ∧
    kernel.validateParameters "-F INPUT" = .ok () ∧
    kernel.iptablesArgv { Command := "-L", FilterParameters := "-Z" } =
      ["iptables", "-t", "filter", "-L", "-Z"] ∧
    kernel.iptablesArgv { Command := "-L", FilterParameters := "-F INPUT" } =
      ["iptables", "-t", "filter", "-L", "-F", "INPUT"] ∧
    kernel.GetIptables (fun _ _ => {})
        { Node := "worker-1", Image := "netshoot", Command := "-L", FilterParameters := "-Z" }
        [] =
      ⟨{ Data := "" }, none,
        [ExecCall.DebugNode "worker-1" "netshoot" ["chroot", "/host", "iptables", "-V"] "" "",
          ExecCall.DebugNode "worker-1" "netshoot"
            ["chroot", "/host", "iptables", "-t", "filter", "-L", "-Z"] "" ""]⟩ := by
  decide

/-! ### Numeric strings and trimming -/

theorem strconvAtoiOk_chars (s : String) (h : strconvAtoiOk s = true) :
    ∀ c ∈ s.data, isDigitChar c = true ∨ c = '-' ∨ c = '+' := by
  unfold strconvAtoiOk at h
  split at h
  · simp at h
  · rename_i ds hs
    simp only [Bool.and_eq_true, List.all_eq_true] at h
    intro c hc
    rw [hs] at hc
    rcases List.mem_cons.mp hc with rfl | hc
    · exact Or.inr (Or.inl rfl)
    · exact Or.inl (h.1.2 c hc)
  · rename_i ds hs
    simp only [Bool.and_eq_true, List.all_eq_true] at h
    intro c hc
    rw [hs] at hc
    rcases List.mem_cons.mp hc with rfl | hc
    · exact Or.inr (Or.inr rfl)
    · exact Or.inl (h.1.2 c hc)
  · simp only [Bool.and_eq_true, List.all_eq_true] at h
    intro c hc
    exact Or.inl (h.1 c hc)

theorem mem_of_mem_stringsTrimSpace (s : String) (c : Char)
    (h : c ∈ (stringsTrimSpace s).data) : c ∈ s.data := by
  unfold stringsTrimSpace at h
  simp only [List.mem_reverse] at h
  have h1 := (List.dropWhile_suffix unicodeIsSpace).subset h
  rw [List.mem_reverse] at h1
  exact (List.dropWhile_suffix unicodeIsSpace).subset h1

theorem stringsTrimSpace_not_mem_of_atoi (s : String) (h : strconvAtoiOk s = true)
    (l : List String)
    (hl : ∀ x ∈ l, ∃ c ∈ x.data, isDigitChar c = false ∧ c ≠ '-' ∧ c ≠ '+') :
    stringsTrimSpace s ∉ l := by
  intro hmem
  obtain ⟨c, hc, hd, hm, hp⟩ := hl _ hmem
  rcases strconvAtoiOk_chars s h c (mem_of_mem_stringsTrimSpace s c hc) with h1 | h1 | h1
  · rw [h1] at hd
    cases hd
  · exact hm h1
  · exact hp h1

/-! ### C12: the kernel table-name validator -/

/-- C12: `validateTableName t` succeeds exactly when `t` is empty or `strings.TrimSpace(t)`
is one of `filter`, `nat`, `mangle`, `raw`, `security`; the numeric string `123`, the name
`random` and the upper-case `FILTER` are rejected. -/
theorem validateTableName_iff (t : String) :
    (kernel.validateTableName t = .ok () ↔
      (t = "" ∨ stringsTrimSpace t ∈ ["filter", "nat", "mangle", "raw", "security"])) ∧
    (∃ e, kernel.validateTableName "123" = .error e) ∧
    (∃ e, kernel.validateTableName "random" = .error e) ∧
    (∃ e, kernel.validateTableName "FILTER" = .error e) := by
  refine ⟨?_, ⟨_, rfl⟩, ⟨_, rfl⟩, ⟨_, rfl⟩⟩
  unfold kernel.validateTableName
  by_cases h0 : t = ""
  · simp [h0]
  · rw [if_neg h0]
    by_cases ha : strconvAtoiOk t = true
    · rw [if_pos ha]
      have hnot := stringsTrimSpace_not_mem_of_atoi t ha
        ["filter", "nat", "mangle", "raw", "security"] (by decide)
      simp only [h0, false_or]
      constructor
      · intro h
        cases h
      · intro h
        exact absurd h hnot
    · rw [if_neg ha]
      by_cases hm : stringsTrimSpace t ∈ ["filter", "nat", "mangle", "raw", "security"]
      · simp [h0, hm]
      · simp [h0, hm]

/-! ### C16: the conntrack command validator -/

/-- C16: `validateConntrackCommand command cliAvailable` succeeds exactly when `command` is
empty, or `strings.TrimSpace(command)` is one of `-L`, `-S`, `-C`, `--dump`, `--stats`,
`--count` and, without the conntrack CLI, one of `-L`, `--dump`. -/
theorem validateConntrackCommand_iff (command : String) (cliAvailable : Bool) :
    kernel.validateConntrackCommand command cliAvailable = .ok () ↔
      (command = "" ∨
        (stringsTrimSpace command ∈ ["-L", "-S", "-C", "--dump", "--stats", "--count"] ∧
          (cliAvailable = false →
            stringsTrimSpace command = "-L" ∨ stringsTrimSpace command = "--dump"))) := by
  unfold kernel.validateConntrackCommand
  by_cases h0 : command = ""
  · simp [h0]
  · rw [if_neg h0]
    simp only [h0, false_or]
    by_cases hcli : (!cliAvailable &&
        (stringsTrimSpace command != "-L" && stringsTrimSpace command != "--dump")) = true
    · rw [if_pos hcli]
      simp only [Bool.and_eq_true, Bool.not_eq_true', bne_iff_ne, ne_eq] at hcli
      constructor
      · intro h
        cases h
      · rintro ⟨_, h⟩
        rcases h hcli.1 with h | h
        · exact absurd h hcli.2.1
        · exact absurd h hcli.2.2
    · rw [if_neg hcli]
      have hlist : cliAvailable = false →
          stringsTrimSpace command = "-L" ∨ stringsTrimSpace command = "--dump" := by
        intro hf
        simp only [hf, Bool.not_false, Bool.true_and, Bool.and_eq_true, bne_iff_ne, ne_eq,
          not_and, not_not] at hcli
        by_cases h : stringsTrimSpace command = "-L"
        · exact Or.inl h
        · exact Or.inr (hcli h)
      by_cases ha : strconvAtoiOk command = true
      · rw [if_pos ha]
        have hnot := stringsTrimSpace_not_mem_of_atoi command ha
          ["-L", "-S", "-C", "--dump", "--stats", "--count"] (by decide)
        constructor
        · intro h
          cases h
        · rintro ⟨h, _⟩
          exact absurd h hnot
      · rw [if_neg ha]
        by_cases hm : stringsTrimSpace command ∈
            ["-L", "-S", "-C", "--dump", "--stats", "--count"]
        · simp [hm]
          exact hlist
        · simp [hm]

/-- Witness for C16: ` -S ` is accepted with the CLI and rejected without it, `--dump` is
accepted without it. -/
theorem validateConntrackCommand_iff_witness :
    kernel.validateConntrackCommand " -S " true = .ok () ∧
    kernel.validateConntrackCommand " -S " false ≠ .ok () ∧
    kernel.validateConntrackCommand "--dump" false = .ok () :=
  ⟨(validateConntrackCommand_iff " -S " true).mpr
      (Or.inr ⟨by decide, fun h => absurd h (by decide)⟩),
    fun h => by
      rcases (validateConntrackCommand_iff " -S " false).mp h with h0 | ⟨_, h1⟩
      · exact absurd h0 (by decide)
      · exact absurd (h1 rfl) (by decide),
    (validateConntrackCommand_iff "--dump" false).mpr (Or.inr ⟨by decide, fun _ => by decide⟩)⟩

/-! ### C17: the choice between iptables and ip6tables -/

/-- C17: `iptablesCommand p` is `ip6tables` exactly when an element of
`strings.Split(p, " ")` is `--ipv6` or holds both a `-` and a `6`, and `iptables` otherwise;
`-6`, `-p6` and `-t6n` select `ip6tables`, `--dport 6000`, `6`, `INPUT6` and
`-d 2001:db8::1` do not. -/
theorem iptablesCommand_iff (p : String) :
    (kernel.iptablesCommand p = "ip6tables" ↔
      ∃ item ∈ stringsSplit p ' ',
        item = "--ipv6" ∨ (stringsContains item "-" = true ∧ stringsContains item "6" = true)) ∧
    (kernel.iptablesCommand p ≠ "ip6tables" → kernel.iptablesCommand p = "iptables") ∧
    kernel.iptablesCommand "-6" = "ip6tables" ∧ kernel.iptablesCommand "-p6" = "ip6tables" ∧
    kernel.iptablesCommand "-t6n" = "ip6tables" ∧
    kernel.iptablesCommand "--dport 6000" = "iptables" ∧ kernel.iptablesCommand "6" = "iptables" ∧
    kernel.iptablesCommand "INPUT6" = "iptables" ∧
    kernel.iptablesCommand "-d 2001:db8::1" = "iptables" := by
  refine ⟨?_, ?_, by decide, by decide, by decide, by decide, by decide, by decide, by decide⟩
  · unfold kernel.iptablesCommand
    split_ifs with h
    · simp only [true_iff]
      obtain ⟨item, hmem, hitem⟩ := List.any_eq_true.mp h
      refine ⟨item, hmem, ?_⟩
      simpa using hitem
    · have hne : ("iptables" : String) ≠ "ip6tables" := by decide
      simp only [hne, false_iff]
      rintro ⟨item, hmem, hitem⟩
      apply h
      refine List.any_eq_true.mpr ⟨item, hmem, ?_⟩
      simpa using hitem
  · unfold kernel.iptablesCommand
    split_ifs with h
    · intro hne
      exact absurd rfl hne
    · intro _
      rfl

/-! ### C18: shell metacharacters in kernel parameters -/

/-- C18: `validateParameters p` returns an error exactly when `p` holds one of the characters
`; & | $` backtick `< > \ ( )`; the empty string, spaces, `=`, `-`, `.`, `/` and `:` are
accepted. -/
theorem validateParameters_iff (p : String) :
    ((∃ e, kernel.validateParameters p = .error e) ↔
      ∃ c ∈ p.data, c ∈ [';', '&', '|', '$', '\x60', '<', '>', '\\', '(', ')']) ∧
    kernel.validateParameters "" = .ok () ∧
    kernel.validateParameters "-s 10.0.0.0/8 --dport=53 -d fe80::1 eth0.100" = .ok () := by
  refine ⟨?_, rfl, by decide⟩
  unfold kernel.validateParameters
  by_cases h : p.data.any kernel.isShellMetacharacter = true
  · rw [if_pos h]
    obtain ⟨c, hc, hm⟩ := List.any_eq_true.mp h
    constructor
    · intro _
      refine ⟨c, hc, ?_⟩
      simpa [kernel.isShellMetacharacter, or_assoc] using hm
    · intro _
      exact ⟨_, rfl⟩
  · rw [if_neg h]
    constructor
    · rintro ⟨e, he⟩
      cases he
    · rintro ⟨c, hc, hm⟩
      exfalso
      apply h
      refine List.any_eq_true.mpr ⟨c, hc, ?_⟩
      simpa [kernel.isShellMetacharacter, or_assoc] using hm

/-! ### C19: at least two bounds on a capture -/

theorem requireAtLeastNParams_error_iff (required : Int) (params : List (String × Bool)) :
    (∃ e, external_tools.requireAtLeastNParams required params = .error e) ↔
      ((params.filter (fun p => p.2)).length : Int) < required := by
  unfold external_tools.requireAtLeastNParams
  simp only
  split_ifs with h
  · exact ⟨fun _ => h, fun _ => ⟨_, rfl⟩⟩
  · constructor
    · rintro ⟨e, he⟩
      cases he
    · intro h'
      exact absurd h' h

/-- C19: `Tcpdump` rejects, with no call on the executor, every request in which fewer than
two of `duration > 0`, `packet_count > 0`, `bpf_filter` non-empty hold; and
`requireAtLeastNParams n m` returns an error exactly when fewer than `n` entries of `m` are
true. -/
theorem Tcpdump_requires_two_bounds :
    (∀ (cs : ClientSet) (inp : external_tools.TcpdumpParams) (log : List ExecCall),
      (if inp.Duration > 0 then 1 else 0) + (if inp.PacketCount > 0 then 1 else 0) +
          (if inp.BPFFilter ≠ "" then 1 else 0) < 2 →
        ∃ e, external_tools.Tcpdump cs inp log = ⟨{}, some e, log⟩) ∧
    (∀ (n : Int) (m : List (String × Bool)),
      (∃ e, external_tools.requireAtLeastNParams n m = .error e) ↔
        ((m.filter (fun p => p.2)).length : Int) < n) := by
  refine ⟨?_, requireAtLeastNParams_error_iff⟩
  intro cs inp log hfew
  apply Tcpdump_rejected
  right; right; right; left
  rw [requireAtLeastNParams_error_iff]
  by_cases hb : inp.BPFFilter = ""
  · have hbv : (inp.BPFFilter != "") = false := by simp [hb]
    by_cases hd : inp.Duration > 0 <;> by_cases hp : inp.PacketCount > 0 <;>
      simp [hd, hp, hb, hbv, List.filter] at hfew ⊢
  · have hbv : (inp.BPFFilter != "") = true := by simp [hb]
    by_cases hd : inp.Duration > 0 <;> by_cases hp : inp.PacketCount > 0 <;>
      simp [hd, hp, hb, hbv, List.filter] at hfew ⊢

/-- Witness for C19: a capture on `eth0` bounded by a duration only is rejected, and so is
the call `requireAtLeastNParams 2` on one true entry out of three. -/
theorem Tcpdump_requires_two_bounds_witness :
    (∃ e, external_tools.Tcpdump (fun _ _ => {})
      { TargetType := "node", NodeName := "worker-1", NodeImage := "netshoot",
        Interface := "eth0", Duration := 5 } [] = ⟨{}, some e, []⟩) ∧
    (∃ e, external_tools.requireAtLeastNParams 2
      [("duration", true), ("packet_count", false), ("bpf_filter", false)] = .error e) :=
  ⟨Tcpdump_requires_two_bounds.1 (fun _ _ => {})
      { TargetType := "node", NodeName := "worker-1", NodeImage := "netshoot",
        Interface := "eth0", Duration := 5 } [] (by decide),
    (Tcpdump_requires_two_bounds.2 2
      [("duration", true), ("packet_count", false), ("bpf_filter", false)]).mpr (by decide)⟩

/-! ### C20: dropping warning lines -/

theorem splitChars_no_sep (sep : Char) (a : List Char) (ha : sep ∉ a) :
    splitChars sep a = [a] := by
  induction a with
  | nil => rfl
  | cons c a ih =>
    have hc : c ≠ sep := fun h => ha (h ▸ List.mem_cons_self c a)
    have ha' : sep ∉ a := fun h => ha (List.mem_cons_of_mem c h)
    simp only [splitChars, if_neg hc, ih ha']

theorem splitChars_append_sep (sep : Char) (a rest : List Char) (ha : sep ∉ a) :
    splitChars sep (a ++ sep :: rest) = a :: splitChars sep rest := by
  induction a with
  | nil => simp [splitChars]
  | cons c a ih =>
    have hc : c ≠ sep := fun h => ha (h ▸ List.mem_cons_self c a)
    have ha' : sep ∉ a := fun h => ha (List.mem_cons_of_mem c h)
    have ih' := ih ha'
    rw [List.cons_append]
    simp only [splitChars, if_neg hc, ih']

theorem not_mem_of_mem_splitChars (sep : Char) :
    ∀ (cs l : List Char), l ∈ splitChars sep cs → sep ∉ l := by
  intro cs
  induction cs with
  | nil =>
    intro l hl
    simp only [splitChars, List.mem_singleton] at hl
    simp [hl]
  | cons c cs ih =>
    intro l hl
    simp only [splitChars] at hl
    split_ifs at hl with hc
    · rcases List.mem_cons.mp hl with rfl | hl
      · simp
      · exact ih l hl
    · split at hl
      · simp only [List.mem_singleton] at hl
        subst hl
        simp [Ne.symm hc]
      · rename_i l0 ls heq
        rcases List.mem_cons.mp hl with rfl | hl
        · have h0 := ih l0 (by rw [heq]; exact List.mem_cons_self l0 ls)
          intro hmem
          rcases List.mem_cons.mp hmem with h | h
          · exact hc h.symm
          · exact h0 h
        · exact ih l (by rw [heq]; exact List.mem_cons_of_mem l0 hl)

theorem not_mem_of_mem_stringsSplit (s : String) (sep : Char) (l : String)
    (hl : l ∈ stringsSplit s sep) : sep ∉ l.data := by
  unfold stringsSplit at hl
  obtain ⟨cs, hcs, rfl⟩ := List.mem_map.mp hl
  exact not_mem_of_mem_splitChars sep s.data cs hcs

theorem stringsSplit_stringsJoin (sep : Char) (ls : List String) (hne : ls ≠ [])
    (h : ∀ l ∈ ls, sep ∉ l.data) :
    stringsSplit (stringsJoin ls (String.singleton sep)) sep = ls := by
  induction ls with
  | nil => exact absurd rfl hne
  | cons a rest ih =>
    cases rest with
    | nil =>
      have ha := h a (List.mem_cons_self a [])
      simp only [stringsJoin, stringsSplit, splitChars_no_sep sep a.data ha, List.map]
    | cons b rest =>
      have ha := h a (List.mem_cons_self a _)
      have hrest := ih (by simp) (fun l hl => h l (List.mem_cons_of_mem a hl))
      have hdata : (stringsJoin (a :: b :: rest) (String.singleton sep)).data =
          a.data ++ sep :: (stringsJoin (b :: rest) (String.singleton sep)).data := by
        simp [stringsJoin, String.data_append, String.singleton]
      unfold stringsSplit at hrest ⊢
      rw [hdata, splitChars_append_sep sep _ _ ha, List.map_cons, hrest]

/-- C20, as stated, fails: the match is not case-insensitive.  The line `WaRnInG: disk`
holds the word in mixed case and is kept, and so is `wARNING: disk`. -/
theorem filterWarnings_keeps_mixed_case :
    kernel.filterWarnings "WaRnInG: disk\nok" = "WaRnInG: disk\nok" ∧
    kernel.filterWarnings "wARNING: disk\nok" = "wARNING: disk\nok" := by
  decide

/-- C20, amended: `filterWarnings` drops every line that holds one of the three spellings
`Warning`, `warning`, `WARNING` and keeps every other line, in order: the lines of the result
are the lines of the input that hold none of the three, and the result is empty when no line
is kept. -/
theorem filterWarnings_lines (output : String) :
    ((stringsSplit output '\n').filter (fun line =>
        !stringsContains line "Warning" && !stringsContains line "warning" &&
          !stringsContains line "WARNING") ≠ [] →
      stringsSplit (kernel.filterWarnings output) '\n' =
        (stringsSplit output '\n').filter (fun line =>
          !stringsContains line "Warning" && !stringsContains line "warning" &&
            !stringsContains line "WARNING")) ∧
    ((stringsSplit output '\n').filter (fun line =>
        !stringsContains line "Warning" && !stringsContains line "warning" &&
          !stringsContains line "WARNING") = [] →
      kernel.filterWarnings output = "") := by
  have hsep : ("\n" : String) = String.singleton '\n' := rfl
  constructor
  · intro hne
    unfold kernel.filterWarnings
    by_cases h0 : output = ""
    · rw [if_pos h0]
      subst h0
      rfl
    · rw [if_neg h0]
      simp only [hsep]
      apply stringsSplit_stringsJoin '\n' _ hne
      intro l hl
      exact not_mem_of_mem_stringsSplit output '\n' l (List.mem_of_mem_filter hl)
  · intro hnil
    unfold kernel.filterWarnings
    by_cases h0 : output = ""
    · rw [if_pos h0]
      exact h0
    · rw [if_neg h0]
      simp only [hnil]
      rfl

/-- Witness for the amended C20: of three lines the one holding `Warning` is dropped, and a
text of warning lines only becomes empty. -/
theorem filterWarnings_lines_witness :
    stringsSplit (kernel.filterWarnings "Line 1\nWarning: something wrong\nLine 3") '\n' =
      ["Line 1", "Line 3"] ∧
    kernel.filterWarnings "warning: a\nWARNING: b" = "" :=
  ⟨(filterWarnings_lines "Line 1\nWarning: something wrong\nLine 3").1 (by decide),
    (filterWarnings_lines "warning: a\nWARNING: b").2 (by decide)⟩

/-! ### C15: the ip command validator -/

theorem fieldsAux_dropWhile (l : List Char) :
    fieldsAux (l.dropWhile unicodeIsSpace) [] = fieldsAux l [] := by
  induction l with
  | nil => rfl
  | cons c cs ih =>
    by_cases hc : unicodeIsSpace c = true
    · rw [List.dropWhile_cons_of_pos hc, ih]
      simp [fieldsAux, hc]
    · rw [List.dropWhile_cons_of_neg hc]

theorem fieldsAux_append_spaces (ws : List Char) (hws : ∀ c ∈ ws, unicodeIsSpace c = true) :
    ∀ (l cur : List Char), fieldsAux (l ++ ws) cur = fieldsAux l cur := by
  intro l
  induction l with
  | nil =>
    intro cur
    simp only [List.nil_append]
    induction ws generalizing cur with
    | nil => rfl
    | cons w ws ih =>
      have hw := hws w (List.mem_cons_self w ws)
      have ih' := ih (fun c hc => hws c (List.mem_cons_of_mem w hc))
      simp only [fieldsAux, hw, if_true]
      split_ifs with hcur
      · rw [ih' []]
        simp [fieldsAux]
      · rw [ih' []]
        simp [fieldsAux]
  | cons c cs ih =>
    intro cur
    simp only [List.cons_append, fieldsAux, List.append_eq, ih]

theorem stringsFields_stringsTrimSpace (s : String) :
    stringsFields (stringsTrimSpace s) = stringsFields s := by
  unfold stringsFields stringsTrimSpace
  simp only
  rw [← fieldsAux_dropWhile s.data]
  generalize s.data.dropWhile unicodeIsSpace = d
  have hsplit : d = (d.reverse.dropWhile unicodeIsSpace).reverse ++
      (d.reverse.takeWhile unicodeIsSpace).reverse := by
    rw [← List.reverse_append, List.takeWhile_append_dropWhile, List.reverse_reverse]
  have hws : ∀ c ∈ (d.reverse.takeWhile unicodeIsSpace).reverse, unicodeIsSpace c = true := by
    intro c hc
    exact List.mem_takeWhile_imp (List.mem_reverse.mp hc)
  conv_rhs => rw [hsplit]
  rw [fieldsAux_append_spaces _ hws]

theorem fieldsAux_no_space (l : List Char) (h : ∀ c ∈ l, unicodeIsSpace c = false) :
    ∀ cur : List Char, (fieldsAux l cur).length ≤ 1 := by
  induction l with
  | nil =>
    intro cur
    simp only [fieldsAux]
    split_ifs <;> simp
  | cons c cs ih =>
    intro cur
    have hc := h c (List.mem_cons_self c cs)
    simp only [fieldsAux, hc]
    exact ih (fun d hd => h d (List.mem_cons_of_mem c hd)) (c :: cur)

theorem unicodeIsSpace_of_toNat (c : Char) (h1 : 43 ≤ c.toNat) (h2 : c.toNat ≤ 57) :
    unicodeIsSpace c = false := by
  unfold unicodeIsSpace
  simp only [Bool.or_eq_false_iff, Bool.and_eq_false_iff, decide_eq_false_iff_not, beq_eq_false_iff_ne,
    ne_eq]
  omega

theorem strconvAtoiOk_fields (s : String) (h : strconvAtoiOk s = true) :
    (stringsFields s).length ≤ 1 := by
  unfold stringsFields
  apply fieldsAux_no_space
  intro c hc
  have h0 : ('0' : Char).toNat = 48 := by decide
  have h9 : ('9' : Char).toNat = 57 := by decide
  rcases strconvAtoiOk_chars s h c hc with hd | rfl | rfl
  · simp only [isDigitChar, Bool.and_eq_true, decide_eq_true_eq, char_le_iff] at hd
    exact unicodeIsSpace_of_toNat c (by omega) (by omega)
  · decide
  · decide

theorem validIpCommand_any_iff (f0 f1 : String) (rest : List String) :
    kernel.validIpCommand.any (kernel.ipCommandMatches (f0 :: f1 :: rest)) = true ↔
      ((∃ cmd ∈ ["address", "link", "neighbour", "netns", "route", "rule", "vrf"],
          stringsHasPrefix cmd f0 = true ∧ stringsHasPrefix "show" f1 = true) ∨
        (∃ f2 rest', rest = f2 :: rest' ∧ stringsHasPrefix "xfrm" f0 = true ∧
          (stringsHasPrefix "state" f1 = true ∨ stringsHasPrefix "policy" f1 = true) ∧
          stringsHasPrefix "list" f2 = true)) := by
  have h1 : stringsFields "address" = ["address"] := by decide
  have h2 : stringsFields "link" = ["link"] := by decide
  have h3 : stringsFields "neighbour" = ["neighbour"] := by decide
  have h4 : stringsFields "netns" = ["netns"] := by decide
  have h5 : stringsFields "route" = ["route"] := by decide
  have h6 : stringsFields "rule" = ["rule"] := by decide
  have h7 : stringsFields "vrf" = ["vrf"] := by decide
  have h8 : stringsFields "xfrm state" = ["xfrm", "state"] := by decide
  have h9 : stringsFields "xfrm policy" = ["xfrm", "policy"] := by decide
  simp only [kernel.validIpCommand, List.any_cons, List.any_nil, kernel.ipCommandMatches,
    h1, h2, h3, h4, h5, h6, h7, h8, h9]
  cases rest with
  | nil => simp
  | cons f2 rest' =>
    have hx : ((stringsHasPrefix "xfrm" f0 = true ∧ stringsHasPrefix "state" f1 = true) ∧
          stringsHasPrefix "list" f2 = true ∨
        (stringsHasPrefix "xfrm" f0 = true ∧ stringsHasPrefix "policy" f1 = true) ∧
          stringsHasPrefix "list" f2 = true) ↔
        (stringsHasPrefix "xfrm" f0 = true ∧
          (stringsHasPrefix "state" f1 = true ∨ stringsHasPrefix "policy" f1 = true) ∧
          stringsHasPrefix "list" f2 = true) := by
      constructor
      · rintro (⟨⟨a, b⟩, c⟩ | ⟨⟨a, b⟩, c⟩)
        · exact ⟨a, Or.inl b, c⟩
        · exact ⟨a, Or.inr b, c⟩
      · rintro ⟨a, b | b, c⟩
        · exact Or.inl ⟨⟨a, b⟩, c⟩
        · exact Or.inr ⟨⟨a, b⟩, c⟩
    simp
    rw [← hx]
    simp only [or_assoc]

/-- C15: `validateIPCommand c` succeeds exactly when the fields `f` of `c` are at least two,
not (`f[0]` starts with `l` and `f[1]` is `s`), and either `f[0]` is a prefix of one of
`address`, `link`, `neighbour`, `netns`, `route`, `rule`, `vrf` and `f[1]` a prefix of `show`,
or there is a third field, `f[0]` is a prefix of `xfrm`, `f[1]` a prefix of `state` or of
`policy`, and `f[2]` a prefix of `list`.  Hence a command whose second field is `add`,
`set`, `delete` or `get` is rejected, and so are the empty, a numeric and an upper-case
command. -/
theorem validateIPCommand_iff (c : String) :
    (kernel.validateIPCommand c = .ok () ↔
      ∃ f0 f1 rest, stringsFields c = f0 :: f1 :: rest ∧
        ¬ (stringsHasPrefix f0 "l" = true ∧ f1 = "s") ∧
        ((∃ cmd ∈ ["address", "link", "neighbour", "netns", "route", "rule", "vrf"],
            stringsHasPrefix cmd f0 = true ∧ stringsHasPrefix "show" f1 = true) ∨
          (∃ f2 rest', rest = f2 :: rest' ∧ stringsHasPrefix "xfrm" f0 = true ∧
            (stringsHasPrefix "state" f1 = true ∨ stringsHasPrefix "policy" f1 = true) ∧
            stringsHasPrefix "list" f2 = true))) ∧
    (∀ f0 f1 rest, stringsFields c = f0 :: f1 :: rest → f1 ∈ ["add", "set", "delete", "get"] →
      ∃ e, kernel.validateIPCommand c = .error e) ∧
    (∀ f0 f1 f2 rest, stringsFields c = f0 :: f1 :: f2 :: rest →
      f0 ∈ ["x", "xf", "xfr", "xfrm"] → f2 ∈ ["add", "set", "delete", "get"] →
      ∃ e, kernel.validateIPCommand c = .error e) ∧
    (∃ e, kernel.validateIPCommand "" = .error e) ∧
    (∃ e, kernel.validateIPCommand "123" = .error e) ∧
    (∃ e, kernel.validateIPCommand "ADDRESS SHOW" = .error e) := by
  have hiff : kernel.validateIPCommand c = .ok () ↔
      ∃ f0 f1 rest, stringsFields c = f0 :: f1 :: rest ∧
        ¬ (stringsHasPrefix f0 "l" = true ∧ f1 = "s") ∧
        ((∃ cmd ∈ ["address", "link", "neighbour", "netns", "route", "rule", "vrf"],
            stringsHasPrefix cmd f0 = true ∧ stringsHasPrefix "show" f1 = true) ∨
          (∃ f2 rest', rest = f2 :: rest' ∧ stringsHasPrefix "xfrm" f0 = true ∧
            (stringsHasPrefix "state" f1 = true ∨ stringsHasPrefix "policy" f1 = true) ∧
            stringsHasPrefix "list" f2 = true)) := by
    unfold kernel.validateIPCommand
    by_cases ha : strconvAtoiOk c = true
    · rw [if_pos ha]
      have hlen := strconvAtoiOk_fields c ha
      constructor
      · intro h
        cases h
      · rintro ⟨f0, f1, rest, hf, _⟩
        rw [hf] at hlen
        simp at hlen
    · rw [if_neg ha]
      simp only [stringsFields_stringsTrimSpace]
      rcases hf : stringsFields c with _ | ⟨f0, _ | ⟨f1, rest⟩⟩
      · simp
      · simp
      · have hlen : ¬ ((f0 :: f1 :: rest).length < 2) := by simp
        rw [if_neg hlen]
        simp only [List.getD_cons_zero, List.getD_cons_succ]
        by_cases hls : (stringsHasPrefix f0 "l" && f1 == "s") = true
        · rw [if_pos hls]
          simp only [Bool.and_eq_true, beq_iff_eq] at hls
          constructor
          · intro h
            cases h
          · rintro ⟨g0, g1, grest, hg, hnot, _⟩
            simp only [List.cons.injEq] at hg
            obtain ⟨rfl, rfl, rfl⟩ := hg
            exact absurd hls hnot
        · rw [if_neg hls]
          simp only [Bool.and_eq_true, beq_iff_eq] at hls
          by_cases hany : kernel.validIpCommand.any
              (kernel.ipCommandMatches (f0 :: f1 :: rest)) = true
          · have hm := (validIpCommand_any_iff f0 f1 rest).mp hany
            have hn : ¬ ((!kernel.validIpCommand.any
                (kernel.ipCommandMatches (f0 :: f1 :: rest))) = true) := by simp [hany]
            rw [if_neg hn]
            exact ⟨fun _ => ⟨f0, f1, rest, rfl, hls, hm⟩, fun _ => rfl⟩
          · have hn : (!kernel.validIpCommand.any
                (kernel.ipCommandMatches (f0 :: f1 :: rest))) = true := by simpa using hany
            rw [if_pos hn]
            constructor
            · intro h
              cases h
            · rintro ⟨g0, g1, grest, hg, _, hm⟩
              simp only [List.cons.injEq] at hg
              obtain ⟨rfl, rfl, rfl⟩ := hg
              exact absurd ((validIpCommand_any_iff _ _ _).mpr hm) hany
  refine ⟨hiff, ?_, ?_, ⟨_, rfl⟩, ⟨_, rfl⟩, ⟨_, rfl⟩⟩
  · intro f0 f1 rest hf hmem
    cases hv : kernel.validateIPCommand c with
    | error e => exact ⟨e, rfl⟩
    | ok u =>
      exfalso
      obtain ⟨g0, g1, grest, hg, _, hm⟩ := hiff.mp hv
      rw [hf] at hg
      simp only [List.cons.injEq] at hg
      obtain ⟨rfl, rfl, rfl⟩ := hg
      simp only [List.mem_cons, List.mem_singleton, List.not_mem_nil, or_false] at hmem
      rcases hm with ⟨cmd, _, _, hshow⟩ | ⟨f2, rest', _, _, hsp, _⟩
      · rcases hmem with rfl | rfl | rfl | rfl <;> exact absurd hshow (by decide)
      · rcases hmem with rfl | rfl | rfl | rfl <;>
          rcases hsp with h | h <;> exact absurd h (by decide)
  · intro f0 f1 f2 rest hf hx hmem
    cases hv : kernel.validateIPCommand c with
    | error e => exact ⟨e, rfl⟩
    | ok u =>
      exfalso
      obtain ⟨g0, g1, grest, hg, _, hm⟩ := hiff.mp hv
      rw [hf] at hg
      simp only [List.cons.injEq] at hg
      obtain ⟨rfl, rfl, rfl⟩ := hg
      simp only [List.mem_cons, List.mem_singleton, List.not_mem_nil, or_false] at hmem hx
      rcases hm with ⟨cmd, hcmd, hpre, _⟩ | ⟨g2, rest', hrest, _, _, hlist⟩
      · simp only [List.mem_cons, List.mem_singleton, List.not_mem_nil, or_false] at hcmd
        rcases hx with rfl | rfl | rfl | rfl <;>
          rcases hcmd with rfl | rfl | rfl | rfl | rfl | rfl | rfl <;>
          exact absurd hpre (by decide)
      · simp only [List.cons.injEq] at hrest
        obtain ⟨rfl, rfl⟩ := hrest
        rcases hmem with rfl | rfl | rfl | rfl <;> exact absurd hlist (by decide)

/-- Witness for C15: `addr sh` with extra spaces and `x s l` are accepted; `link set`,
`xfrm state get` and `l s` are rejected. -/
theorem validateIPCommand_iff_witness :
    kernel.validateIPCommand "  addr   sh " = .ok () ∧
    kernel.validateIPCommand "x s l" = .ok () ∧
    (∃ e, kernel.validateIPCommand "link set eth0 down" = .error e) ∧
    (∃ e, kernel.validateIPCommand "xfrm state get" = .error e) ∧
    kernel.validateIPCommand "l s" ≠ .ok () :=
  ⟨(validateIPCommand_iff "  addr   sh ").1.mpr
      ⟨"addr", "sh", [], by decide, by decide, Or.inl ⟨"address", by decide, by decide, by decide⟩⟩,
    (validateIPCommand_iff "x s l").1.mpr
      ⟨"x", "s", ["l"], by decide, by decide,
        Or.inr ⟨"l", [], rfl, by decide, Or.inl (by decide), by decide⟩⟩,
    (validateIPCommand_iff "link set eth0 down").2.1 "link" "set" ["eth0", "down"] (by decide)
      (by decide),
    (validateIPCommand_iff "xfrm state get").2.2.1 "xfrm" "state" "get" [] (by decide) (by decide)
      (by decide),
    fun h => by
      obtain ⟨f0, f1, rest, hf, hnot, _⟩ := (validateIPCommand_iff "l s").1.mp h
      have hf' : stringsFields "l s" = ["l", "s"] := by decide
      rw [hf'] at hf
      simp only [List.cons.injEq] at hf
      obtain ⟨rfl, rfl, _⟩ := hf
      exact hnot ⟨by decide, rfl⟩⟩

/-! ### C11: argv fields without a validation rule -/

theorem executeAndWrapResult_node_calls (cs : ClientSet) (target : external_tools.TargetParams)
    (command : List String) (log : List ExecCall) (ht : target.TargetType = "node")
    (hn : target.NodeName ≠ "") (hi : target.NodeImage ≠ "") :
    (external_tools.executeAndWrapResult cs target command log).calls =
      log ++ [ExecCall.DebugNode target.NodeName target.NodeImage
        (["chroot", "/host"] ++ command) "" ""] := by
  unfold external_tools.executeAndWrapResult external_tools.executeCommand
  simp only [ht, hn, hi, if_true, if_false]
  split <;> split <;> simp_all

/-- C11 fails on the code: whatever text is sent as `chain` to `IPTablesList`, as
`record_type` to `Dig`, as `destination` to `IPRouteShow` or as `protocol` to
`ConntrackList` (the other fields valid), no rule looks at it and the request reaches the
executor with that text as an argv token. -/
theorem unvalidated_field_reaches_execution (v : String) (netParseIP : String → Bool)
    (cs : ClientSet) (log : List ExecCall) :
    (external_tools.IPTablesList cs
        { TargetType := "node", NodeName := "worker-1", NodeImage := "netshoot", Chain := v }
        log).calls =
      log ++ [ExecCall.DebugNode "worker-1" "netshoot"
        (["chroot", "/host", "iptables", "-L"] ++ (if v = "" then [] else [v]) ++
          ["-t", "filter", "-n"]) "" ""] ∧
    (external_tools.Dig netParseIP cs
        { TargetType := "node", NodeName := "worker-1", NodeImage := "netshoot",
          Hostname := "example.com", RecordType := v }
        log).calls =
      log ++ [ExecCall.DebugNode "worker-1" "netshoot"
        ["chroot", "/host", "dig", "example.com", if v = "" then "A" else v] "" ""] ∧
    (external_tools.IPRouteShow cs
        { TargetType := "node", NodeName := "worker-1", NodeImage := "netshoot",
          Destination := v }
        log).calls =
      log ++ [ExecCall.DebugNode "worker-1" "netshoot"
        (["chroot", "/host", "ip", "route", "show"] ++ (if v = "" then [] else [v])) "" ""] ∧
    (external_tools.ConntrackList netParseIP cs
        { TargetType := "node", NodeName := "worker-1", NodeImage := "netshoot", Protocol := v }
        log).calls =
      log ++ [ExecCall.DebugNode "worker-1" "netshoot"
        (["chroot", "/host", "conntrack", "-L"] ++ (if v = "" then [] else ["-p", v])) "" ""] := by
  have hempty : client.ValidateTableName "" = .ok () := rfl
  refine ⟨?_, ?_, ?_, ?_⟩
  · unfold external_tools.IPTablesList
    simp only [hempty]
    rw [executeAndWrapResult_node_calls cs _ _ log rfl (by decide) (by decide)]
    by_cases hv : v = "" <;>
      simp [hv, newCommand, commandBuilder.add, commandBuilder.addIf,
        commandBuilder.addIfNotEmpty, commandBuilder.build, external_tools.stringWithDefault]
  · unfold external_tools.Dig
    simp only [show ¬ ("example.com" : String) = "" by decide, if_false, ne_eq, not_true]
    rw [executeAndWrapResult_node_calls cs _ _ log rfl (by decide) (by decide)]
    by_cases hv : v = "" <;>
      simp [hv, newCommand, commandBuilder.add, commandBuilder.addIf,
        commandBuilder.addIfNotEmpty, commandBuilder.build, external_tools.stringWithDefault]
  · unfold external_tools.IPRouteShow
    simp only [hempty]
    rw [executeAndWrapResult_node_calls cs _ _ log rfl (by decide) (by decide)]
    by_cases hv : v = "" <;>
      simp [hv, newCommand, commandBuilder.add, commandBuilder.addIf,
        commandBuilder.addIfNotEmpty, commandBuilder.build]
  · unfold external_tools.ConntrackList
    simp only [ne_eq, not_true, if_false, show ¬ ((0 : Int) > 0) by decide]
    rw [executeAndWrapResult_node_calls cs _ _ log rfl (by decide) (by decide)]
    by_cases hv : v = "" <;>
      simp [hv, newCommand, commandBuilder.add, commandBuilder.addIf,
        commandBuilder.addIfNotEmpty, commandBuilder.build]

/-! ### C13: the table token of get-iptables -/

/-- C13 fails on the code: the table `filter ` (trailing space) passes `validateTableName`,
which trims before it looks the name up, and `GetIptables` then puts the untrimmed text after
`-t`: the command run is `iptables -t "filter " -L`, whose table token is not in the
allow-set. -/
theorem GetIptables_passes_untrimmed_table :
    kernel.validateTableName "filter " = .ok () ∧
    kernel.validateIptablesCommand "-L" = .ok () ∧
    "filter " ∉ ["filter", "nat", "mangle", "raw", "security"] ∧
    kernel.iptablesArgv { Table := "filter ", Command := "-L" } =
      ["iptables", "-t", "filter ", "-L"] ∧
    kernel.GetIptables (fun _ _ => {})
        { Node := "worker-1", Image := "netshoot", Table := "filter ", Command := "-L" } [] =
      ⟨{ Data := "" }, none,
        [ExecCall.DebugNode "worker-1" "netshoot" ["chroot", "/host", "iptables", "-V"] "" "",
          ExecCall.DebugNode "worker-1" "netshoot"
            ["chroot", "/host", "iptables", "-t", "filter ", "-L"] "" ""]⟩ := by
  decide

/-! ### C14: the table of iptables-list -/

/-- C14 fails on the code: `client.ValidateTableName` also accepts the routing-table names
`main`, `local`, `default` and every text that `strconv.Atoi` reads, so `IPTablesList` runs
`iptables -L -t main -n` and `iptables -L -t 254 -n`; the iptables table `security` is
rejected. -/
theorem IPTablesList_accepts_routing_tables :
    client.ValidateTableName "main" = .ok () ∧
    client.ValidateTableName "local" = .ok () ∧
    client.ValidateTableName "default" = .ok () ∧
    client.ValidateTableName "254" = .ok () ∧
    (∃ e, client.ValidateTableName "security" = .error e) ∧
    external_tools.IPTablesList (fun _ _ => {})
        { TargetType := "node", NodeName := "worker-1", NodeImage := "netshoot",
          Table := "main" } [] =
      ⟨{}, none,
        [ExecCall.DebugNode "worker-1" "netshoot"
          ["chroot", "/host", "iptables", "-L", "-t", "main", "-n"] "" ""]⟩ ∧
    external_tools.IPTablesList (fun _ _ => {})
        { TargetType := "node", NodeName := "worker-1", NodeImage := "netshoot",
          Table := "254" } [] =
      ⟨{}, none,
        [ExecCall.DebugNode "worker-1" "netshoot"
          ["chroot", "/host", "iptables", "-L", "-t", "254", "-n"] "" ""]⟩ := by
  refine ⟨by decide, by decide, by decide, by decide, ⟨_, rfl⟩, by decide, by decide⟩

/-! ### C21: filtering warnings twice -/

/-- C21: `filterWarnings` is idempotent: filtering an already filtered text changes
nothing. -/
theorem filterWarnings_idempotent (s : String) :
    kernel.filterWarnings (kernel.filterWarnings s) = kernel.filterWarnings s := by
  have hsep : ("\n" : String) = String.singleton '\n' := rfl
  by_cases h0 : s = ""
  · subst h0
    rfl
  · have h1 : kernel.filterWarnings s =
        stringsJoin ((stringsSplit s '\n').filter (fun line =>
          !stringsContains line "Warning" && !stringsContains line "warning" &&
            !stringsContains line "WARNING")) "\n" := by
      unfold kernel.filterWarnings
      rw [if_neg h0]
    by_cases h2 : kernel.filterWarnings s = ""
    · rw [h2]
      rfl
    · have hne : (stringsSplit s '\n').filter (fun line =>
          !stringsContains line "Warning" && !stringsContains line "warning" &&
            !stringsContains line "WARNING") ≠ [] := by
        intro hnil
        apply h2
        rw [h1, hnil]
        rfl
      have hsplit : stringsSplit (kernel.filterWarnings s) '\n' =
          (stringsSplit s '\n').filter (fun line =>
            !stringsContains line "Warning" && !stringsContains line "warning" &&
              !stringsContains line "WARNING") := by
        rw [h1, hsep]
        apply stringsSplit_stringsJoin '\n' _ hne
        intro l hl
        exact not_mem_of_mem_stringsSplit s '\n' l (List.mem_of_mem_filter hl)
      have h3 : kernel.filterWarnings (kernel.filterWarnings s) =
          stringsJoin ((stringsSplit (kernel.filterWarnings s) '\n').filter (fun line =>
            !stringsContains line "Warning" && !stringsContains line "warning" &&
              !stringsContains line "WARNING")) "\n" := by
        generalize kernel.filterWarnings s = t at h2
        unfold kernel.filterWarnings
        rw [if_neg h2]
      rw [h3, hsplit, List.filter_filter, h1]
      congr 1
      apply List.filter_congr
      intro x _
      simp

/-! ### C22: limiting lines twice -/

theorem digitChar_ne_newline (d : Nat) (h : d < 10) : Nat.digitChar d ≠ '\n' := by
  interval_cases d <;> decide

theorem toDigitsCore_no_newline (fuel : Nat) :
    ∀ (n : Nat) (acc : List Char), '\n' ∉ acc → '\n' ∉ Nat.toDigitsCore 10 fuel n acc := by
  induction fuel with
  | zero =>
    intro n acc h
    simpa [Nat.toDigitsCore] using h
  | succ fuel ih =>
    intro n acc h
    have hacc : '\n' ∉ Nat.digitChar (n % 10) :: acc := by
      intro hm
      rcases List.mem_cons.mp hm with h1 | h1
      · exact digitChar_ne_newline _ (Nat.mod_lt n (by decide)) h1.symm
      · exact h h1
    simp only [Nat.toDigitsCore]
    split_ifs
    · exact hacc
    · exact ih _ _ hacc

theorem strconvItoa_nat_no_newline (n : Nat) : '\n' ∉ (strconvItoa (n : Int)).data := by
  have h : (strconvItoa (n : Int)).data = Nat.toDigits 10 n := rfl
  rw [h]
  exact toDigitsCore_no_newline _ _ _ (by simp)


theorem limitOutputLines_of_le (output : String) (maxLines : Int)
    (h : ((stringsSplit output '\n').length : Int) ≤ (if 0 < maxLines then maxLines else 100)) :
    kernel.limitOutputLines output maxLines = output := by
  have hL : (if maxLines ≤ 0 then kernel.MaxOutputLines else maxLines) =
      (if 0 < maxLines then maxLines else 100) := by
    unfold kernel.MaxOutputLines
    split_ifs <;> first | rfl | omega
  unfold kernel.limitOutputLines
  by_cases hne : output = ""
  · rw [if_pos hne]
  · rw [if_neg hne]
    simp only [hL]
    rw [if_pos h]

theorem limitOutputLines_of_gt (output : String) (maxLines : Int) (L : Nat)
    (hL : (if 0 < maxLines then maxLines else 100) = (L : Int))
    (h : L < (stringsSplit output '\n').length) :
    kernel.limitOutputLines output maxLines =
      stringsJoin ((stringsSplit output '\n').take L ++
        ["", "... Output truncated. Showing first " ++ strconvItoa (L : Int) ++ " lines out of " ++
          strconvItoa ((stringsSplit output '\n').length : Int) ++ " total lines."]) "\n" := by
  have hL' : (if maxLines ≤ 0 then kernel.MaxOutputLines else maxLines) = (L : Int) := by
    rw [← hL]
    unfold kernel.MaxOutputLines
    split_ifs <;> first | rfl | omega
  have hpos : 1 ≤ L := by
    have : (1 : Int) ≤ (L : Int) := by
      rw [← hL]
      split_ifs <;> omega
    omega
  have hne : output ≠ "" := by
    rintro rfl
    rw [stringsSplit_empty] at h
    simp only [List.length_singleton] at h
    omega
  have htake : (stringsSplit output '\n').take L ≠ [] := by
    intro hnil
    rw [List.take_eq_nil_iff] at hnil
    rcases hnil with h0 | h0
    · omega
    · rw [h0] at h
      simp at h
  have hlt : ¬ (((stringsSplit output '\n').length : Int) ≤ (L : Int)) := by omega
  unfold kernel.limitOutputLines
  rw [if_neg hne]
  simp only [hL']
  rw [if_neg hlt, Int.toNat_ofNat, stringsJoin_append_singleton _ _ _ htake]
  have hcons : (stringsSplit output '\n').take L ++
      ["", "... Output truncated. Showing first " ++ strconvItoa (L : Int) ++ " lines out of " ++
        strconvItoa ((stringsSplit output '\n').length : Int) ++ " total lines."] =
      ((stringsSplit output '\n').take L ++ [""]) ++
      ["... Output truncated. Showing first " ++ strconvItoa (L : Int) ++ " lines out of " ++
        strconvItoa ((stringsSplit output '\n').length : Int) ++ " total lines."] := by
    simp
  rw [hcons, stringsJoin_append_singleton _ _ _ (by simp),
    stringsJoin_append_singleton _ _ _ htake]
  have hlit : ("\n... Output truncated. Showing first " : String) =
      "\n" ++ "... Output truncated. Showing first " := by decide
  rw [hlit]
  simp only [String.append_assoc, String.append_empty]

/-- C22, as stated, fails: the notice is counted and reprocessed.  Two lines under a limit of
one give a notice that reads `out of 2 total lines`; the result has three lines (the kept
line, an empty line, the notice), so the second pass truncates again and its notice reads
`out of 3 total lines`. -/
theorem limitOutputLines_not_idempotent :
    kernel.limitOutputLines "a\nb" 1 =
      "a\n\n... Output truncated. Showing first 1 lines out of 2 total lines." ∧
    kernel.limitOutputLines (kernel.limitOutputLines "a\nb" 1) 1 =
      "a\n\n... Output truncated. Showing first 1 lines out of 3 total lines." ∧
    kernel.limitOutputLines (kernel.limitOutputLines "a\nb" 1) 1 ≠
      kernel.limitOutputLines "a\nb" 1 := by
  decide

/-- C22, amended: re-applying `limitOutputLines` with the same limit is a no-op when the
text has at most `L` lines (`L` the effective limit); when the text has more than `L` lines
the second pass truncates again: it keeps the same first `L` lines and its notice states
`L + 2` as the total, the empty line and the notice line of the first pass being counted. -/
theorem limitOutputLines_twice (s : String) (m : Int) :
    (((stringsSplit s '\n').length : Int) ≤ (if 0 < m then m else 100) →
      kernel.limitOutputLines (kernel.limitOutputLines s m) m = kernel.limitOutputLines s m) ∧
    ((if 0 < m then m else 100) < ((stringsSplit s '\n').length : Int) →
      kernel.limitOutputLines (kernel.limitOutputLines s m) m =
        stringsJoin ((stringsSplit s '\n').take (if 0 < m then m else 100).toNat) "\n" ++
          ("\n\n... Output truncated. Showing first " ++
            strconvItoa (if 0 < m then m else 100) ++ " lines out of " ++
            strconvItoa ((if 0 < m then m else 100) + 2) ++ " total lines.")) := by
  constructor
  · intro h
    rw [limitOutputLines_of_le s m h, limitOutputLines_of_le s m h]
  · intro h
    have hnn : (0 : Int) ≤ (if 0 < m then m else 100) := by
      split_ifs <;> omega
    obtain ⟨L, hL⟩ := Int.eq_ofNat_of_zero_le hnn
    rw [hL] at h ⊢
    have hlt : L < (stringsSplit s '\n').length := by omega
    have hpos : 1 ≤ L := by
      have : (1 : Int) ≤ (L : Int) := by
        rw [← hL]
        split_ifs <;> omega
      omega
    have htake : (stringsSplit s '\n').take L ≠ [] := by
      intro hnil
      rw [List.take_eq_nil_iff] at hnil
      rcases hnil with h0 | h0
      · omega
      · rw [h0] at hlt
        simp at hlt
    have hlen : ((stringsSplit s '\n').take L).length = L := by
      rw [List.length_take]
      omega
    have hsep : ("\n" : String) = String.singleton '\n' := rfl
    have hsplit : stringsSplit (kernel.limitOutputLines s m) '\n' =
        (stringsSplit s '\n').take L ++
        ["", "... Output truncated. Showing first " ++ strconvItoa (L : Int) ++ " lines out of " ++
          strconvItoa ((stringsSplit s '\n').length : Int) ++ " total lines."] := by
      rw [limitOutputLines_of_gt s m L hL hlt, hsep]
      apply stringsSplit_stringsJoin '\n' _ (by simp)
      intro l hl
      rcases List.mem_append.mp hl with h1 | h1
      · exact not_mem_of_mem_stringsSplit s '\n' l (List.mem_of_mem_take h1)
      · simp only [List.mem_cons, List.mem_singleton, List.not_mem_nil, or_false] at h1
        rcases h1 with rfl | rfl
        · simp
        · simp only [String.data_append, List.mem_append, not_or]
          exact ⟨⟨⟨⟨by decide, strconvItoa_nat_no_newline L⟩, by decide⟩,
            strconvItoa_nat_no_newline _⟩, by decide⟩
    have hlt2 : L < (stringsSplit (kernel.limitOutputLines s m) '\n').length := by
      rw [hsplit, List.length_append, hlen]
      simp
    rw [limitOutputLines_of_gt (kernel.limitOutputLines s m) m L hL hlt2, hsplit,
      List.take_left' hlen, List.length_append, hlen]
    have hcons : (stringsSplit s '\n').take L ++
        ["", "... Output truncated. Showing first " ++ strconvItoa (L : Int) ++ " lines out of " ++
          strconvItoa ((L + ["", "... Output truncated. Showing first " ++ strconvItoa (L : Int) ++
            " lines out of " ++ strconvItoa ((stringsSplit s '\n').length : Int) ++
            " total lines."].length : Nat) : Int) ++ " total lines."] =
        ((stringsSplit s '\n').take L ++ [""]) ++
        ["... Output truncated. Showing first " ++ strconvItoa (L : Int) ++ " lines out of " ++
          strconvItoa ((L : Int) + 2) ++ " total lines."] := by
      simp
    rw [hcons, stringsJoin_append_singleton _ _ _ (by simp),
      stringsJoin_append_singleton _ _ _ htake, Int.toNat_ofNat]
    have hlit : ("\n\n... Output truncated. Showing first " : String) =
        "\n" ++ ("\n" ++ "... Output truncated. Showing first ") := by decide
    rw [hlit]
    simp only [String.append_assoc, String.append_empty]

/-- Witness for the amended C22: two lines under a limit of five are left alone by both
passes, and four lines under a limit of one give a second notice that states three lines. -/
theorem limitOutputLines_twice_witness :
    kernel.limitOutputLines (kernel.limitOutputLines "a\nb" 5) 5 =
      kernel.limitOutputLines "a\nb" 5 ∧
    kernel.limitOutputLines (kernel.limitOutputLines "a\nb\nc\nd" 1) 1 =
      stringsJoin ((stringsSplit "a\nb\nc\nd" '\n').take
          (if (0 : Int) < 1 then (1 : Int) else 100).toNat) "\n" ++
        ("\n\n... Output truncated. Showing first " ++
          strconvItoa (if (0 : Int) < 1 then 1 else 100) ++ " lines out of " ++
          strconvItoa ((if (0 : Int) < 1 then 1 else 100) + 2) ++ " total lines.") :=
  ⟨(limitOutputLines_twice "a\nb" 5).1 (by decide),
    (limitOutputLines_twice "a\nb\nc\nd" 1).2 (by decide)⟩

/-! ### C23: the command builder -/

theorem commandBuilder_calls_args (cs : List builderCall) :
    ∀ cb : commandBuilder,
      (cb.calls cs).args = cb.args ++ (cs.map builderCall.specTokens).flatten := by
  induction cs with
  | nil =>
    intro cb
    simp [commandBuilder.calls]
  | cons c cs ih =>
    intro cb
    have hstep : (cb.call c).args = cb.args ++ c.specTokens := by
      cases c with
      | add args => rfl
      | addIf condition args =>
        cases condition <;> simp [commandBuilder.call, commandBuilder.addIf,
          builderCall.specTokens]
      | addIfNotEmpty value args =>
        by_cases hv : value = "" <;> simp [commandBuilder.call, commandBuilder.addIfNotEmpty,
          builderCall.specTokens, hv]
      | build => simp [commandBuilder.call, builderCall.specTokens]
    have hfold : cb.calls (c :: cs) = (cb.call c).calls cs := rfl
    rw [hfold, ih (cb.call c), hstep]
    simp [List.append_assoc]

/-- C23: after any sequence of `add`, `addIf`, `addIfNotEmpty` (and `build`) calls on
`newCommand(base...)`, `build()` returns the base tokens followed, in call order, by the
arguments of every `add`, of every `addIf` whose condition is true and of every
`addIfNotEmpty` whose value is not the empty string, each token as it was passed; a value of
white space only counts as not empty; and the `build()` calls made on the way change nothing
of what a later `build()` returns. -/
theorem commandBuilder_build_tokens (base : List String) (cs : List builderCall) :
    ((newCommand base).calls cs).build = base ++ (cs.map builderCall.specTokens).flatten ∧
    (∀ args, ((newCommand base).addIfNotEmpty " \t" args).build = base ++ args) ∧
    (∀ ds, (((newCommand base).calls cs).calls (builderCall.build :: ds)).build =
      (((newCommand base).calls cs).calls ds).build) ∧
    (((newCommand base).calls cs).call builderCall.build).build =
      ((newCommand base).calls cs).build := by
  refine ⟨?_, ?_, ?_, rfl⟩
  · exact commandBuilder_calls_args cs (newCommand base)
  · intro args
    rfl
  · intro ds
    rfl

/-! ### C24: the target of an external-tools command -/

/-- C24: `executeCommand` of the external_tools package returns an error and leaves the call
log as it was when `target_type` is neither `node` nor `pod`, when it is `node` and
`node_name` or `node_image` is empty, and when it is `pod` and `pod_name` is empty; for a
valid node target the one call made is `DebugNode` with the argv `chroot /host` followed by
the command, and for a valid pod target it is `ExecPod` with an empty namespace replaced by
`default`. -/
theorem executeCommand_target_resolution (cs : ClientSet)
    (target : external_tools.TargetParams) (command : List String) (log : List ExecCall) :
    (target.TargetType ≠ "node" → target.TargetType ≠ "pod" →
      external_tools.executeCommand cs target command log =
        ⟨"", some ("invalid target_type: " ++ target.TargetType ++
          " (must be 'node' or 'pod')"), log⟩) ∧
    (target.TargetType = "node" → target.NodeName = "" →
      external_tools.executeCommand cs target command log =
        ⟨"", some "node_name is required when target_type is 'node'", log⟩) ∧
    (target.TargetType = "node" → target.NodeName ≠ "" → target.NodeImage = "" →
      external_tools.executeCommand cs target command log =
        ⟨"", some "node_image is required when target_type is 'node'", log⟩) ∧
    (target.TargetType = "pod" → target.PodName = "" →
      external_tools.executeCommand cs target command log =
        ⟨"", some "pod_name is required when target_type is 'pod'", log⟩) ∧
    (target.TargetType = "node" → target.NodeName ≠ "" → target.NodeImage ≠ "" →
      (external_tools.executeCommand cs target command log).calls =
        log ++ [ExecCall.DebugNode target.NodeName target.NodeImage
          (["chroot", "/host"] ++ command) "" ""]) ∧
    (target.TargetType = "pod" → target.PodName ≠ "" →
      (external_tools.executeCommand cs target command log).calls =
        log ++ [ExecCall.ExecPod target.PodName
          (if target.PodNamespace = "" then "default" else target.PodNamespace)
          target.ContainerName command]) := by
  have hnp : ¬ (("pod" : String) = "node") := by decide
  refine ⟨?_, ?_, ?_, ?_, ?_, ?_⟩
  · intro h1 h2
    unfold external_tools.executeCommand
    rw [if_neg h1, if_neg h2]
  · intro h1 h2
    unfold external_tools.executeCommand
    rw [if_pos h1, if_pos h2]
  · intro h1 h2 h3
    unfold external_tools.executeCommand
    rw [if_pos h1, if_neg h2, if_pos h3]
  · intro h1 h2
    unfold external_tools.executeCommand
    rw [if_neg (by rw [h1]; exact hnp), if_pos h1, if_pos h2]
  · intro h1 h2 h3
    unfold external_tools.executeCommand
    rw [if_pos h1, if_neg h2, if_neg h3]
    simp only []
    split <;> rfl
  · intro h1 h2
    unfold external_tools.executeCommand
    rw [if_neg (by rw [h1]; exact hnp), if_pos h1, if_neg h2]
    simp only []
    split <;> rfl

/-- Witness for C24: a target of type `host`, a node target without a name, one without an
image, a pod target without a name, a valid node target and a valid pod target without a
namespace. -/
theorem executeCommand_target_resolution_witness :
    external_tools.executeCommand (fun _ _ => {}) { TargetType := "host" } ["ip", "a"] [] =
      ⟨"", some "invalid target_type: host (must be 'node' or 'pod')", []⟩ ∧
    external_tools.executeCommand (fun _ _ => {}) { TargetType := "node", NodeImage := "i" }
        ["ip", "a"] [] =
      ⟨"", some "node_name is required when target_type is 'node'", []⟩ ∧
    external_tools.executeCommand (fun _ _ => {}) { TargetType := "node", NodeName := "n" }
        ["ip", "a"] [] =
      ⟨"", some "node_image is required when target_type is 'node'", []⟩ ∧
    external_tools.executeCommand (fun _ _ => {}) { TargetType := "pod" } ["ip", "a"] [] =
      ⟨"", some "pod_name is required when target_type is 'pod'", []⟩ ∧
    (external_tools.executeCommand (fun _ _ => {})
        { TargetType := "node", NodeName := "n", NodeImage := "i" } ["ip", "a"] []).calls =
      [ExecCall.DebugNode "n" "i" ["chroot", "/host", "ip", "a"] "" ""] ∧
    (external_tools.executeCommand (fun _ _ => {})
        { TargetType := "pod", PodName := "p" } ["ip", "a"] []).calls =
      [ExecCall.ExecPod "p" "default" "" ["ip", "a"]] :=
  ⟨(executeCommand_target_resolution (fun _ _ => {}) { TargetType := "host" } ["ip", "a"]
      []).1 (by decide) (by decide),
    (executeCommand_target_resolution (fun _ _ => {}) { TargetType := "node", NodeImage := "i" }
      ["ip", "a"] []).2.1 rfl rfl,
    (executeCommand_target_resolution (fun _ _ => {}) { TargetType := "node", NodeName := "n" }
      ["ip", "a"] []).2.2.1 rfl (by decide) rfl,
    (executeCommand_target_resolution (fun _ _ => {}) { TargetType := "pod" } ["ip", "a"]
      []).2.2.2.1 rfl rfl,
    (executeCommand_target_resolution (fun _ _ => {})
      { TargetType := "node", NodeName := "n", NodeImage := "i" } ["ip", "a"]
      []).2.2.2.2.1 rfl (by decide) (by decide),
    (executeCommand_target_resolution (fun _ _ => {}) { TargetType := "pod", PodName := "p" }
      ["ip", "a"] []).2.2.2.2.2 rfl (by decide)⟩

/-! ### C25: fields of the other target variant -/

/-- C25, as stated, fails: a node target that also names a pod, a namespace and a container
is not rejected; the command runs on the node.  A pod target that also names a node and an
image runs in the pod. -/
theorem executeCommand_runs_mixed_target :
    external_tools.executeCommand (fun _ _ => { stdout := "lo: up" })
        { TargetType := "node", NodeName := "worker-1", NodeImage := "netshoot",
          PodName := "web-0", PodNamespace := "prod", ContainerName := "app" }
        ["ip", "a"] [] =
      ⟨"lo: up", none,
        [ExecCall.DebugNode "worker-1" "netshoot" ["chroot", "/host", "ip", "a"] "" ""]⟩ ∧
    external_tools.executeCommand (fun _ _ => { stdout := "lo: up" })
        { TargetType := "pod", PodName := "web-0", NodeName := "worker-1",
          NodeImage := "netshoot" }
        ["ip", "a"] [] =
      ⟨"lo: up", none, [ExecCall.ExecPod "web-0" "default" "" ["ip", "a"]]⟩ := by
  decide

/-- C25, amended: `executeCommand` reads `target_type` and the fields of that variant only,
and ignores the fields of the other variant: a node target gives the same results and the
same calls as the target with the pod fields emptied, and a pod target the same as the
target with the node fields emptied. -/
theorem executeCommand_ignores_other_variant (cs : ClientSet)
    (target : external_tools.TargetParams) (command : List String) (log : List ExecCall) :
    (target.TargetType = "node" →
      external_tools.executeCommand cs target command log =
        external_tools.executeCommand cs
          { TargetType := "node", NodeName := target.NodeName, NodeImage := target.NodeImage }
          command log) ∧
    (target.TargetType = "pod" →
      external_tools.executeCommand cs target command log =
        external_tools.executeCommand cs
          { TargetType := "pod", PodName := target.PodName,
            PodNamespace := target.PodNamespace, ContainerName := target.ContainerName }
          command log) := by
  have hnp : ¬ (("pod" : String) = "node") := by decide
  constructor
  · intro h
    unfold external_tools.executeCommand
    simp only [h, if_true]
  · intro h
    unfold external_tools.executeCommand
    simp only [h, if_true, if_neg hnp]

/-- Witness for the amended C25: the node target of the counterexample behaves as the same
target without its pod fields. -/
theorem executeCommand_ignores_other_variant_witness :
    external_tools.executeCommand (fun _ _ => { stdout := "lo: up" })
        { TargetType := "node", NodeName := "worker-1", NodeImage := "netshoot",
          PodName := "web-0", PodNamespace := "prod", ContainerName := "app" }
        ["ip", "a"] [] =
      external_tools.executeCommand (fun _ _ => { stdout := "lo: up" })
        { TargetType := "node", NodeName := "worker-1", NodeImage := "netshoot" }
        ["ip", "a"] [] :=
  (executeCommand_ignores_other_variant (fun _ _ => { stdout := "lo: up" })
    { TargetType := "node", NodeName := "worker-1", NodeImage := "netshoot",
      PodName := "web-0", PodNamespace := "prod", ContainerName := "app" }
    ["ip", "a"] []).1 rfl

/-! ### C26: the streams of a failed command -/

/-- C26 fails on the code: when the exec request in the debug pod fails, the client method
`DebugNode` returns two empty strings next to the error, whatever the request captured, so
the output that `executeCommand` builds from them is a lone newline.  On a cluster whose exec
request returns the stdout `partial`, the stderr `tcpdump: eth9: No such device exists` and
an error, neither text comes back. -/
theorem DebugNode_drops_streams_on_exec_error :
    (∀ (c : k8sclient.Cluster) (ticks : Nat) (name image : String) (command : List String)
        (hostPath mountPath : String) (log : List k8sclient.ApiCall),
      (k8sclient.DebugNode c ticks name image command hostPath mountPath log).err = none ∨
      ((k8sclient.DebugNode c ticks name image command hostPath mountPath log).stdout = "" ∧
        (k8sclient.DebugNode c ticks name image command hostPath mountPath log).stderr = "")) ∧
    (k8sclient.DebugNode
        (fun _ call =>
          match call with
          | .Create _ => { name := "debug-node-worker-1-x7k2p" }
          | .Get _ _ => { running := true }
          | .Exec _ _ _ _ =>
            { stdout := "partial", stderr := "tcpdump: eth9: No such device exists",
              err := some "command terminated with exit code 1" }
          | .Delete _ _ => {})
        3 "worker-1" "netshoot" ["chroot", "/host", "tcpdump", "-i", "eth9"] "" "" []).stdout
      = "" ∧
    (k8sclient.DebugNode
        (fun _ call =>
          match call with
          | .Create _ => { name := "debug-node-worker-1-x7k2p" }
          | .Get _ _ => { running := true }
          | .Exec _ _ _ _ =>
            { stdout := "partial", stderr := "tcpdump: eth9: No such device exists",
              err := some "command terminated with exit code 1" }
          | .Delete _ _ => {})
        3 "worker-1" "netshoot" ["chroot", "/host", "tcpdump", "-i", "eth9"] "" "" []).stderr
      = "" ∧
    external_tools.executeCommand
        (k8sclient.clientSet
          (fun _ call =>
            match call with
            | .Create _ => { name := "debug-node-worker-1-x7k2p" }
            | .Get _ _ => { running := true }
            | .Exec _ _ _ _ =>
              { stdout := "partial", stderr := "tcpdump: eth9: No such device exists",
                err := some "command terminated with exit code 1" }
            | .Delete _ _ => {})
          3)
        { TargetType := "node", NodeName := "worker-1", NodeImage := "netshoot" }
        ["tcpdump", "-i", "eth9"] [] =
      ⟨"\n",
        some "failed to execute command in debug pod: command terminated with exit code 1",
        [ExecCall.DebugNode "worker-1" "netshoot" ["chroot", "/host", "tcpdump", "-i", "eth9"]
          "" ""]⟩ := by
  refine ⟨?_, by decide, by decide, by decide⟩
  intro c ticks name image command hostPath mountPath log
  unfold k8sclient.DebugNode
  simp only []
  split
  · exact Or.inr ⟨rfl, rfl⟩
  · split
    · exact Or.inr ⟨rfl, rfl⟩
    · exact Or.inl rfl

/-! ### C27: paths of a node debug request -/

theorem hasPrefixChars_slash (cs : List Char) :
    hasPrefixChars cs ['/'] = true ↔ ∃ rest, cs = '/' :: rest := by
  cases cs with
  | nil => simp [hasPrefixChars]
  | cons c cs => simp [hasPrefixChars]

theorem isSafePathChar_iff (c : Char) :
    kubernetes.isSafePathChar c = true ↔
      (('a' ≤ c ∧ c ≤ 'z') ∨ ('A' ≤ c ∧ c ≤ 'Z') ∨ ('0' ≤ c ∧ c ≤ '9') ∨
        c = '/' ∨ c = '-' ∨ c = '_' ∨ c = '.' ∨ c = '~') := by
  unfold kubernetes.isSafePathChar
  simp only [Bool.or_eq_true, Bool.and_eq_true, decide_eq_true_eq, beq_iff_eq, or_assoc]

/-- C27: `validatePath(p)` succeeds exactly when `p` is empty, or `p` starts with `/`, no
element of `p` between slashes is `..`, and every character of `p` is a letter `a-z` or
`A-Z`, a digit, or one of `/ - _ . ~`; and `DebugNode` checks `hostPath` and `mountPath` this
way before it calls the clientset: when either is rejected it returns an error and no call
is made. -/
theorem validatePath_iff (p pathType : String) (cs : ClientSet)
    (inp : kubernetes.DebugNodeParams) (log : List ExecCall) :
    (kubernetes.validatePath p pathType = .ok () ↔
      (p = "" ∨
        ((∃ rest, p.data = '/' :: rest) ∧
          (∀ e ∈ stringsSplit p '/', e ≠ "..") ∧
          ∀ c ∈ p.data, (('a' ≤ c ∧ c ≤ 'z') ∨ ('A' ≤ c ∧ c ≤ 'Z') ∨ ('0' ≤ c ∧ c ≤ '9') ∨
            c = '/' ∨ c = '-' ∨ c = '_' ∨ c = '.' ∨ c = '~')))) ∧
    (((∃ e, kubernetes.validatePath inp.HostPath "hostPath" = .error e) ∨
        (∃ e, kubernetes.validatePath inp.MountPath "mountPath" = .error e)) →
      (kubernetes.DebugNode cs inp log).err ≠ none ∧
        (kubernetes.DebugNode cs inp log).calls = log) := by
  constructor
  · unfold kubernetes.validatePath
    by_cases h0 : p = ""
    · simp [h0]
    · rw [if_neg h0]
      have hpre : stringsHasPrefix p "/" = true ↔ ∃ rest, p.data = '/' :: rest :=
        hasPrefixChars_slash p.data
      by_cases h1 : stringsHasPrefix p "/" = true
      · have h1' : ¬ ((!stringsHasPrefix p "/") = true) := by simp [h1]
        rw [if_neg h1']
        by_cases h2 : (stringsSplit p '/').any (fun elem => elem == "..") = true
        · rw [if_pos h2]
          constructor
          · intro h
            cases h
          · rintro (h | ⟨_, h, _⟩)
            · exact absurd h h0
            · exfalso
              obtain ⟨e, he, hee⟩ := List.any_eq_true.mp h2
              exact h e he (by simpa using hee)
        · rw [if_neg h2]
          have h2' : ∀ e ∈ stringsSplit p '/', e ≠ ".." := by
            intro e he hee
            apply h2
            exact List.any_eq_true.mpr ⟨e, he, by simp [hee]⟩
          by_cases h3 : p.data.all kubernetes.isSafePathChar = true
          · have h3' : ¬ ((!p.data.all kubernetes.isSafePathChar) = true) := by simp [h3]
            rw [if_neg h3']
            constructor
            · intro _
              refine Or.inr ⟨hpre.mp h1, h2', ?_⟩
              intro c hc
              exact (isSafePathChar_iff c).mp (List.all_eq_true.mp h3 c hc)
            · intro _
              rfl
          · have h3' : (!p.data.all kubernetes.isSafePathChar) = true := by simpa using h3
            rw [if_pos h3']
            constructor
            · intro h
              cases h
            · rintro (h | ⟨_, _, h⟩)
              · exact absurd h h0
              · exfalso
                apply h3
                exact List.all_eq_true.mpr (fun c hc => (isSafePathChar_iff c).mpr (h c hc))
      · have h1' : (!stringsHasPrefix p "/") = true := by simpa using h1
        rw [if_pos h1']
        constructor
        · intro h
          cases h
        · rintro (h | ⟨h, _, _⟩)
          · exact absurd h h0
          · exact absurd (hpre.mpr h) h1
  · intro h
    unfold kubernetes.DebugNode
    rcases h with ⟨e, he⟩ | ⟨e, he⟩
    · simp [he]
    · simp only [he]
      split <;> simp


/-- Witness for C27: `/var/log` is accepted, and a request whose `hostPath` holds a `..`
element is answered with an error before any call. -/
theorem validatePath_iff_witness :
    kubernetes.validatePath "/var/log" "hostPath" = .ok () ∧
    ((kubernetes.DebugNode (fun _ _ => {}) { Name := "worker-1", HostPath := "/a/../b" }
        []).err ≠ none ∧
      (kubernetes.DebugNode (fun _ _ => {}) { Name := "worker-1", HostPath := "/a/../b" }
        []).calls = []) :=
  ⟨(validatePath_iff "/var/log" "hostPath" (fun _ _ => {}) {} []).1.mpr
      (Or.inr ⟨⟨_, rfl⟩, by decide, by decide⟩),
    (validatePath_iff "" "" (fun _ _ => {}) { Name := "worker-1", HostPath := "/a/../b" }
      []).2 (Or.inl ⟨_, rfl⟩)⟩

/-! ### C28: host names -/

/-- C28 fails on the code: a host name of one character is rejected unless it is an IP
literal.  The pattern asks for a first and a last character at two different positions, so
`a` is answered with `invalid hostname: a`, and so is every one-character name that
`net.ParseIP` does not read; the two-character name `ab` is accepted. -/
theorem ValidateHostname_rejects_one_character :
    client.ValidateHostname (fun _ => false) "a" = .error "invalid hostname: a" ∧
    client.ValidateHostname (fun _ => false) "ab" = .ok () ∧
    (∀ (netParseIP : String → Bool) (c : Char),
      netParseIP (String.singleton c) = true ∨
      client.ValidateHostname netParseIP (String.singleton c) =
        .error ("invalid hostname: " ++ String.singleton c)) := by
  refine ⟨by decide, by decide, ?_⟩
  intro netParseIP c
  by_cases hip : netParseIP (String.singleton c) = true
  · exact Or.inl hip
  · right
    have hne : String.singleton c ≠ "" := by
      intro h
      have := congrArg String.data h
      simp [String.singleton] at this
    have hlen : ¬ ((String.singleton c).utf8ByteSize > 253) := by
      have h1 : (String.singleton c).utf8ByteSize = c.utf8Size := by
        simp [String.singleton, String.utf8ByteSize, String.utf8ByteSize.go]
      have h2 := Char.utf8Size_le_four c
      omega
    have hpat : client.hostnamePattern (String.singleton c) = false := by
      simp [client.hostnamePattern, String.singleton]
    unfold client.ValidateHostname
    rw [if_neg hne, if_neg hip, if_neg hlen, hpat]
    rfl

/-! ### C29: relative paths inside a sosreport -/

theorem splitChars_append_sep_general (sep : Char) (a b : List Char) :
    splitChars sep (a ++ sep :: b) = splitChars sep a ++ splitChars sep b := by
  induction a with
  | nil => simp [splitChars]
  | cons c a ih =>
    rw [List.cons_append]
    by_cases hc : c = sep
    · simp only [splitChars, if_pos hc, ih, List.cons_append]
    · simp only [splitChars, if_neg hc, ih]
      cases hs : splitChars sep a with
      | nil => exact absurd hs (splitChars_ne_nil sep a)
      | cons l ls => simp

theorem stringsSplit_append_sep (r p : String) :
    stringsSplit (r ++ "/" ++ p) '/' = stringsSplit r '/' ++ stringsSplit p '/' := by
  unfold stringsSplit
  have h : (r ++ "/" ++ p).data = r.data ++ '/' :: p.data := by
    simp [String.data_append]
  rw [h, splitChars_append_sep_general, List.map_append]

theorem hasPrefixChars_append_self (e t : List Char) : hasPrefixChars (e ++ t) e = true := by
  induction e with
  | nil => cases t <;> rfl
  | cons c e ih => simp [hasPrefixChars, ih]

theorem containsChars_of_hasPrefixChars (cs sub : List Char)
    (h : hasPrefixChars cs sub = true) : containsChars cs sub = true := by
  cases cs with
  | nil =>
    cases sub with
    | nil => rfl
    | cons c sub => simp [hasPrefixChars] at h
  | cons c cs => simp [containsChars, h]

theorem containsChars_append_left (a b sub : List Char) (h : containsChars b sub = true) :
    containsChars (a ++ b) sub = true := by
  induction a with
  | nil => simpa using h
  | cons c a ih =>
    rw [List.cons_append]
    simp [containsChars, ih]

theorem containsChars_stringsJoin (e : String) (sep : String) :
    ∀ L : List String, e ∈ L → containsChars (stringsJoin L sep).data e.data = true := by
  intro L
  induction L with
  | nil =>
    intro h
    simp at h
  | cons a rest ih =>
    intro h
    cases rest with
    | nil =>
      simp only [List.mem_singleton] at h
      subst h
      simp only [stringsJoin]
      apply containsChars_of_hasPrefixChars
      simpa using hasPrefixChars_append_self e.data []
    | cons b rest =>
      have hdata : (stringsJoin (a :: b :: rest) sep).data =
          a.data ++ (sep.data ++ (stringsJoin (b :: rest) sep).data) := by
        simp [stringsJoin, String.data_append]
      rw [hdata]
      rcases List.mem_cons.mp h with h1 | h1
      · subst h1
        exact containsChars_of_hasPrefixChars _ _ (hasPrefixChars_append_self _ _)
      · apply containsChars_append_left
        apply containsChars_append_left
        exact ih h1

theorem cleanStep_mem_dotdot (rooted : Bool) (s : List String) (e : String)
    (h : ".." ∈ s) : ".." ∈ cleanStep rooted s e := by
  unfold cleanStep
  by_cases h1 : e = "" ∨ e = "."
  · simp only [if_pos h1]
    exact h
  · simp only [if_neg h1]
    by_cases h2 : e = ".."
    · simp only [if_pos h2]
      cases s with
      | nil => simp at h
      | cons top rest =>
        simp only []
        by_cases h3 : top ≠ ".."
        · simp only [if_pos h3]
          rcases List.mem_cons.mp h with h5 | h5
          · exact absurd h5.symm h3
          · exact h5
        · simp only [if_neg h3]
          cases rooted
          · exact List.mem_cons_of_mem _ h
          · exact h
    · simp only [if_neg h2]
      exact List.mem_cons_of_mem _ h

theorem foldl_cleanStep_mem_dotdot (rooted : Bool) (es : List String) :
    ∀ s : List String, ".." ∈ s → ".." ∈ es.foldl (cleanStep rooted) s := by
  induction es with
  | nil =>
    intro s h
    exact h
  | cons e es ih =>
    intro s h
    exact ih _ (cleanStep_mem_dotdot rooted s e h)

theorem foldl_cleanStep_append (rooted : Bool) (base : List String) (es : List String) :
    ∀ s : List String, ".." ∉ es.foldl (cleanStep false) s →
      es.foldl (cleanStep rooted) (s ++ base) = es.foldl (cleanStep false) s ++ base := by
  induction es with
  | nil =>
    intro s _
    rfl
  | cons e es ih =>
    intro s h
    simp only [List.foldl_cons] at h ⊢
    have hs : ".." ∉ cleanStep false s e := fun hm =>
      h (foldl_cleanStep_mem_dotdot false es _ hm)
    have hstep : cleanStep rooted (s ++ base) e = cleanStep false s e ++ base := by
      unfold cleanStep at hs ⊢
      by_cases h1 : e = "" ∨ e = "."
      · simp only [if_pos h1]
      · simp only [if_neg h1] at hs ⊢
        by_cases h2 : e = ".."
        · simp only [if_pos h2] at hs ⊢
          cases s with
          | nil => simp at hs
          | cons top rest =>
            simp only [] at hs
            by_cases h3 : top ≠ ".."
            · simp only [List.cons_append, if_pos h3]
            · simp only [if_neg h3] at hs
              simp at hs
        · simp only [if_neg h2, List.cons_append]
    rw [hstep]
    exact ih _ h


theorem cleanStep_no_empty (rooted : Bool) (s : List String) (e : String)
    (h : "" ∉ s) : "" ∉ cleanStep rooted s e := by
  unfold cleanStep
  by_cases h1 : e = "" ∨ e = "."
  · simp only [if_pos h1]
    exact h
  · simp only [if_neg h1]
    by_cases h2 : e = ".."
    · simp only [if_pos h2]
      cases s with
      | nil => cases rooted <;> simp
      | cons top rest =>
        simp only []
        have hrest : "" ∉ rest := fun hm => h (List.mem_cons_of_mem _ hm)
        by_cases h3 : top ≠ ".."
        · simp only [if_pos h3]
          exact hrest
        · simp only [if_neg h3]
          cases rooted
          · intro hm
            rcases List.mem_cons.mp hm with h5 | h5
            · exact absurd h5 (by decide)
            · exact h h5
          · exact h
    · simp only [if_neg h2]
      intro hm
      rcases List.mem_cons.mp hm with h5 | h5
      · exact h1 (Or.inl h5.symm)
      · exact h h5

theorem foldl_cleanStep_no_empty (rooted : Bool) (es : List String) :
    ∀ s : List String, "" ∉ s → "" ∉ es.foldl (cleanStep rooted) s := by
  induction es with
  | nil =>
    intro s h
    exact h
  | cons e es ih =>
    intro s h
    exact ih _ (cleanStep_no_empty rooted s e h)

theorem cleanStack_no_empty (p : String) : "" ∉ cleanStack p :=
  foldl_cleanStep_no_empty _ _ [] (by simp)

theorem stringsJoin_ne_empty (L : List String) (sep : String) (hne : L ≠ [])
    (h : "" ∉ L) : stringsJoin L sep ≠ "" := by
  cases L with
  | nil => exact absurd rfl hne
  | cons a rest =>
    have ha : a ≠ "" := fun ha => h (ha ▸ List.mem_cons_self a rest)
    have hd : a.data ≠ [] := fun hd => ha (String.ext hd)
    intro hj
    have hdata := congrArg String.data hj
    cases rest with
    | nil =>
      simp only [stringsJoin] at hdata
      exact hd hdata
    | cons b rest =>
      simp only [stringsJoin, String.data_append] at hdata
      have h1 : (a.data ++ sep.data) ++ (stringsJoin (b :: rest) sep).data = [] := hdata
      exact hd (List.append_eq_nil.mp (List.append_eq_nil.mp h1).1).1

theorem stringsJoin_append (A B : List String) (sep : String) (hA : A ≠ []) (hB : B ≠ []) :
    stringsJoin (A ++ B) sep = stringsJoin A sep ++ sep ++ stringsJoin B sep := by
  induction A with
  | nil => exact absurd rfl hA
  | cons a rest ih =>
    cases rest with
    | nil =>
      cases B with
      | nil => exact absurd rfl hB
      | cons b B => simp [stringsJoin]
    | cons a2 rest =>
      have h := ih (by simp)
      simp only [List.cons_append] at h ⊢
      simp only [stringsJoin, h, String.append_assoc]

theorem filepathIsAbs_slash_append (x : String) : filepathIsAbs ("/" ++ x) = true := by
  unfold filepathIsAbs stringsHasPrefix
  rw [String.data_append]
  exact hasPrefixChars_append_self ['/'] x.data

theorem filepathClean_eq_cleanOutput (p : String) (h : filepathIsAbs p = false) :
    filepathClean p = cleanOutput false (cleanStack p) := by
  unfold filepathClean
  by_cases h0 : p = ""
  · subst h0
    rfl
  · rw [if_neg h0, h]

theorem filepathClean_abs (p : String) (h : filepathIsAbs p = true) :
    ∃ x, filepathClean p = "/" ++ x := by
  have h0 : p ≠ "" := by
    rintro rfl
    exact absurd h (by decide)
  unfold filepathClean cleanOutput
  rw [if_neg h0, h]
  simp only [if_true]
  have hne : "/" ++ stringsJoin (cleanStack p).reverse "/" ≠ "" := by
    intro hj
    have := congrArg String.data hj
    simp [String.data_append] at this
  rw [if_neg hne]
  exact ⟨_, rfl⟩


theorem cleanOutput_false (stack : List String) (hne : stack ≠ []) (h : "" ∉ stack) :
    cleanOutput false stack = stringsJoin stack.reverse "/" := by
  have hj : stringsJoin stack.reverse "/" ≠ "" :=
    stringsJoin_ne_empty _ _ (by simpa using hne) (by simpa using h)
  unfold cleanOutput
  simp only [Bool.false_eq_true, if_false, String.empty_append, if_neg hj]

theorem cleanOutput_true (stack : List String) :
    cleanOutput true stack = "/" ++ stringsJoin stack.reverse "/" := by
  have hne : "/" ++ stringsJoin stack.reverse "/" ≠ "" := by
    intro hj
    have := congrArg String.data hj
    simp [String.data_append] at this
  unfold cleanOutput
  simp only [if_true, if_neg hne]

theorem validateRelativePath_ok (p : String) (h : sosreport.validateRelativePath p = .ok ()) :
    filepathIsAbs p = false ∧ ".." ∉ cleanStack p ∧
      stringsContains (filepathClean p) ".." = false := by
  unfold sosreport.validateRelativePath at h
  simp only [] at h
  by_cases hc : (stringsContains (filepathClean p) ".." || filepathIsAbs (filepathClean p)) = true
  · rw [if_pos hc] at h
    cases h
  · have hc' : stringsContains (filepathClean p) ".." = false ∧
        filepathIsAbs (filepathClean p) = false := by
      simpa using hc
    have habs : filepathIsAbs p = false := by
      by_contra hne
      have ht : filepathIsAbs p = true := by simpa using hne
      obtain ⟨x, hx⟩ := filepathClean_abs p ht
      have := filepathIsAbs_slash_append x
      rw [← hx, hc'.2] at this
      cases this
    refine ⟨habs, ?_, hc'.1⟩
    intro hm
    have hne : cleanStack p ≠ [] := List.ne_nil_of_mem hm
    have hclean : filepathClean p = stringsJoin (cleanStack p).reverse "/" := by
      rw [filepathClean_eq_cleanOutput p habs, cleanOutput_false _ hne (cleanStack_no_empty p)]
    have hcont := containsChars_stringsJoin ".." "/" (cleanStack p).reverse (by simpa using hm)
    have h1 := hc'.1
    unfold stringsContains at h1
    rw [hclean, hcont] at h1
    cases h1

theorem filepathIsAbs_append (r x : String) (hr : r ≠ "") :
    filepathIsAbs (r ++ x) = filepathIsAbs r := by
  have hd : r.data ≠ [] := fun hd => hr (String.ext hd)
  unfold filepathIsAbs stringsHasPrefix
  rw [String.data_append]
  cases hrd : r.data with
  | nil => exact absurd hrd hd
  | cons c cs =>
    show hasPrefixChars (c :: (cs ++ x.data)) ['/'] = hasPrefixChars (c :: cs) ['/']
    cases h1 : cs ++ x.data <;> cases cs <;> simp [hasPrefixChars]

theorem filepathJoin_accepted (r p : String) (hr : r ≠ "") (habs : filepathIsAbs p = false)
    (hp : ".." ∉ cleanStack p) :
    filepathJoin [r, p] = cleanOutput (filepathIsAbs r) (cleanStack p ++ cleanStack r) := by
  have hdrop : [r, p].dropWhile (fun e => e == "") = [r, p] := by
    have hb : (r == "") = false := by simpa using hr
    simp only [List.dropWhile, hb]
  have hne : r ++ "/" ++ p ≠ "" := by
    intro hj
    have hd := congrArg String.data hj
    simp [String.data_append] at hd
  have hisabs : filepathIsAbs (r ++ "/" ++ p) = filepathIsAbs r := by
    rw [String.append_assoc]
    exact filepathIsAbs_append r _ hr
  have hstack : cleanStack (r ++ "/" ++ p) = cleanStack p ++ cleanStack r := by
    unfold cleanStack
    rw [hisabs, stringsSplit_append_sep, List.foldl_append, habs]
    have h := foldl_cleanStep_append (filepathIsAbs r)
      (List.foldl (cleanStep (filepathIsAbs r)) [] (stringsSplit r '/'))
      (stringsSplit p '/') [] (by
        have := hp
        unfold cleanStack at this
        rw [habs] at this
        exact this)
    simpa using h
  unfold filepathJoin
  rw [hdrop]
  simp only [stringsJoin]
  unfold filepathClean
  rw [if_neg hne, hisabs, hstack]


theorem filepathClean_dot_slash (p : String) (habs : filepathIsAbs p = false) :
    filepathClean ("./" ++ p) = filepathClean p := by
  have hne : "./" ++ p ≠ "" := by
    intro hj
    have hd := congrArg String.data hj
    simp [String.data_append] at hd
  have hisabs : filepathIsAbs ("./" ++ p) = false := by
    have h1 : ("./" : String) = "." ++ "/" := by decide
    rw [h1, String.append_assoc, filepathIsAbs_append "." _ (by decide)]
    decide
  have hsplit : stringsSplit ("./" ++ p) '/' = "." :: stringsSplit p '/' := by
    have h1 : ("./" : String) ++ p = "." ++ "/" ++ p := by
      rw [show ("./" : String) = "." ++ "/" by decide]
    rw [h1, stringsSplit_append_sep]
    rfl
  have hstack : cleanStack ("./" ++ p) = cleanStack p := by
    unfold cleanStack
    rw [hisabs, hsplit, habs]
    rfl
  rw [filepathClean_eq_cleanOutput p habs]
  unfold filepathClean
  rw [if_neg hne, hisabs, hstack]

theorem filepathJoin_inside (r p : String) (h : sosreport.validateRelativePath p = .ok ()) :
    filepathJoin [r, p] = filepathClean r ∨
    filepathJoin [r, p] = filepathClean r ++ "/" ++ filepathClean p ∨
    (filepathClean r = "/" ∧ filepathJoin [r, p] = "/" ++ filepathClean p) ∨
    (filepathClean r = "." ∧ filepathJoin [r, p] = filepathClean p) ∨
    (r = "" ∧ p = "" ∧ filepathJoin [r, p] = "") := by
  obtain ⟨habs, hdd, _⟩ := validateRelativePath_ok p h
  by_cases hr : r = ""
  · subst hr
    by_cases hp : p = ""
    · subst hp
      exact Or.inr (Or.inr (Or.inr (Or.inr ⟨rfl, rfl, rfl⟩)))
    · refine Or.inr (Or.inr (Or.inr (Or.inl ⟨rfl, ?_⟩)))
      have hb : (p == "") = false := by simpa using hp
      unfold filepathJoin
      simp only [List.dropWhile, hb]
      simp [stringsJoin]
  · rw [filepathJoin_accepted r p hr habs hdd]
    have hcr : filepathClean r = cleanOutput (filepathIsAbs r) (cleanStack r) := by
      unfold filepathClean
      rw [if_neg hr]
    have hcp : filepathClean p = cleanOutput false (cleanStack p) :=
      filepathClean_eq_cleanOutput p habs
    by_cases hsp : cleanStack p = []
    · left
      rw [hsp, hcr]
      rfl
    · right
      have hcp' : filepathClean p = stringsJoin (cleanStack p).reverse "/" := by
        rw [hcp, cleanOutput_false _ hsp (cleanStack_no_empty p)]
      have hnep : "" ∉ cleanStack p ++ cleanStack r := by
        intro hm
        rcases List.mem_append.mp hm with h1 | h1
        · exact cleanStack_no_empty p h1
        · exact cleanStack_no_empty r h1
      by_cases hsr : cleanStack r = []
      · right
        rw [hsr] at hcr
        rw [hsr, List.append_nil]
        cases hra : filepathIsAbs r
        · right
          left
          rw [hra] at hcr
          refine ⟨by rw [hcr]; rfl, ?_⟩
          rw [hcp]
        · left
          rw [hra] at hcr
          refine ⟨by rw [hcr]; rfl, ?_⟩
          rw [cleanOutput_true, hcp']
      · left
        have hjoin : stringsJoin (cleanStack p ++ cleanStack r).reverse "/" =
            stringsJoin (cleanStack r).reverse "/" ++ "/" ++
              stringsJoin (cleanStack p).reverse "/" := by
          rw [List.reverse_append]
          exact stringsJoin_append _ _ _ (by simpa using hsr) (by simpa using hsp)
        cases hra : filepathIsAbs r
        · rw [hra] at hcr
          rw [cleanOutput_false _ (by simp [hsp]) hnep, hjoin, hcr,
            cleanOutput_false _ hsr (cleanStack_no_empty r), hcp']
        · rw [hra] at hcr
          rw [cleanOutput_true, hjoin, hcr, cleanOutput_true, hcp']
          simp only [String.append_assoc]


theorem validateSosreportPath_no_open (h : sosreport.Host) (sosreportPath : String)
    (log : List sosreport.FsCall) (q : String)
    (hq : sosreport.FsCall.Open q ∈ (sosreport.validateSosreportPath h sosreportPath log).2) :
    sosreport.FsCall.Open q ∈ log := by
  unfold sosreport.validateSosreportPath at hq
  simp only [] at hq
  split_ifs at hq <;> simpa using hq

/-- C29: `validateRelativePath` rejects every absolute path and every path whose cleaned form
contains `..`; a leading `./` changes nothing (a relative path with `./` in front is accepted
exactly when the path itself is); for an accepted path `p` and any root `r`,
`filepath.Join(r, p)` stays inside `r`: it is the cleaned `r` itself, or the cleaned `r`
followed by a slash and the cleaned `p` (the slash of the root `/` and the name `.` of the
current directory are not doubled), and the cleaned `p` has no `..` and is not absolute; for
a rejected path `getCommandOutput` returns an error after the checks of the sosreport
directory alone: it opens no file. -/
theorem validateRelativePath_confines (p r : String) (h : sosreport.Host)
    (sosreportPath pattern : String) (maxLines : Int) (log : List sosreport.FsCall) :
    (filepathIsAbs p = true →
      sosreport.validateRelativePath p = .error "invalid path: path traversal not allowed") ∧
    (stringsContains (filepathClean p) ".." = true →
      sosreport.validateRelativePath p = .error "invalid path: path traversal not allowed") ∧
    (filepathIsAbs p = false →
      sosreport.validateRelativePath ("./" ++ p) = sosreport.validateRelativePath p) ∧
    (sosreport.validateRelativePath p = .ok () →
      stringsContains (filepathClean p) ".." = false ∧
      filepathIsAbs (filepathClean p) = false ∧
      (filepathJoin [r, p] = filepathClean r ∨
        filepathJoin [r, p] = filepathClean r ++ "/" ++ filepathClean p ∨
        (filepathClean r = "/" ∧ filepathJoin [r, p] = "/" ++ filepathClean p) ∨
        (filepathClean r = "." ∧ filepathJoin [r, p] = filepathClean p) ∨
        (r = "" ∧ p = "" ∧ filepathJoin [r, p] = ""))) ∧
    ((∃ e, sosreport.validateRelativePath p = .error e) →
      (∃ e, (sosreport.getCommandOutput h sosreportPath p pattern maxLines log).1 = .error e) ∧
      (sosreport.getCommandOutput h sosreportPath p pattern maxLines log).2 =
        (sosreport.validateSosreportPath h sosreportPath log).2 ∧
      ∀ q, sosreport.FsCall.Open q ∈
          (sosreport.getCommandOutput h sosreportPath p pattern maxLines log).2 →
        sosreport.FsCall.Open q ∈ log) := by
  refine ⟨?_, ?_, ?_, ?_, ?_⟩
  · intro habs
    obtain ⟨x, hx⟩ := filepathClean_abs p habs
    unfold sosreport.validateRelativePath
    simp only [hx, filepathIsAbs_slash_append, Bool.or_true, if_true]
  · intro hc
    unfold sosreport.validateRelativePath
    simp only [hc, Bool.true_or, if_true]
  · intro habs
    unfold sosreport.validateRelativePath
    rw [filepathClean_dot_slash p habs]
  · intro hok
    have hfacts := validateRelativePath_ok p hok
    refine ⟨hfacts.2.2, ?_, filepathJoin_inside r p hok⟩
    unfold sosreport.validateRelativePath at hok
    simp only [] at hok
    by_cases hc : (stringsContains (filepathClean p) ".." ||
        filepathIsAbs (filepathClean p)) = true
    · rw [if_pos hc] at hok
      cases hok
    · have hc' : stringsContains (filepathClean p) ".." = false ∧
          filepathIsAbs (filepathClean p) = false := by
        simpa using hc
      exact hc'.2
  · rintro ⟨e, he⟩
    have hlog : (sosreport.getCommandOutput h sosreportPath p pattern maxLines log).2 =
        (sosreport.validateSosreportPath h sosreportPath log).2 := by
      unfold sosreport.getCommandOutput
      split
      · rename_i e1 log1 heq
        rw [heq]
      · rename_i log1 heq
        rw [heq]
        simp only [he]
    refine ⟨?_, hlog, ?_⟩
    · unfold sosreport.getCommandOutput
      split
      · exact ⟨_, rfl⟩
      · simp only [he]
        exact ⟨_, rfl⟩
    · intro q hq
      rw [hlog] at hq
      exact validateSosreportPath_no_open h sosreportPath log q hq

/-- Witness for C29: an absolute path and a path that climbs out are rejected, a path with a
leading `./` is accepted and lands under the root, and no file is opened for the rejected
path. -/
theorem validateRelativePath_confines_witness :
    sosreport.validateRelativePath "/etc/passwd" =
      .error "invalid path: path traversal not allowed" ∧
    sosreport.validateRelativePath "sos_commands/../../../etc/passwd" =
      .error "invalid path: path traversal not allowed" ∧
    sosreport.validateRelativePath "./sos_commands/ovs" =
      sosreport.validateRelativePath "sos_commands/ovs" ∧
    filepathJoin ["/tmp/sos", "./sos_commands/ovs"] = "/tmp/sos/sos_commands/ovs" ∧
    (sosreport.getCommandOutput ⟨fun _ => false, fun _ => .ok ⟨["x"], none⟩,
        fun _ => .ok (fun _ => true), id⟩ "/tmp/sos" "../etc/passwd" "" 0 []).2 =
      [.Stat "/tmp/sos", .Stat "/tmp/sos/sos_commands",
        .Stat "/tmp/sos/sos_reports/manifest.json"] :=
  ⟨(validateRelativePath_confines "/etc/passwd" "" ⟨fun _ => false, fun _ => .ok ⟨[], none⟩,
      fun _ => .ok (fun _ => true), id⟩ "" "" 0 []).1 (by decide),
    (validateRelativePath_confines "sos_commands/../../../etc/passwd" "" ⟨fun _ => false,
      fun _ => .ok ⟨[], none⟩, fun _ => .ok (fun _ => true), id⟩ "" "" 0 []).2.1 (by decide),
    (validateRelativePath_confines "sos_commands/ovs" "" ⟨fun _ => false,
      fun _ => .ok ⟨[], none⟩, fun _ => .ok (fun _ => true), id⟩ "" "" 0 []).2.2.1 (by decide),
    by decide,
    ((validateRelativePath_confines "../etc/passwd" "" ⟨fun _ => false,
      fun _ => .ok ⟨["x"], none⟩, fun _ => .ok (fun _ => true), id⟩ "/tmp/sos" "" 0
      []).2.2.2.2 ⟨_, rfl⟩).2.1.trans (by decide)⟩

/-! ### C30: head and tail of pod logs -/

theorem StripEmptyLines_eq (lines : List String) :
    utils.StripEmptyLines lines = lines.filter (fun line => stringsTrimSpace line != "") := by
  unfold utils.StripEmptyLines
  split_ifs with h
  · have : lines = [] := List.eq_nil_of_length_eq_zero h
    subst this
    rfl
  · rfl

theorem MatchPattern_compiled (regexpCompile : String → Except String (String → Bool))
    (pattern : String) (lines : List String) (re : String → Bool)
    (h : regexpCompile pattern = .ok re) :
    utils.MatchPattern regexpCompile pattern lines = .ok (lines.filter (fun line => re line)) := by
  unfold utils.MatchPattern
  split_ifs with h0
  · have : lines = [] := List.eq_nil_of_length_eq_zero h0
    subst this
    rfl
  · rw [h]

theorem Head_eq_take (lines : List String) (n : Int) (hn : 0 < n) :
    utils.Head lines n = lines.take (min lines.length n.toNat) := by
  unfold utils.Head
  split_ifs with h0 h1
  · have : lines = [] := List.eq_nil_of_length_eq_zero h0
    subst this
    simp
  · have hle : lines.length ≤ n.toNat := by omega
    rw [Nat.min_eq_left hle, List.take_length]
  · have hle : n.toNat ≤ lines.length := by omega
    rw [Nat.min_eq_right hle]

theorem Tail_eq_drop (lines : List String) (n : Int) (hn : 0 < n) :
    utils.Tail lines n = lines.drop (lines.length - min lines.length n.toNat) := by
  unfold utils.Tail
  split_ifs with h0 h1
  · have : lines = [] := List.eq_nil_of_length_eq_zero h0
    subst this
    simp
  · have hle : lines.length ≤ n.toNat := by omega
    rw [Nat.min_eq_left hle, Nat.sub_self, List.drop_zero]
  · have hle : n.toNat ≤ lines.length := by omega
    rw [Nat.min_eq_right hle]


/-- C30: the must-gather handler `GetPodLogs`, for a non-empty name, fails with the call log
untouched (omc is not invoked) when `head` and `tail` are both non-zero; otherwise, when the
omc client returns the log text and the pattern, if any, compiles, it returns with `F` the
non-blank lines filtered by the pattern: the first `min(|F|, H)` lines of `F` when
`tail = 0` (`H = head` if `head > 0`, else 100) and the last `min(|F|, T)` lines when
`tail != 0` (`T = tail` if `tail > 0`, else 100); the number of lines returned never exceeds
that limit. -/
theorem GetPodLogs_head_and_tail (h : omcclient.Host)
    (regexpCompile : String → Except String (String → Bool)) (commandPath : String)
    (inp : mustgather.GetPodLogsParams) (log : List omcclient.Event)
    (hname : inp.Name ≠ "") :
    (inp.Head ≠ 0 → inp.Tail ≠ 0 →
      mustgather.GetPodLogs h regexpCompile commandPath inp log =
        ⟨[], some "head and tail cannot be used together", log⟩) ∧
    (∀ F : List String, ¬ (inp.Head ≠ 0 ∧ inp.Tail ≠ 0) →
      (omcclient.GetPodLogs h commandPath inp.MustGatherPath inp.Namespace inp.Name
        inp.Container inp.Previous inp.Rotated log).err = none →
      ((inp.Pattern = "" ∧
          F = (stringsSplit (omcclient.GetPodLogs h commandPath inp.MustGatherPath
            inp.Namespace inp.Name inp.Container inp.Previous inp.Rotated log).output
            '\n').filter (fun line => stringsTrimSpace line != "")) ∨
        (inp.Pattern ≠ "" ∧ ∃ re, regexpCompile inp.Pattern = .ok re ∧
          F = ((stringsSplit (omcclient.GetPodLogs h commandPath inp.MustGatherPath
            inp.Namespace inp.Name inp.Container inp.Previous inp.Rotated log).output
            '\n').filter (fun line => stringsTrimSpace line != "")).filter
              (fun line => re line))) →
      (mustgather.GetPodLogs h regexpCompile commandPath inp log).err = none ∧
      (inp.Tail = 0 →
        (mustgather.GetPodLogs h regexpCompile commandPath inp log).Logs =
          F.take (min F.length (if inp.Head > 0 then inp.Head else 100).toNat)) ∧
      (inp.Tail ≠ 0 →
        (mustgather.GetPodLogs h regexpCompile commandPath inp log).Logs =
          F.drop (F.length - min F.length (if inp.Tail > 0 then inp.Tail else 100).toNat)) ∧
      ((mustgather.GetPodLogs h regexpCompile commandPath inp log).Logs.length : Int) ≤
        (if inp.Tail = 0 then (if inp.Head > 0 then inp.Head else 100)
          else (if inp.Tail > 0 then inp.Tail else 100))) := by
  constructor
  · intro hh ht
    unfold mustgather.GetPodLogs
    rw [if_neg hname, if_pos ⟨hh, ht⟩]
  · intro F hboth hgot hF
    have hH : (0 : Int) < (if inp.Head > 0 then inp.Head else 100) := by
      split_ifs <;> omega
    have hT : (0 : Int) < (if inp.Tail > 0 then inp.Tail else 100) := by
      split_ifs <;> omega
    have hmatched : (if inp.Pattern ≠ "" then
          utils.MatchPattern regexpCompile inp.Pattern
            (utils.StripEmptyLines (stringsSplit (omcclient.GetPodLogs h commandPath
              inp.MustGatherPath inp.Namespace inp.Name inp.Container inp.Previous inp.Rotated
              log).output '\n'))
        else .ok (utils.StripEmptyLines (stringsSplit (omcclient.GetPodLogs h commandPath
              inp.MustGatherPath inp.Namespace inp.Name inp.Container inp.Previous inp.Rotated
              log).output '\n'))) = .ok F := by
      rcases hF with ⟨hp, hFeq⟩ | ⟨hp, re, hre, hFeq⟩
      · rw [if_neg (by simpa using hp), StripEmptyLines_eq, hFeq]
      · rw [if_pos hp, MatchPattern_compiled _ _ _ re hre, StripEmptyLines_eq, hFeq]
    have hres : mustgather.GetPodLogs h regexpCompile commandPath inp log =
        (if inp.Tail = 0 then
          ⟨utils.Head F (if inp.Head > 0 then inp.Head else 100), none,
            (omcclient.GetPodLogs h commandPath inp.MustGatherPath inp.Namespace inp.Name
              inp.Container inp.Previous inp.Rotated log).log⟩
        else
          ⟨utils.Tail F (if inp.Tail > 0 then inp.Tail else 100), none,
            (omcclient.GetPodLogs h commandPath inp.MustGatherPath inp.Namespace inp.Name
              inp.Container inp.Previous inp.Rotated log).log⟩) := by
      unfold mustgather.GetPodLogs
      rw [if_neg hname, if_neg hboth]
      simp only [hgot, hmatched]
      rfl
    rw [hres]
    by_cases ht : inp.Tail = 0
    · simp only [if_pos ht]
      rw [Head_eq_take F _ hH]
      refine ⟨trivial, fun _ => rfl, fun hne => absurd ht hne, ?_⟩
      rw [List.length_take]
      have : min (min F.length (if inp.Head > 0 then inp.Head else 100).toNat) F.length ≤
          (if inp.Head > 0 then inp.Head else 100).toNat :=
        le_trans (Nat.min_le_left _ _) (Nat.min_le_right _ _)
      omega
    · simp only [if_neg ht]
      rw [Tail_eq_drop F _ hT]
      refine ⟨trivial, fun h0 => absurd h0 ht, fun _ => rfl, ?_⟩
      rw [List.length_drop]
      have : min F.length (if inp.Tail > 0 then inp.Tail else 100).toNat ≤
          (if inp.Tail > 0 then inp.Tail else 100).toNat := Nat.min_le_right _ _
      have h2 : min F.length (if inp.Tail > 0 then inp.Tail else 100).toNat ≤ F.length :=
        Nat.min_le_left _ _
      omega


/-- Witness for C30: with `head = 1` and `tail = 3` the request fails before any step of the
omc client; with `head = 2` the first two of the four non-blank lines come back. -/
theorem GetPodLogs_head_and_tail_witness :
    mustgather.GetPodLogs
        ⟨fun s => s, fun _ => .found, fun _ _ args =>
          if args.head? = some "use" then ("", none) else ("l1\n\nl2\n  \nl3\nl4\n", none)⟩
        (fun _ => .ok (fun _ => true)) "/usr/bin/omc"
        { MustGatherPath := "/mg", Name := "pod-a", Head := 1, Tail := 3 } [] =
      ⟨[], some "head and tail cannot be used together", []⟩ ∧
    (mustgather.GetPodLogs
        ⟨fun s => s, fun _ => .found, fun _ _ args =>
          if args.head? = some "use" then ("", none) else ("l1\n\nl2\n  \nl3\nl4\n", none)⟩
        (fun _ => .ok (fun _ => true)) "/usr/bin/omc"
        { MustGatherPath := "/mg", Name := "pod-a", Head := 2 } []).Logs = ["l1", "l2"] :=
  ⟨(GetPodLogs_head_and_tail
      ⟨fun s => s, fun _ => .found, fun _ _ args =>
        if args.head? = some "use" then ("", none) else ("l1\n\nl2\n  \nl3\nl4\n", none)⟩
      (fun _ => .ok (fun _ => true)) "/usr/bin/omc"
      { MustGatherPath := "/mg", Name := "pod-a", Head := 1, Tail := 3 } []
      (by decide)).1 (by decide) (by decide),
    ((GetPodLogs_head_and_tail
      ⟨fun s => s, fun _ => .found, fun _ _ args =>
        if args.head? = some "use" then ("", none) else ("l1\n\nl2\n  \nl3\nl4\n", none)⟩
      (fun _ => .ok (fun _ => true)) "/usr/bin/omc"
      { MustGatherPath := "/mg", Name := "pod-a", Head := 2 } []
      (by decide)).2 ["l1", "l2", "l3", "l4"] (by decide) (by decide)
      (Or.inl ⟨rfl, by decide⟩)).2.1 rfl⟩

/-! ### C31: matching lines against a pattern -/

/-- C31 fails on the code: with no lines, `MatchPattern` returns before it compiles the
pattern, so an invalid pattern such as `[invalid(` gives the empty result and a nil error.
With at least one line the claim holds: an invalid pattern gives the error
`invalid search pattern: ...`, and a valid one gives the lines that match, in order. -/
theorem MatchPattern_empty_lines_skips_compile :
    utils.MatchPattern (fun p => if p = "[invalid(" then .error "missing closing ]" else
        .ok (fun _ => true)) "[invalid(" [] = .ok [] ∧
    (∀ (regexpCompile : String → Except String (String → Bool)) (pattern : String),
      utils.MatchPattern regexpCompile pattern [] = .ok []) ∧
    (∀ (regexpCompile : String → Except String (String → Bool)) (pattern e : String)
        (line : String) (lines : List String),
      regexpCompile pattern = .error e →
        utils.MatchPattern regexpCompile pattern (line :: lines) =
          .error ("invalid search pattern: " ++ e)) ∧
    (∀ (regexpCompile : String → Except String (String → Bool)) (pattern : String)
        (re : String → Bool) (lines : List String),
      regexpCompile pattern = .ok re →
        utils.MatchPattern regexpCompile pattern lines =
          .ok (lines.filter (fun line => re line))) := by
  refine ⟨rfl, fun _ _ => rfl, ?_, ?_⟩
  · intro regexpCompile pattern e line lines h
    unfold utils.MatchPattern
    rw [if_neg (by simp), h]
  · intro regexpCompile pattern re lines h
    exact MatchPattern_compiled regexpCompile pattern lines re h

/-! ### C32: parameters of the OVS conntrack dump -/

theorem isDangerousParamChar_classes (c : Char) (h : ovs.isDangerousParamChar c = true) :
    ovs.isLetterChar c = false ∧ ovs.isParamKeyChar c = false ∧
      ovs.isParamValueChar c = false ∧ c ≠ '=' ∧ c ≠ '-' := by
  unfold ovs.isDangerousParamChar at h
  simp only [Bool.or_eq_true, beq_iff_eq] at h
  rcases h with ((((((((h | h) | h) | h) | h) | h) | h) | h) | h) | h <;> subst h <;> decide

theorem validParam_safe (p : String) (h : ovs.validParam p = true) :
    p ≠ "" ∧ p.data.any ovs.isDangerousParamChar = false := by
  unfold ovs.validParam at h
  rw [Bool.or_eq_true] at h
  rcases h with h | h
  · split at h
    · rename_i c hd
      refine ⟨?_, ?_⟩
      · intro hp
        rw [hp] at hd
        cases hd
      · rw [hd]
        have hc : ovs.isDangerousParamChar c = false := by
          by_contra hne
          have ht : ovs.isDangerousParamChar c = true := by simpa using hne
          rw [(isDangerousParamChar_classes c ht).1] at h
          cases h
        simp [hc]
        decide
    · cases h
  · split at h
    · cases h
    · rename_i e value hdrop
      simp only [Bool.and_eq_true, Bool.not_eq_true', List.all_eq_true] at h
      obtain ⟨⟨⟨hk0, hk⟩, hv0⟩, hv⟩ := h
      have hsplit : p.data = p.data.takeWhile (fun c => c != '=') ++ e :: value := by
        rw [← hdrop, List.takeWhile_append_dropWhile]
      have he : e = '=' := by
        have := List.head_dropWhile_not (fun c => c != '=') p.data
          (by rw [hdrop]; simp)
        simp only [hdrop, List.head_cons] at this
        simpa using this
      refine ⟨?_, ?_⟩
      · intro hp
        rw [hp] at hdrop
        cases hdrop
      · rw [Bool.eq_false_iff]
        intro hany
        obtain ⟨c, hc, hd⟩ := List.any_eq_true.mp hany
        obtain ⟨_, hkey, hval, hne, _⟩ := isDangerousParamChar_classes c hd
        rw [hsplit] at hc
        rcases List.mem_append.mp hc with h1 | h1
        · rw [hk c h1] at hkey
          cases hkey
        · rcases List.mem_cons.mp h1 with h2 | h2
          · exact hne (h2.trans he)
          · rw [hv c h2] at hval
            cases hval

/-- C32: `validateConntrackParams(params)` succeeds exactly when every element of `params`
matches `^(-[a-zA-Z]|[a-zA-Z0-9_-]+=[a-zA-Z0-9x.:,/_-]+)$`; the check for the empty string and
the check for dangerous characters reject nothing that the pattern accepts; the empty list is
accepted. -/
theorem validateConntrackParams_iff (params : List String) :
    (ovs.validateConntrackParams params = .ok () ↔ ∀ p ∈ params, ovs.validParam p = true) ∧
    (∀ p : String, ovs.validParam p = true →
      p ≠ "" ∧ p.data.any ovs.isDangerousParamChar = false) ∧
    ovs.validateConntrackParams [] = .ok () := by
  refine ⟨?_, validParam_safe, rfl⟩
  induction params with
  | nil => simp [ovs.validateConntrackParams]
  | cons param rest ih =>
    unfold ovs.validateConntrackParams
    by_cases hv : ovs.validParam param = true
    · obtain ⟨h1, h2⟩ := validParam_safe param hv
      rw [if_neg h1, if_neg (by simp [h2]), if_neg (by simp [hv]), ih]
      constructor
      · intro h p hp
        rcases List.mem_cons.mp hp with rfl | hp
        · exact hv
        · exact h p hp
      · intro h p hp
        exact h p (List.mem_cons_of_mem _ hp)
    · constructor
      · intro h
        exfalso
        split_ifs at h with h1 h2 h3
        exact hv (by simpa using h3)
      · intro h
        exact absurd (h param (List.mem_cons_self _ _)) hv

/-! ### C33, C34: the lock of the omc client -/

theorem appendOutputTypeArgs_ne_use (k : omcclient.OutputTypes) (a b : String)
    (rest : List String) (outputType p : String) (ha : a ≠ "use") :
    omcclient.appendOutputTypeArgs k (a :: b :: rest) outputType ≠ ["use", p] := by
  unfold omcclient.appendOutputTypeArgs
  split_ifs <;> simp [ha]

theorem GetPodLogs_log_cases (h : omcclient.Host) (commandPath p ns name container : String)
    (previous rotated : Bool) (log : List omcclient.Event) :
    ((∃ v ∈ [omcclient.validateKubernetesName h name false,
          omcclient.validateKubernetesName h ns true,
          omcclient.validateKubernetesName h container true], ∃ e, v = .error e) ∧
      (omcclient.GetPodLogs h commandPath p ns name container previous rotated log).err ≠ none ∧
      (omcclient.GetPodLogs h commandPath p ns name container previous rotated log).log = log) ∨
    ((∀ v ∈ [omcclient.validateKubernetesName h name false,
          omcclient.validateKubernetesName h ns true,
          omcclient.validateKubernetesName h container true], v = .ok ()) ∧
      (omcclient.useMustGather h commandPath p (log ++ [.Lock])).1 ≠ none ∧
      (omcclient.GetPodLogs h commandPath p ns name container previous rotated log).err ≠ none ∧
      (omcclient.GetPodLogs h commandPath p ns name container previous rotated log).log =
        (omcclient.useMustGather h commandPath p (log ++ [.Lock])).2 ++ [.Unlock]) ∨
    ((∀ v ∈ [omcclient.validateKubernetesName h name false,
          omcclient.validateKubernetesName h ns true,
          omcclient.validateKubernetesName h container true], v = .ok ()) ∧
      (omcclient.useMustGather h commandPath p (log ++ [.Lock])).1 = none ∧
      ∃ args, args ≠ ["use", p] ∧
        (omcclient.GetPodLogs h commandPath p ns name container previous rotated log).log =
          (omcclient.useMustGather h commandPath p (log ++ [.Lock])).2 ++
            [.Run commandPath args] ++ [.Unlock]) := by
  unfold omcclient.GetPodLogs
  split
  · rename_i e he
    exact Or.inl ⟨⟨_, by simp, e, he⟩, by simp, rfl⟩
  · rename_i he1
    split
    · rename_i e he
      exact Or.inl ⟨⟨_, by simp, e, he⟩, by simp, rfl⟩
    · rename_i he2
      split
      · rename_i e he
        exact Or.inl ⟨⟨_, by simp, e, he⟩, by simp, rfl⟩
      · rename_i he3
        have hall : ∀ v ∈ [omcclient.validateKubernetesName h name false,
            omcclient.validateKubernetesName h ns true,
            omcclient.validateKubernetesName h container true], v = .ok () := by
          intro v hv
          simp only [List.mem_cons, List.mem_singleton, List.not_mem_nil, or_false] at hv
          rcases hv with rfl | rfl | rfl
          · exact he1
          · exact he2
          · exact he3
        simp only []
        split
        · rename_i e log2 heq
          rw [heq]
          exact Or.inr (Or.inl ⟨hall, by simp, by simp, rfl⟩)
        · rename_i log2 heq
          rw [heq]
          refine Or.inr (Or.inr ⟨hall, rfl, ?_⟩)
          split
          · refine ⟨_, ?_, rfl⟩
            split_ifs <;> simp
          · refine ⟨_, ?_, rfl⟩
            split_ifs <;> simp


theorem GetResource_log_cases (h : omcclient.Host) (k : omcclient.OutputTypes)
    (commandPath p kind ns name outputType : String) (log : List omcclient.Event) :
    ((∃ v ∈ [omcclient.validateKubernetesName h kind false,
          omcclient.validateKubernetesName h name false,
          omcclient.validateKubernetesName h ns true], ∃ e, v = .error e) ∧
      (omcclient.GetResource h k commandPath p kind ns name outputType log).err ≠ none ∧
      (omcclient.GetResource h k commandPath p kind ns name outputType log).log = log) ∨
    ((∀ v ∈ [omcclient.validateKubernetesName h kind false,
          omcclient.validateKubernetesName h name false,
          omcclient.validateKubernetesName h ns true], v = .ok ()) ∧
      (omcclient.useMustGather h commandPath p (log ++ [.Lock])).1 ≠ none ∧
      (omcclient.GetResource h k commandPath p kind ns name outputType log).err ≠ none ∧
      (omcclient.GetResource h k commandPath p kind ns name outputType log).log =
        (omcclient.useMustGather h commandPath p (log ++ [.Lock])).2 ++ [.Unlock]) ∨
    ((∀ v ∈ [omcclient.validateKubernetesName h kind false,
          omcclient.validateKubernetesName h name false,
          omcclient.validateKubernetesName h ns true], v = .ok ()) ∧
      (omcclient.useMustGather h commandPath p (log ++ [.Lock])).1 = none ∧
      ∃ args, args ≠ ["use", p] ∧
        (omcclient.GetResource h k commandPath p kind ns name outputType log).log =
          (omcclient.useMustGather h commandPath p (log ++ [.Lock])).2 ++
            [.Run commandPath args] ++ [.Unlock]) := by
  unfold omcclient.GetResource
  split
  · rename_i e he
    exact Or.inl ⟨⟨_, by simp, e, he⟩, by simp, rfl⟩
  · rename_i he1
    split
    · rename_i e he
      exact Or.inl ⟨⟨_, by simp, e, he⟩, by simp, rfl⟩
    · rename_i he2
      split
      · rename_i e he
        exact Or.inl ⟨⟨_, by simp, e, he⟩, by simp, rfl⟩
      · rename_i he3
        have hall : ∀ v ∈ [omcclient.validateKubernetesName h kind false,
            omcclient.validateKubernetesName h name false,
            omcclient.validateKubernetesName h ns true], v = .ok () := by
          intro v hv
          simp only [List.mem_cons, List.mem_singleton, List.not_mem_nil, or_false] at hv
          rcases hv with rfl | rfl | rfl
          · exact he1
          · exact he2
          · exact he3
        simp only []
        split
        · rename_i e log2 heq
          rw [heq]
          exact Or.inr (Or.inl ⟨hall, by simp, by simp, rfl⟩)
        · rename_i log2 heq
          rw [heq]
          refine Or.inr (Or.inr ⟨hall, rfl, ?_⟩)
          have hne : ∀ ns1 : String, omcclient.appendOutputTypeArgs k
              (["get", kind, name] ++ ["-n", ns1]) outputType ≠ ["use", p] := fun ns1 =>
            appendOutputTypeArgs_ne_use k "get" kind ([name] ++ ["-n", ns1]) outputType p
              (by decide)
          split
          · exact ⟨_, hne _, rfl⟩
          · split_ifs <;> exact ⟨_, hne _, rfl⟩

theorem ListResources_log_cases (h : omcclient.Host) (k : omcclient.OutputTypes)
    (commandPath p kind ns labelSelector outputType : String) (log : List omcclient.Event) :
    ((∃ v ∈ [omcclient.validateKubernetesName h kind false,
          omcclient.validateKubernetesName h ns true,
          omcclient.validateLabelSelector labelSelector], ∃ e, v = .error e) ∧
      (omcclient.ListResources h k commandPath p kind ns labelSelector outputType log).err ≠ none ∧
      (omcclient.ListResources h k commandPath p kind ns labelSelector outputType log).log = log) ∨
    ((∀ v ∈ [omcclient.validateKubernetesName h kind false,
          omcclient.validateKubernetesName h ns true,
          omcclient.validateLabelSelector labelSelector], v = .ok ()) ∧
      (omcclient.useMustGather h commandPath p (log ++ [.Lock])).1 ≠ none ∧
      (omcclient.ListResources h k commandPath p kind ns labelSelector outputType log).err ≠ none ∧
      (omcclient.ListResources h k commandPath p kind ns labelSelector outputType log).log =
        (omcclient.useMustGather h commandPath p (log ++ [.Lock])).2 ++ [.Unlock]) ∨
    ((∀ v ∈ [omcclient.validateKubernetesName h kind false,
          omcclient.validateKubernetesName h ns true,
          omcclient.validateLabelSelector labelSelector], v = .ok ()) ∧
      (omcclient.useMustGather h commandPath p (log ++ [.Lock])).1 = none ∧
      ∃ args, args ≠ ["use", p] ∧
        (omcclient.ListResources h k commandPath p kind ns labelSelector outputType log).log =
          (omcclient.useMustGather h commandPath p (log ++ [.Lock])).2 ++
            [.Run commandPath args] ++ [.Unlock]) := by
  have hne : (if ns ≠ "" then
        omcclient.appendOutputTypeArgs k
          (if labelSelector ≠ "" then ["get", kind] ++ ["-l", labelSelector] else ["get", kind])
          outputType ++ ["-n", ns]
      else
        omcclient.appendOutputTypeArgs k
          (if labelSelector ≠ "" then ["get", kind] ++ ["-l", labelSelector] else ["get", kind])
          outputType ++ ["-A"]) ≠ ["use", p] := by
    unfold omcclient.appendOutputTypeArgs
    split_ifs <;> simp
  unfold omcclient.ListResources
  split
  · rename_i e he
    exact Or.inl ⟨⟨_, by simp, e, he⟩, by simp, rfl⟩
  · rename_i he1
    split
    · rename_i e he
      exact Or.inl ⟨⟨_, by simp, e, he⟩, by simp, rfl⟩
    · rename_i he2
      split
      · rename_i e he
        exact Or.inl ⟨⟨_, by simp, e, he⟩, by simp, rfl⟩
      · rename_i he3
        have hall : ∀ v ∈ [omcclient.validateKubernetesName h kind false,
            omcclient.validateKubernetesName h ns true,
            omcclient.validateLabelSelector labelSelector], v = .ok () := by
          intro v hv
          simp only [List.mem_cons, List.mem_singleton, List.not_mem_nil, or_false] at hv
          rcases hv with rfl | rfl | rfl
          · exact he1
          · exact he2
          · exact he3
        simp only []
        split
        · rename_i e log2 heq
          rw [heq]
          exact Or.inr (Or.inl ⟨hall, by simp, by simp, rfl⟩)
        · rename_i log2 heq
          rw [heq]
          refine Or.inr (Or.inr ⟨hall, rfl, ?_⟩)
          generalize (if ns ≠ "" then
              omcclient.appendOutputTypeArgs k
                (if labelSelector ≠ "" then ["get", kind] ++ ["-l", labelSelector]
                  else ["get", kind])
                outputType ++ ["-n", ns]
            else
              omcclient.appendOutputTypeArgs k
                (if labelSelector ≠ "" then ["get", kind] ++ ["-l", labelSelector]
                  else ["get", kind])
                outputType ++ ["-A"]) = args at hne ⊢
          split
          · exact ⟨_, hne, rfl⟩
          · split_ifs <;> exact ⟨_, hne, rfl⟩

theorem GetOvnKInfo_log_cases (h : omcclient.Host) (commandPath p infoType : String) (log : List omcclient.Event) :
    ((∃ v ∈ [(if infoType = "extrainfo" ∨ infoType = "hostnetinfo" ∨ infoType = "subnets" then
          (.ok () : Except String Unit)
          else .error ("invalid info type: " ++ infoType))], ∃ e, v = .error e) ∧
      (omcclient.GetOvnKInfo h commandPath p infoType log).err ≠ none ∧
      (omcclient.GetOvnKInfo h commandPath p infoType log).log = log) ∨
    ((∀ v ∈ [(if infoType = "extrainfo" ∨ infoType = "hostnetinfo" ∨ infoType = "subnets" then
          (.ok () : Except String Unit)
          else .error ("invalid info type: " ++ infoType))], v = .ok ()) ∧
      (omcclient.useMustGather h commandPath p (log ++ [.Lock])).1 ≠ none ∧
      (omcclient.GetOvnKInfo h commandPath p infoType log).err ≠ none ∧
      (omcclient.GetOvnKInfo h commandPath p infoType log).log =
        (omcclient.useMustGather h commandPath p (log ++ [.Lock])).2 ++ [.Unlock]) ∨
    ((∀ v ∈ [(if infoType = "extrainfo" ∨ infoType = "hostnetinfo" ∨ infoType = "subnets" then
          (.ok () : Except String Unit)
          else .error ("invalid info type: " ++ infoType))], v = .ok ()) ∧
      (omcclient.useMustGather h commandPath p (log ++ [.Lock])).1 = none ∧
      ∃ args, args ≠ ["use", p] ∧
        (omcclient.GetOvnKInfo h commandPath p infoType log).log =
          (omcclient.useMustGather h commandPath p (log ++ [.Lock])).2 ++
            [.Run commandPath args] ++ [.Unlock]) := by
  unfold omcclient.GetOvnKInfo
  simp only []
  generalize hc : (if infoType = "extrainfo" then some ["ovnk", "extrainfo"]
    else if infoType = "hostnetinfo" then some ["ovnk", "hostnetinfo"]
    else if infoType = "subnets" then some ["ovnk", "subnets"] else none) = chosen
  cases chosen with
  | none =>
    have hbad : ¬ (infoType = "extrainfo" ∨ infoType = "hostnetinfo" ∨
        infoType = "subnets") := by
      rintro (h1 | h1 | h1) <;> simp [h1] at hc
    exact Or.inl ⟨⟨_, List.mem_singleton.mpr rfl, "invalid info type: " ++ infoType,
      if_neg hbad⟩, by simp, rfl⟩
  | some args =>
    have hgood : infoType = "extrainfo" ∨ infoType = "hostnetinfo" ∨ infoType = "subnets" := by
      by_contra hbad
      simp only [not_or] at hbad
      rw [if_neg hbad.1, if_neg hbad.2.1, if_neg hbad.2.2] at hc
      cases hc
    have hall : ∀ v ∈ [(if infoType = "extrainfo" ∨ infoType = "hostnetinfo" ∨
        infoType = "subnets" then (.ok () : Except String Unit)
        else .error ("invalid info type: " ++ infoType))], v = .ok () := by
      intro v hv
      rw [List.mem_singleton.mp hv, if_pos hgood]
    have hne : args ≠ ["use", p] := by
      split_ifs at hc <;> simp at hc <;> subst hc <;> simp
    simp only [if_pos hgood] at hall ⊢
    split
    · rename_i e log2 heq
      rw [heq]
      exact Or.inr (Or.inl ⟨hall, by simp, by simp, rfl⟩)
    · rename_i log2 heq
      rw [heq]
      refine Or.inr (Or.inr ⟨hall, rfl, ?_⟩)
      split <;> exact ⟨_, hne, rfl⟩

theorem Request_call_log_cases (h : omcclient.Host) (k : omcclient.OutputTypes)
    (commandPath : String) (req : omcclient.Request) (log : List omcclient.Event) :
    ((∃ v ∈ req.validation h, ∃ e, v = .error e) ∧
      (req.call h k commandPath log).err ≠ none ∧ (req.call h k commandPath log).log = log) ∨
    ((∀ v ∈ req.validation h, v = .ok ()) ∧
      (omcclient.useMustGather h commandPath req.mustGatherPath (log ++ [.Lock])).1 ≠ none ∧
      (req.call h k commandPath log).err ≠ none ∧
      (req.call h k commandPath log).log =
        (omcclient.useMustGather h commandPath req.mustGatherPath (log ++ [.Lock])).2 ++
          [.Unlock]) ∨
    ((∀ v ∈ req.validation h, v = .ok ()) ∧
      (omcclient.useMustGather h commandPath req.mustGatherPath (log ++ [.Lock])).1 = none ∧
      ∃ args, args ≠ ["use", req.mustGatherPath] ∧
        (req.call h k commandPath log).log =
          (omcclient.useMustGather h commandPath req.mustGatherPath (log ++ [.Lock])).2 ++
            [.Run commandPath args] ++ [.Unlock]) := by
  cases req with
  | podLogs p ns name container previous rotated =>
    exact GetPodLogs_log_cases h commandPath p ns name container previous rotated log
  | getResource p kind ns name outputType =>
    exact GetResource_log_cases h k commandPath p kind ns name outputType log
  | listResources p kind ns labelSelector outputType =>
    exact ListResources_log_cases h k commandPath p kind ns labelSelector outputType log
  | ovnkInfo p infoType => exact GetOvnKInfo_log_cases h commandPath p infoType log

theorem useMustGather_log (h : omcclient.Host) (commandPath p : String)
    (log : List omcclient.Event) :
    ((mustgatherUtils.ValidateMustGatherPath h.stat p).1 ≠ none →
      (omcclient.useMustGather h commandPath p log).1 ≠ none ∧
      (omcclient.useMustGather h commandPath p log).2 =
        log ++ (mustgatherUtils.ValidateMustGatherPath h.stat p).2.map omcclient.Event.Stat) ∧
    ((mustgatherUtils.ValidateMustGatherPath h.stat p).1 = none →
      (omcclient.useMustGather h commandPath p log).2 =
        log ++ (mustgatherUtils.ValidateMustGatherPath h.stat p).2.map omcclient.Event.Stat ++
          [.Run commandPath ["use", p]] ∧
      ((omcclient.useMustGather h commandPath p log).1 = none ↔
        (h.combinedOutput
          (log ++ (mustgatherUtils.ValidateMustGatherPath h.stat p).2.map omcclient.Event.Stat)
          commandPath ["use", p]).2 = none)) := by
  unfold omcclient.useMustGather
  cases hv : mustgatherUtils.ValidateMustGatherPath h.stat p with
  | mk e paths =>
    cases e with
    | some e => simp
    | none =>
      simp only []
      refine ⟨fun hne => absurd rfl hne, fun _ => ?_⟩
      split <;> simp_all

theorem useMustGather_extra (h : omcclient.Host) (commandPath p : String)
    (log : List omcclient.Event) :
    ∃ extra, (omcclient.useMustGather h commandPath p log).2 = log ++ extra ∧
      ∀ e ∈ extra, e ≠ omcclient.Event.Lock ∧ e ≠ omcclient.Event.Unlock := by
  have hl := useMustGather_log h commandPath p log
  by_cases hv : (mustgatherUtils.ValidateMustGatherPath h.stat p).1 = none
  · refine ⟨_, by rw [(hl.2 hv).1, List.append_assoc], ?_⟩
    intro e he
    rcases List.mem_append.mp he with h1 | h1
    · obtain ⟨q, _, rfl⟩ := List.mem_map.mp h1
      exact ⟨by simp, by simp⟩
    · rw [List.mem_singleton.mp h1]
      exact ⟨by simp, by simp⟩
  · refine ⟨_, (hl.1 hv).2, ?_⟩
    intro e he
    obtain ⟨q, _, rfl⟩ := List.mem_map.mp he
    exact ⟨by simp, by simp⟩

theorem Request_call_script (h : omcclient.Host) (k : omcclient.OutputTypes)
    (commandPath : String) (req : omcclient.Request) :
    (req.call h k commandPath []).log = [] ∨
    ∃ body, (req.call h k commandPath []).log = .Lock :: body ++ [.Unlock] ∧
      ∀ e ∈ body, e ≠ omcclient.Event.Lock ∧ e ≠ omcclient.Event.Unlock := by
  obtain ⟨extra, hex, hfree⟩ := useMustGather_extra h commandPath req.mustGatherPath
    ([] ++ [.Lock])
  rcases Request_call_log_cases h k commandPath req [] with ⟨_, _, h1⟩ | ⟨_, _, _, h1⟩ |
      ⟨_, _, args, _, h1⟩
  · exact Or.inl h1
  · right
    refine ⟨extra, ?_, hfree⟩
    rw [h1, hex]
    simp
  · right
    refine ⟨extra ++ [.Run commandPath args], ?_, ?_⟩
    · rw [h1, hex]
      simp
    · intro e he
      rcases List.mem_append.mp he with h2 | h2
      · exact hfree e h2
      · rw [List.mem_singleton.mp h2]
        exact ⟨by simp, by simp⟩


theorem Sched_run_solo_second (schedule : List Bool) :
    ∀ (locked : Bool) (rest : List omcclient.Event) (trace : List (Bool × omcclient.Event))
      (st : omcclient.Sched),
      omcclient.Sched.run schedule ⟨locked, [], rest, trace⟩ = some st →
      st.restFirst = [] → st.restSecond = [] →
      st.trace = trace ++ rest.map (fun e => (true, e)) := by
  induction schedule with
  | nil =>
    intro locked rest trace st hrun _ h2
    simp only [omcclient.Sched.run, Option.some.injEq] at hrun
    subst hrun
    simp only at h2
    subst h2
    simp
  | cons t ts ih =>
    intro locked rest trace st hrun h1 h2
    cases t with
    | false => simp [omcclient.Sched.run, omcclient.Sched.step] at hrun
    | true =>
      cases rest with
      | nil => simp [omcclient.Sched.run, omcclient.Sched.step] at hrun
      | cons e es =>
        have key : ∀ l2, omcclient.Sched.run ts ⟨l2, [], es, trace ++ [(true, e)]⟩ = some st →
            st.trace = trace ++ (e :: es).map (fun e => (true, e)) := by
          intro l2 hr
          rw [ih l2 es _ st hr h1 h2]
          simp
        cases e <;> cases locked <;>
          simp [omcclient.Sched.run, omcclient.Sched.step] at hrun <;> exact key _ hrun

theorem Sched_run_solo_first (schedule : List Bool) :
    ∀ (locked : Bool) (rest : List omcclient.Event) (trace : List (Bool × omcclient.Event))
      (st : omcclient.Sched),
      omcclient.Sched.run schedule ⟨locked, rest, [], trace⟩ = some st →
      st.restFirst = [] → st.restSecond = [] →
      st.trace = trace ++ rest.map (fun e => (false, e)) := by
  induction schedule with
  | nil =>
    intro locked rest trace st hrun h1 _
    simp only [omcclient.Sched.run, Option.some.injEq] at hrun
    subst hrun
    simp only at h1
    subst h1
    simp
  | cons t ts ih =>
    intro locked rest trace st hrun h1 h2
    cases t with
    | true => simp [omcclient.Sched.run, omcclient.Sched.step] at hrun
    | false =>
      cases rest with
      | nil => simp [omcclient.Sched.run, omcclient.Sched.step] at hrun
      | cons e es =>
        have key : ∀ l2, omcclient.Sched.run ts ⟨l2, es, [], trace ++ [(false, e)]⟩ = some st →
            st.trace = trace ++ (e :: es).map (fun e => (false, e)) := by
          intro l2 hr
          rw [ih l2 es _ st hr h1 h2]
          simp
        cases e <;> cases locked <;>
          simp [omcclient.Sched.run, omcclient.Sched.step] at hrun <;> exact key _ hrun


theorem Sched_run_inside_first (schedule : List Bool) :
    ∀ (body rest2 : List omcclient.Event) (trace : List (Bool × omcclient.Event))
      (st : omcclient.Sched),
      (∀ e ∈ body, e ≠ omcclient.Event.Lock ∧ e ≠ omcclient.Event.Unlock) →
      omcclient.Sched.run schedule ⟨true, body ++ [.Unlock], .Lock :: rest2, trace⟩ = some st →
      st.restFirst = [] → st.restSecond = [] →
      st.trace = trace ++ (body ++ [omcclient.Event.Unlock]).map (fun e => (false, e)) ++
        (omcclient.Event.Lock :: rest2).map (fun e => (true, e)) := by
  induction schedule with
  | nil =>
    intro body rest2 trace st _ hrun h1 _
    simp only [omcclient.Sched.run, Option.some.injEq] at hrun
    subst hrun
    simp at h1
  | cons t ts ih =>
    intro body rest2 trace st hfree hrun h1 h2
    cases t with
    | true => simp [omcclient.Sched.run, omcclient.Sched.step] at hrun
    | false =>
      cases body with
      | nil =>
        simp [omcclient.Sched.run, omcclient.Sched.step] at hrun
        rw [Sched_run_solo_second ts false _ _ st hrun h1 h2]
        simp
      | cons e es =>
        have hes : ∀ x ∈ es, x ≠ omcclient.Event.Lock ∧ x ≠ omcclient.Event.Unlock :=
          fun x hx => hfree x (List.mem_cons_of_mem _ hx)
        have he := hfree e (List.mem_cons_self _ _)
        have hstep : omcclient.Sched.run ts
            ⟨true, es ++ [.Unlock], .Lock :: rest2, trace ++ [(false, e)]⟩ = some st := by
          cases e with
          | Lock => exact absurd rfl he.1
          | Unlock => exact absurd rfl he.2
          | Stat q => simpa [omcclient.Sched.run, omcclient.Sched.step] using hrun
          | Run c a => simpa [omcclient.Sched.run, omcclient.Sched.step] using hrun
        rw [ih es rest2 _ st hes hstep h1 h2]
        simp

theorem Sched_run_inside_second (schedule : List Bool) :
    ∀ (body rest1 : List omcclient.Event) (trace : List (Bool × omcclient.Event))
      (st : omcclient.Sched),
      (∀ e ∈ body, e ≠ omcclient.Event.Lock ∧ e ≠ omcclient.Event.Unlock) →
      omcclient.Sched.run schedule ⟨true, .Lock :: rest1, body ++ [.Unlock], trace⟩ = some st →
      st.restFirst = [] → st.restSecond = [] →
      st.trace = trace ++ (body ++ [omcclient.Event.Unlock]).map (fun e => (true, e)) ++
        (omcclient.Event.Lock :: rest1).map (fun e => (false, e)) := by
  induction schedule with
  | nil =>
    intro body rest1 trace st _ hrun _ h2
    simp only [omcclient.Sched.run, Option.some.injEq] at hrun
    subst hrun
    simp at h2
  | cons t ts ih =>
    intro body rest1 trace st hfree hrun h1 h2
    cases t with
    | false => simp [omcclient.Sched.run, omcclient.Sched.step] at hrun
    | true =>
      cases body with
      | nil =>
        simp [omcclient.Sched.run, omcclient.Sched.step] at hrun
        rw [Sched_run_solo_first ts false _ _ st hrun h1 h2]
        simp
      | cons e es =>
        have hes : ∀ x ∈ es, x ≠ omcclient.Event.Lock ∧ x ≠ omcclient.Event.Unlock :=
          fun x hx => hfree x (List.mem_cons_of_mem _ hx)
        have he := hfree e (List.mem_cons_self _ _)
        have hstep : omcclient.Sched.run ts
            ⟨true, .Lock :: rest1, es ++ [.Unlock], trace ++ [(true, e)]⟩ = some st := by
          cases e with
          | Lock => exact absurd rfl he.1
          | Unlock => exact absurd rfl he.2
          | Stat q => simpa [omcclient.Sched.run, omcclient.Sched.step] using hrun
          | Run c a => simpa [omcclient.Sched.run, omcclient.Sched.step] using hrun
        rw [ih es rest1 _ st hes hstep h1 h2]
        simp

theorem Sched_run_serial (s1 s2 : List omcclient.Event)
    (h1 : s1 = [] ∨ ∃ body, s1 = .Lock :: body ++ [.Unlock] ∧
      ∀ e ∈ body, e ≠ omcclient.Event.Lock ∧ e ≠ omcclient.Event.Unlock)
    (h2 : s2 = [] ∨ ∃ body, s2 = .Lock :: body ++ [.Unlock] ∧
      ∀ e ∈ body, e ≠ omcclient.Event.Lock ∧ e ≠ omcclient.Event.Unlock)
    (schedule : List Bool) (st : omcclient.Sched)
    (hrun : omcclient.Sched.run schedule ⟨false, s1, s2, []⟩ = some st)
    (hd1 : st.restFirst = []) (hd2 : st.restSecond = []) :
    st.trace = s1.map (fun e => (false, e)) ++ s2.map (fun e => (true, e)) ∨
    st.trace = s2.map (fun e => (true, e)) ++ s1.map (fun e => (false, e)) := by
  rcases h1 with rfl | ⟨b1, rfl, hb1⟩
  · left
    rw [Sched_run_solo_second schedule false s2 [] st hrun hd1 hd2]
    simp
  · rcases h2 with rfl | ⟨b2, rfl, hb2⟩
    · left
      rw [Sched_run_solo_first schedule false _ [] st hrun hd1 hd2]
      simp
    · cases schedule with
      | nil =>
        simp only [omcclient.Sched.run, Option.some.injEq] at hrun
        subst hrun
        simp at hd1
      | cons t ts =>
        cases t with
        | false =>
          left
          simp [omcclient.Sched.run, omcclient.Sched.step] at hrun
          have := Sched_run_inside_first ts b1 (b2 ++ [.Unlock]) _ st hb1 hrun hd1 hd2
          rw [this]
          simp
        | true =>
          right
          simp [omcclient.Sched.run, omcclient.Sched.step] at hrun
          have := Sched_run_inside_second ts b2 (b1 ++ [.Unlock]) _ st hb2 hrun hd1 hd2
          rw [this]
          simp

/-- C33: two requests on one omc client never interleave.  Each of `GetPodLogs`,
`GetResource`, `ListResources` and `GetOvnKInfo` either makes no step at all (an argument was
rejected) or takes the lock, makes its filesystem checks, its `omc use` call and its read
call, and releases the lock as its last step.  Under the rule of `sync.Mutex` (a `Lock`
waits while the mutex is locked) every schedule that lets both requests finish runs one
request from its first step to its last and then the other: the `omc use` of the second
comes after the read and the unlock of the first.  The answers that the two requests get from
the filesystem and from `omc` are arbitrary. -/
theorem omc_requests_never_interleave (h1 h2 : omcclient.Host) (k : omcclient.OutputTypes)
    (commandPath : String) (req1 req2 : omcclient.Request) (schedule : List Bool)
    (st : omcclient.Sched)
    (hrun : omcclient.Sched.run schedule
      ⟨false, (req1.call h1 k commandPath []).log, (req2.call h2 k commandPath []).log, []⟩ =
        some st)
    (hd1 : st.restFirst = []) (hd2 : st.restSecond = []) :
    (st.trace = (req1.call h1 k commandPath []).log.map (fun e => (false, e)) ++
        (req2.call h2 k commandPath []).log.map (fun e => (true, e)) ∨
      st.trace = (req2.call h2 k commandPath []).log.map (fun e => (true, e)) ++
        (req1.call h1 k commandPath []).log.map (fun e => (false, e))) ∧
    ((req1.call h1 k commandPath []).log = [] ∨
      ∃ body, (req1.call h1 k commandPath []).log =
          omcclient.Event.Lock :: body ++ [omcclient.Event.Unlock] ∧
        ∀ e ∈ body, e ≠ omcclient.Event.Lock ∧ e ≠ omcclient.Event.Unlock) ∧
    ((req2.call h2 k commandPath []).log = [] ∨
      ∃ body, (req2.call h2 k commandPath []).log =
          omcclient.Event.Lock :: body ++ [omcclient.Event.Unlock] ∧
        ∀ e ∈ body, e ≠ omcclient.Event.Lock ∧ e ≠ omcclient.Event.Unlock) :=
  ⟨Sched_run_serial _ _ (Request_call_script h1 k commandPath req1)
      (Request_call_script h2 k commandPath req2) schedule st hrun hd1 hd2,
    Request_call_script h1 k commandPath req1, Request_call_script h2 k commandPath req2⟩

/-- Witness for C33: a pod-logs request and an ovnk-info request whose schedule lets the
second request take the lock first; the first then runs after the second has unlocked. -/
theorem omc_requests_never_interleave_witness :
    ((omcclient.Sched.mk false [] []
        ([omcclient.Event.Lock, .Stat "/mg2", .Stat "/mg2/must-gather.log",
            .Run "omc" ["use", "/mg2"], .Run "omc" ["ovnk", "subnets"], .Unlock].map
              (fun e => (true, e)) ++
          [omcclient.Event.Lock, .Stat "/mg", .Stat "/mg/must-gather.log",
            .Run "omc" ["use", "/mg"], .Run "omc" ["logs", "web-0"], .Unlock].map
              (fun e => (false, e)))).trace =
        ((omcclient.Request.podLogs "/mg" "" "web-0" "" false false).call
          ⟨fun s => s, fun _ => .found, fun _ _ _ => ("", none)⟩ ⟨"json", "yaml", "wide"⟩
          "omc" []).log.map (fun e => (false, e)) ++
        ((omcclient.Request.ovnkInfo "/mg2" "subnets").call
          ⟨fun s => s, fun _ => .found, fun _ _ _ => ("", none)⟩ ⟨"json", "yaml", "wide"⟩
          "omc" []).log.map (fun e => (true, e)) ∨
      (omcclient.Sched.mk false [] []
        ([omcclient.Event.Lock, .Stat "/mg2", .Stat "/mg2/must-gather.log",
            .Run "omc" ["use", "/mg2"], .Run "omc" ["ovnk", "subnets"], .Unlock].map
              (fun e => (true, e)) ++
          [omcclient.Event.Lock, .Stat "/mg", .Stat "/mg/must-gather.log",
            .Run "omc" ["use", "/mg"], .Run "omc" ["logs", "web-0"], .Unlock].map
              (fun e => (false, e)))).trace =
        ((omcclient.Request.ovnkInfo "/mg2" "subnets").call
          ⟨fun s => s, fun _ => .found, fun _ _ _ => ("", none)⟩ ⟨"json", "yaml", "wide"⟩
          "omc" []).log.map (fun e => (true, e)) ++
        ((omcclient.Request.podLogs "/mg" "" "web-0" "" false false).call
          ⟨fun s => s, fun _ => .found, fun _ _ _ => ("", none)⟩ ⟨"json", "yaml", "wide"⟩
          "omc" []).log.map (fun e => (false, e))) :=
  (omc_requests_never_interleave
    ⟨fun s => s, fun _ => .found, fun _ _ _ => ("", none)⟩
    ⟨fun s => s, fun _ => .found, fun _ _ _ => ("", none)⟩ ⟨"json", "yaml", "wide"⟩ "omc"
    (omcclient.Request.podLogs "/mg" "" "web-0" "" false false)
    (omcclient.Request.ovnkInfo "/mg2" "subnets")
    [true, true, true, true, true, true, false, false, false, false, false, false]
    _ (by decide) rfl rfl).1

/-- C34: in each of the four operations of the omc client the read command is issued only
after `useMustGather` has succeeded in the same call.  When an argument check fails the
operation returns an error and makes no step at all; when the must-gather path is rejected
it returns an error having only taken the lock and looked at the filesystem; when `omc use`
fails it returns an error and `omc use` is the only command run; otherwise the steps are the
lock, the filesystem checks, `omc use`, one read command, and the unlock. -/
theorem omc_read_only_after_use (h : omcclient.Host) (k : omcclient.OutputTypes)
    (commandPath : String) (req : omcclient.Request) (log : List omcclient.Event) :
    ((∃ v ∈ req.validation h, ∃ e, v = .error e) →
      (req.call h k commandPath log).err ≠ none ∧ (req.call h k commandPath log).log = log) ∧
    ((∀ v ∈ req.validation h, v = .ok ()) →
      (mustgatherUtils.ValidateMustGatherPath h.stat req.mustGatherPath).1 ≠ none →
      (req.call h k commandPath log).err ≠ none ∧
      (req.call h k commandPath log).log =
        log ++ [.Lock] ++
          (mustgatherUtils.ValidateMustGatherPath h.stat req.mustGatherPath).2.map
            omcclient.Event.Stat ++ [.Unlock]) ∧
    ((∀ v ∈ req.validation h, v = .ok ()) →
      (mustgatherUtils.ValidateMustGatherPath h.stat req.mustGatherPath).1 = none →
      (h.combinedOutput
        (log ++ [.Lock] ++
          (mustgatherUtils.ValidateMustGatherPath h.stat req.mustGatherPath).2.map
            omcclient.Event.Stat) commandPath ["use", req.mustGatherPath]).2 ≠ none →
      (req.call h k commandPath log).err ≠ none ∧
      (req.call h k commandPath log).log =
        log ++ [.Lock] ++
          (mustgatherUtils.ValidateMustGatherPath h.stat req.mustGatherPath).2.map
            omcclient.Event.Stat ++
          [.Run commandPath ["use", req.mustGatherPath]] ++ [.Unlock]) ∧
    ((∀ v ∈ req.validation h, v = .ok ()) →
      (mustgatherUtils.ValidateMustGatherPath h.stat req.mustGatherPath).1 = none →
      (h.combinedOutput
        (log ++ [.Lock] ++
          (mustgatherUtils.ValidateMustGatherPath h.stat req.mustGatherPath).2.map
            omcclient.Event.Stat) commandPath ["use", req.mustGatherPath]).2 = none →
      ∃ args, args ≠ ["use", req.mustGatherPath] ∧
        (req.call h k commandPath log).log =
          log ++ [.Lock] ++
            (mustgatherUtils.ValidateMustGatherPath h.stat req.mustGatherPath).2.map
              omcclient.Event.Stat ++
            [.Run commandPath ["use", req.mustGatherPath]] ++ [.Run commandPath args] ++
            [.Unlock]) := by
  have hum := useMustGather_log h commandPath req.mustGatherPath (log ++ [.Lock])
  have hcases := Request_call_log_cases h k commandPath req log
  have hexcl : (∃ v ∈ req.validation h, ∃ e, v = .error e) →
      (∀ v ∈ req.validation h, v = .ok ()) → False := by
    rintro ⟨v, hv, e, he⟩ hall
    have := hall v hv
    rw [he] at this
    cases this
  refine ⟨?_, ?_, ?_, ?_⟩
  · intro hbad
    rcases hcases with ⟨_, h1, h2⟩ | ⟨hall, _⟩ | ⟨hall, _⟩
    · exact ⟨h1, h2⟩
    · exact absurd hall (fun hall => hexcl hbad hall)
    · exact absurd hall (fun hall => hexcl hbad hall)
  · intro hall hv
    obtain ⟨hfail, hlog⟩ := hum.1 hv
    rcases hcases with ⟨hbad, _⟩ | ⟨_, _, h1, h2⟩ | ⟨_, hok, _⟩
    · exact absurd hall (fun hall => hexcl hbad hall)
    · exact ⟨h1, by rw [h2, hlog]⟩
    · exact absurd hok hfail
  · intro hall hv huse
    obtain ⟨hlog, hiff⟩ := hum.2 hv
    rcases hcases with ⟨hbad, _⟩ | ⟨_, _, h1, h2⟩ | ⟨_, hok, _⟩
    · exact absurd hall (fun hall => hexcl hbad hall)
    · exact ⟨h1, by rw [h2, hlog]⟩
    · exact absurd (hiff.mp hok) huse
  · intro hall hv huse
    obtain ⟨hlog, hiff⟩ := hum.2 hv
    rcases hcases with ⟨hbad, _⟩ | ⟨_, hfail, _⟩ | ⟨_, _, args, hne, h2⟩
    · exact absurd hall (fun hall => hexcl hbad hall)
    · exact absurd (hiff.mpr huse) hfail
    · exact ⟨args, hne, by rw [h2, hlog]⟩

/-- Witness for C34: a pod name that starts with a hyphen stops the request before any step,
and a failing `omc use` is followed by the unlock alone. -/
theorem omc_read_only_after_use_witness :
    ((omcclient.Request.podLogs "/mg" "" "-web" "" false false).call
        ⟨fun s => s, fun _ => .found, fun _ _ _ => ("", none)⟩ ⟨"json", "yaml", "wide"⟩
        "omc" []).log = [] ∧
    ((omcclient.Request.ovnkInfo "/mg" "subnets").call
        ⟨fun s => s, fun _ => .found, fun _ _ _ => ("no such archive", some "exit status 1")⟩
        ⟨"json", "yaml", "wide"⟩ "omc" []).log =
      [omcclient.Event.Lock, .Stat "/mg", .Stat "/mg/must-gather.log",
        .Run "omc" ["use", "/mg"], .Unlock] :=
  ⟨((omc_read_only_after_use ⟨fun s => s, fun _ => .found, fun _ _ _ => ("", none)⟩
      ⟨"json", "yaml", "wide"⟩ "omc" (omcclient.Request.podLogs "/mg" "" "-web" "" false false)
      []).1 ⟨_, List.mem_cons_self _ _, _, rfl⟩).2,
    ((omc_read_only_after_use
      ⟨fun s => s, fun _ => .found, fun _ _ _ => ("no such archive", some "exit status 1")⟩
      ⟨"json", "yaml", "wide"⟩ "omc" (omcclient.Request.ovnkInfo "/mg" "subnets")
      []).2.2.1 (by decide) (by decide) (by decide)).2⟩

/-! ### C35: the truncation notice of `readWithLimit` -/

theorem readLoop_cons (pattern : Option (String → Bool)) (m : String → Bool)
    (hm : (pattern = none ∧ m = fun _ => true) ∨ (pattern = some m)) (maxLines : Int)
    (line : String) (rest : List String) (acc : String) (c : Int) :
    sosreport.readLoop pattern maxLines (line :: rest) acc c =
      if m line = true then
        (if maxLines > 0 ∧ c + 1 ≥ maxLines then
          (acc ++ line ++ "\n" ++
            ("\n... (output truncated at " ++ strconvItoa maxLines ++ " lines)\n"), true)
        else sosreport.readLoop pattern maxLines rest (acc ++ line ++ "\n") (c + 1))
      else
        (if maxLines > 0 ∧ c ≥ maxLines then
          (acc ++ ("\n... (output truncated at " ++ strconvItoa maxLines ++ " lines)\n"), true)
        else sosreport.readLoop pattern maxLines rest acc c) := by
  rcases hm with ⟨rfl, rfl⟩ | rfl
  · rw [sosreport.readLoop]
    simp
  · rw [sosreport.readLoop]
    by_cases hml : m line = true
    · simp [hml]
    · have hf : m line = false := by simpa using hml
      simp [hf]

theorem readLoop_eq (pattern : Option (String → Bool)) (m : String → Bool)
    (hm : (pattern = none ∧ m = fun _ => true) ∨ (pattern = some m)) (maxLines : Int)
    (hpos : 0 < maxLines) :
    ∀ (lines : List String) (acc : String) (c : Int), 0 ≤ c → c < maxLines →
      sosreport.readLoop pattern maxLines lines acc c =
        if maxLines - c ≤ ((lines.filter m).length : Int) then
          (acc ++ (((lines.filter m).take (maxLines - c).toNat).map
                (fun l => l ++ "\n")).foldr (fun a b => a ++ b) "" ++
            ("\n... (output truncated at " ++ strconvItoa maxLines ++ " lines)\n"), true)
        else
          (acc ++ ((lines.filter m).map (fun l => l ++ "\n")).foldr (fun a b => a ++ b) "",
            false) := by
  intro lines
  induction lines with
  | nil =>
    intro acc c _ hc
    have hneg : ¬ (maxLines - c ≤ 0) := by omega
    simp [sosreport.readLoop, hneg]
  | cons line rest ih =>
    intro acc c hc0 hc
    rw [readLoop_cons pattern m hm]
    by_cases hml : m line = true
    · have hfilter : (line :: rest).filter m = line :: rest.filter m :=
        List.filter_cons_of_pos hml
      rw [hfilter, if_pos hml]
      by_cases hfull : c + 1 ≥ maxLines
      · have h1 : maxLines - c = 1 := by omega
        rw [if_pos ⟨hpos, hfull⟩, h1]
        have h2 : (1 : Int) ≤ ((line :: rest.filter m).length : Int) := by
          simp only [List.length_cons, Nat.cast_add, Nat.cast_one]
          omega
        rw [if_pos h2]
        simp [String.append_assoc]
      · have hnot : ¬ (maxLines > 0 ∧ c + 1 ≥ maxLines) := fun h => hfull h.2
        rw [if_neg hnot, ih _ (c + 1) (by omega) (by omega)]
        have htn : (maxLines - c).toNat = (maxLines - (c + 1)).toNat + 1 := by omega
        by_cases hlen : maxLines - (c + 1) ≤ ((rest.filter m).length : Int)
        · have hlen2 : maxLines - c ≤ ((line :: rest.filter m).length : Int) := by
            simp only [List.length_cons, Nat.cast_add, Nat.cast_one]
            omega
          rw [if_pos hlen, if_pos hlen2, htn]
          simp [String.append_assoc]
        · have hlen2 : ¬ (maxLines - c ≤ ((line :: rest.filter m).length : Int)) := by
            simp only [List.length_cons, Nat.cast_add, Nat.cast_one]
            omega
          rw [if_neg hlen, if_neg hlen2]
          simp [String.append_assoc]
    · have hfilter : (line :: rest).filter m = rest.filter m := List.filter_cons_of_neg hml
      rw [hfilter, if_neg hml]
      have hnot : ¬ (maxLines > 0 ∧ c ≥ maxLines) := fun h => by omega
      rw [if_neg hnot]
      exact ih acc c hc0 hc

/-- C35 fails on the code: `readWithLimit` writes its notice as soon as the count of lines
written reaches `maxLines`, before it knows whether another matching line follows.  A file of
exactly two lines read with `maxLines = 2` comes back with the notice
`... (output truncated at 2 lines)` although nothing was left out.  In general, for
`maxLines > 0` the notice is written exactly when the file has at least `maxLines` matching
lines (not: more than `maxLines`), after the first `maxLines` of them; with fewer matching
lines, and no read error, all of them are returned without a notice. -/
theorem readWithLimit_notice_at_exact_limit :
    sosreport.readWithLimit ⟨["a", "b"], none⟩ none 2 =
      .ok "a\nb\n\n... (output truncated at 2 lines)\n" ∧
    sosreport.readWithLimit ⟨["a", "b"], none⟩ none 3 = .ok "a\nb\n" ∧
    (∀ (reader : sosreport.Scanned) (pattern : Option (String → Bool)) (m : String → Bool)
        (maxLines : Int),
      ((pattern = none ∧ m = fun _ => true) ∨ pattern = some m) → 0 < maxLines →
      (maxLines ≤ ((reader.lines.filter m).length : Int) →
        sosreport.readWithLimit reader pattern maxLines =
          .ok ((((reader.lines.filter m).take maxLines.toNat).map
              (fun l => l ++ "\n")).foldr (fun a b => a ++ b) "" ++
            ("\n... (output truncated at " ++ strconvItoa maxLines ++ " lines)\n"))) ∧
      (((reader.lines.filter m).length : Int) < maxLines → reader.err = none →
        sosreport.readWithLimit reader pattern maxLines =
          .ok (((reader.lines.filter m).map (fun l => l ++ "\n")).foldr
            (fun a b => a ++ b) ""))) := by
  refine ⟨by decide, by decide, ?_⟩
  intro reader pattern m maxLines hm hpos
  have hloop := readLoop_eq pattern m hm maxLines hpos reader.lines "" 0 (le_refl 0) hpos
  simp only [sub_zero, String.empty_append] at hloop
  constructor
  · intro hge
    unfold sosreport.readWithLimit
    simp only [hloop, if_pos hge, if_true]
  · intro hlt hnone
    have hnot : ¬ (maxLines ≤ ((reader.lines.filter m).length : Int)) := by omega
    unfold sosreport.readWithLimit
    simp only [hloop, if_neg hnot, hnone, Bool.false_eq_true, if_false]

/-! ### C36: the line budget of `searchPodLogs` -/

theorem splitChars_length (sep : Char) (cs : List Char) :
    (splitChars sep cs).length = cs.count sep + 1 := by
  induction cs with
  | nil => rfl
  | cons c cs ih =>
    by_cases hc : c = sep
    · subst hc
      simp [splitChars, ih]
    · simp only [splitChars, if_neg hc]
      have hcount : (c :: cs).count sep = cs.count sep := by
        rw [List.count_cons]
        simp [hc]
      cases hs : splitChars sep cs with
      | nil => exact absurd hs (splitChars_ne_nil sep cs)
      | cons l ls =>
        rw [hs] at ih
        simp only [List.length_cons] at ih ⊢
        omega

theorem render_count_newline (ls : List String) :
    ls.length ≤ ((ls.map (fun l => l ++ "\n")).foldr (fun a b => a ++ b) "").data.count '\n' := by
  induction ls with
  | nil => simp
  | cons l ls ih =>
    simp only [List.map_cons, List.foldr_cons, String.data_append, List.count_append,
      List.length_cons]
    have h1 : List.count '\n' ['\n'] = 1 := by decide
    omega

theorem render_eq_empty (ls : List String)
    (h : (ls.map (fun l => l ++ "\n")).foldr (fun a b => a ++ b) "" = "") : ls = [] := by
  have h1 := render_count_newline ls
  rw [h] at h1
  have h2 : ("" : String).data.count '\n' = 0 := by decide
  rw [h2] at h1
  exact List.eq_nil_of_length_eq_zero (by omega)

theorem searchInFile_found (h : sosreport.Host) (lib : sosreport.Lib) (re : String → Bool)
    (p : String) (b : Int) (found : String) (hb : 1 ≤ b)
    (hf : sosreport.searchInFile h lib p (some re) b = .ok found) :
    found = ((sosreport.searchedLines h lib re p b).map (fun l => l ++ "\n")).foldr
        (fun a b => a ++ b) "" ∨
    found = ((sosreport.searchedLines h lib re p b).map (fun l => l ++ "\n")).foldr
        (fun a b => a ++ b) "" ++
      ("\n... (output truncated at " ++ strconvItoa b ++ " lines)\n") := by
  unfold sosreport.searchInFile at hf
  unfold sosreport.searchedLines
  cases hr : sosreport.searchReader h lib p with
  | error e =>
    rw [hr] at hf
    cases hf
  | ok reader =>
    rw [hr] at hf
    simp only [] at hf ⊢
    have hloop := readLoop_eq (some re) re (Or.inr rfl) b (by omega) reader.lines "" 0
      (le_refl 0) (by omega)
    simp only [sub_zero, String.empty_append] at hloop
    unfold sosreport.readWithLimit at hf
    rw [hloop] at hf
    by_cases hge : b ≤ ((reader.lines.filter re).length : Int)
    · rw [if_pos hge] at hf
      simp only [if_true, Except.ok.injEq] at hf
      exact Or.inr hf.symm
    · rw [if_neg hge] at hf
      simp only [Bool.false_eq_true, if_false] at hf
      have htake : (reader.lines.filter re).take b.toNat = reader.lines.filter re := by
        apply List.take_of_length_le
        omega
      rw [htake]
      cases he : reader.err with
      | some e =>
        rw [he] at hf
        cases hf
      | none =>
        rw [he] at hf
        simp only [Except.ok.injEq] at hf
        exact Or.inl hf.symm

theorem searchedLines_length_le (h : sosreport.Host) (lib : sosreport.Lib)
    (re : String → Bool) (p : String) (b : Int) (hb : 0 ≤ b) :
    ((sosreport.searchedLines h lib re p b).length : Int) ≤ b := by
  unfold sosreport.searchedLines
  cases sosreport.searchReader h lib p with
  | error e => simpa using hb
  | ok reader =>
    simp only [List.length_take]
    have := Nat.min_le_left b.toNat (reader.lines.filter re).length
    omega

theorem searchInFile_split_length (h : sosreport.Host) (lib : sosreport.Lib)
    (re : String → Bool) (p : String) (b : Int) (found : String) (hb : 1 ≤ b)
    (hf : sosreport.searchInFile h lib p (some re) b = .ok found) :
    (sosreport.searchedLines h lib re p b).length < (stringsSplit found '\n').length ∧
    (found.utf8ByteSize = 0 → sosreport.searchedLines h lib re p b = []) := by
  have hcount := render_count_newline (sosreport.searchedLines h lib re p b)
  have hlen : (stringsSplit found '\n').length = found.data.count '\n' + 1 := by
    unfold stringsSplit
    rw [List.length_map, splitChars_length]
  constructor
  · rw [hlen]
    rcases searchInFile_found h lib re p b found hb hf with hfound | hfound
    · rw [hfound]
      omega
    · rw [hfound, String.data_append, List.count_append]
      omega
  · intro hz
    have hempty : found = "" := by
      have hd : found.data = [] := by
        by_contra hne
        have hpos := utf8ByteSize_ge_length found
        have hl : 0 < found.data.length := List.length_pos.mpr hne
        have hlen2 : found.length = found.data.length := rfl
        omega
      exact String.ext hd
    rcases searchInFile_found h lib re p b found hb hf with hfound | hfound
    · rw [hempty] at hfound
      exact render_eq_empty _ hfound.symm
    · exfalso
      rw [hempty] at hfound
      have hd := congrArg String.data hfound
      simp [String.data_append] at hd


theorem searchFiles_budget (h : sosreport.Host) (lib : sosreport.Lib) (re : String → Bool)
    (sosreportPath podFilter : String) (L : Int) (_ : 1 ≤ L) :
    ∀ (paths : List String) (result : String) (total : Int) (log : List sosreport.SearchCall),
      0 ≤ total → total < L →
      (∀ c ∈ log, 1 ≤ c.maxLines ∧ c.maxLines ≤ L) →
      (log.map (fun c =>
        ((sosreport.searchedLines h lib re c.fullPath c.maxLines).length : Int))).sum ≤ total →
      (∀ c ∈ (sosreport.searchFiles h lib re sosreportPath podFilter L paths result total
          log).2, 1 ≤ c.maxLines ∧ c.maxLines ≤ L) ∧
      ((sosreport.searchFiles h lib re sosreportPath podFilter L paths result total
          log).2.map (fun c =>
        ((sosreport.searchedLines h lib re c.fullPath c.maxLines).length : Int))).sum ≤ L := by
  intro paths
  induction paths with
  | nil =>
    intro result total log _ hlt hb hs
    simp only [sosreport.searchFiles]
    exact ⟨hb, by omega⟩
  | cons logPath rest ih =>
    intro result total log h0 hlt hb hs
    rw [sosreport.searchFiles]
    by_cases hskip : podFilter ≠ "" ∧ (!stringsContains logPath podFilter) = true
    · rw [if_pos hskip]
      exact ih result total log h0 hlt hb hs
    · rw [if_neg hskip]
      simp only []
      generalize hfp : filepathJoin [sosreportPath, sosreport.stringsTrimPrefix logPath "host/"] = fullPath
      have hb1 : ∀ c ∈ log ++ [(⟨sosreport.stringsTrimPrefix logPath "host/", fullPath, L - total⟩ :
          sosreport.SearchCall)], 1 ≤ c.maxLines ∧ c.maxLines ≤ L := by
        intro c hc
        rcases List.mem_append.mp hc with h1 | h1
        · exact hb c h1
        · rw [List.mem_singleton.mp h1]
          exact ⟨by show 1 ≤ L - total; omega, by show L - total ≤ L; omega⟩
      have hw := searchedLines_length_le h lib re fullPath (L - total) (by omega)
      have hsum1 : ((log ++ [(⟨sosreport.stringsTrimPrefix logPath "host/", fullPath, L - total⟩ :
          sosreport.SearchCall)]).map (fun c =>
          ((sosreport.searchedLines h lib re c.fullPath c.maxLines).length : Int))).sum =
          (log.map (fun c =>
            ((sosreport.searchedLines h lib re c.fullPath c.maxLines).length : Int))).sum +
          ((sosreport.searchedLines h lib re fullPath (L - total)).length : Int) := by
        simp
      cases hf : sosreport.searchInFile h lib fullPath (some re) (L - total) with
      | error e =>
        dsimp only
        refine ⟨hb1, ?_⟩
        rw [hsum1]
        omega
      | ok found =>
        dsimp only
        obtain ⟨hsplit, hzero⟩ := searchInFile_split_length h lib re fullPath (L - total)
          found (by omega) hf
        by_cases hpos : found.utf8ByteSize > 0
        · rw [if_pos hpos]
          by_cases hfull : total + ((stringsSplit found '\n').length : Int) ≥ L
          · rw [if_pos hfull]
            refine ⟨hb1, ?_⟩
            rw [hsum1]
            omega
          · rw [if_neg hfull]
            apply ih
            · omega
            · omega
            · exact hb1
            · rw [hsum1]
              omega
        · rw [if_neg hpos]
          apply ih _ _ _ h0 hlt hb1
          rw [hsum1, hzero (by omega)]
          simpa using hs

/-- C36: `searchPodLogs` never returns more than the effective `max_results` matching log
lines in total (`max_results <= 0` meaning 100).  Every call of `searchInFile` gets a budget
between 1 and that limit, so the unlimited mode of `readWithLimit` (`maxLines <= 0`) is never
reached; a call with budget `b` returns the first `b` matching lines of its file at most
(followed by the notice of `readWithLimit` when the budget is used up); and the numbers of
matching lines of all the calls add up to the limit at most. -/
theorem searchPodLogs_budget (h : sosreport.Host) (lib : sosreport.Lib)
    (sosreportPath pattern podFilter : String) (maxResults : Int) :
    (∀ c ∈ (sosreport.searchPodLogs h lib sosreportPath pattern podFilter maxResults).2,
      1 ≤ c.maxLines ∧ c.maxLines ≤ (if maxResults ≤ 0 then 100 else maxResults)) ∧
    (∀ re, h.regexpCompile pattern = .ok re →
      ((sosreport.searchPodLogs h lib sosreportPath pattern podFilter maxResults).2.map
        (fun c => ((sosreport.searchedLines h lib re c.fullPath c.maxLines).length : Int))).sum ≤
        (if maxResults ≤ 0 then 100 else maxResults)) ∧
    (∀ (re : String → Bool) (p : String) (b : Int) (found : String), 1 ≤ b →
      sosreport.searchInFile h lib p (some re) b = .ok found →
      (found = ((sosreport.searchedLines h lib re p b).map (fun l => l ++ "\n")).foldr
          (fun a b => a ++ b) "" ∨
        found = ((sosreport.searchedLines h lib re p b).map (fun l => l ++ "\n")).foldr
          (fun a b => a ++ b) "" ++
          ("\n... (output truncated at " ++ strconvItoa b ++ " lines)\n")) ∧
      ((sosreport.searchedLines h lib re p b).length : Int) ≤ b) := by
  have hL : (1 : Int) ≤ (if maxResults ≤ 0 then sosreport.defaultResultLimit else maxResults) := by
    unfold sosreport.defaultResultLimit
    split_ifs <;> omega
  have hLeq : (if maxResults ≤ 0 then sosreport.defaultResultLimit else maxResults) =
      (if maxResults ≤ 0 then 100 else maxResults) := rfl
  have key : ∀ re, h.regexpCompile pattern = .ok re →
      (∀ c ∈ (sosreport.searchPodLogs h lib sosreportPath pattern podFilter maxResults).2,
        1 ≤ c.maxLines ∧ c.maxLines ≤ (if maxResults ≤ 0 then 100 else maxResults)) ∧
      ((sosreport.searchPodLogs h lib sosreportPath pattern podFilter maxResults).2.map
        (fun c => ((sosreport.searchedLines h lib re c.fullPath c.maxLines).length : Int))).sum ≤
        (if maxResults ≤ 0 then 100 else maxResults) := by
    intro re hre
    have htriv : (∀ c ∈ ([] : List sosreport.SearchCall),
          1 ≤ c.maxLines ∧ c.maxLines ≤ (if maxResults ≤ 0 then 100 else maxResults)) ∧
        (([] : List sosreport.SearchCall).map (fun c =>
          ((sosreport.searchedLines h lib re c.fullPath c.maxLines).length : Int))).sum ≤
          (if maxResults ≤ 0 then 100 else maxResults) := by
      refine ⟨fun c hc => absurd hc (List.not_mem_nil c), ?_⟩
      rw [← hLeq]
      simp only [List.map_nil, List.sum_nil]
      omega
    rw [← hLeq] at htriv ⊢
    unfold sosreport.searchPodLogs
    rw [hre]
    simp only []
    generalize (if maxResults ≤ 0 then sosreport.defaultResultLimit else maxResults) = L
      at hL htriv ⊢
    split
    · exact htriv
    · split
      · exact htriv
      · rename_i plugin _
        by_cases hfiles : plugin.Files.length = 0
        · rw [if_pos hfiles]
          exact htriv
        · rw [if_neg hfiles]
          have hloop := searchFiles_budget h lib re sosreportPath podFilter L hL
            ((plugin.Files.map (fun f => f.FilesCopied)).flatten) "" 0 [] (le_refl 0)
            (by omega) (fun c hc => absurd hc (List.not_mem_nil c)) (by simp)
          split
          · rename_i heq
            rw [heq] at hloop
            exact hloop
          · rename_i heq
            rw [heq] at hloop
            split_ifs <;> exact hloop
  refine ⟨?_, fun re hre => (key re hre).2, ?_⟩
  · cases hre : h.regexpCompile pattern with
    | error e =>
      unfold sosreport.searchPodLogs
      rw [hre]
      exact fun c hc => absurd hc (List.not_mem_nil c)
    | ok re => exact (key re hre).1
  · intro re p b found hb hf
    exact ⟨searchInFile_found h lib re p b found hb hf,
      searchedLines_length_le h lib re p b (by omega)⟩

/-! ### C37: the argv of the conntrack CLI -/

/-- C37 fails on the code: `validateConntrackCommand` looks the trimmed command up, so it
accepts `-S ` (trailing space), but the `switch` of `getConntrackUsingCLI` compares the
untrimmed text, falls to its `default` case and builds `conntrack -L` followed by the filter
parameters.  The operation run is the list, not the requested statistics, and the filter
parameters are appended although the request is not a list operation.  The trimmed command
`-S` gives `conntrack -S` without the filter parameters. -/
theorem getConntrackUsingCLI_untrimmed_command :
    kernel.validateConntrackCommand "-S " true = .ok () ∧
    stringsTrimSpace "-S " = "-S" ∧
    kernel.validateParameters "-p tcp" = .ok () ∧
    (kernel.getConntrackUsingCLI (fun _ _ => {}) "worker-1" "netshoot" "-S " "-p tcp" []).calls =
      [ExecCall.DebugNode "worker-1" "netshoot"
        ["chroot", "/host", "conntrack", "-L", "-p", "tcp"] "" ""] ∧
    (kernel.getConntrackUsingCLI (fun _ _ => {}) "worker-1" "netshoot" "-S" "-p tcp" []).calls =
      [ExecCall.DebugNode "worker-1" "netshoot" ["chroot", "/host", "conntrack", "-S"] "" ""] ∧
    kernel.GetConntrack (fun _ _ => {})
        { Node := "worker-1", Image := "netshoot", Command := "-S ",
          FilterParameters := "-p tcp" } [] =
      ⟨{ Data := "" }, none,
        [ExecCall.DebugNode "worker-1" "netshoot" ["chroot", "/host", "conntrack", "-V"] "" "",
          ExecCall.DebugNode "worker-1" "netshoot"
            ["chroot", "/host", "conntrack", "-L", "-p", "tcp"] "" ""]⟩ := by
  decide

/-! ### C38: the fields of the ip command after the second -/

theorem fieldsAux_append_space (r : List Char) :
    ∀ (l cur : List Char), fieldsAux (l ++ ' ' :: r) cur = fieldsAux l cur ++ fieldsAux r [] := by
  have hsp : unicodeIsSpace ' ' = true := by decide
  intro l
  induction l with
  | nil =>
    intro cur
    simp only [List.nil_append, fieldsAux, hsp, if_true]
    split_ifs <;> simp
  | cons c cs ih =>
    intro cur
    simp only [List.cons_append, fieldsAux]
    split_ifs <;> simp [ih]

theorem stringsFields_append_space (c t : String) :
    stringsFields (c ++ " " ++ t) = stringsFields c ++ stringsFields t := by
  unfold stringsFields
  have hd : (c ++ " " ++ t).data = c.data ++ ' ' :: t.data := by
    simp only [String.data_append, List.append_assoc]
    rfl
  rw [hd, fieldsAux_append_space]

theorem strconvAtoiOk_append_space (c t : String) : strconvAtoiOk (c ++ " " ++ t) = false := by
  cases h : strconvAtoiOk (c ++ " " ++ t) with
  | false => rfl
  | true =>
    exfalso
    have hmem : ' ' ∈ (c ++ " " ++ t).data := by
      simp only [String.data_append, List.mem_append]
      exact Or.inl (Or.inr (by decide))
    rcases strconvAtoiOk_chars _ h ' ' hmem with hd | hd | hd
    · exact absurd hd (by decide)
    · exact absurd hd (by decide)
    · exact absurd hd (by decide)

theorem validateIPCommand_append (c t : String) (h : kernel.validateIPCommand c = .ok ()) :
    kernel.validateIPCommand (c ++ " " ++ t) = .ok () := by
  unfold kernel.validateIPCommand at h
  by_cases ha : strconvAtoiOk c = true
  · rw [if_pos ha] at h
    cases h
  · rw [if_neg ha] at h
    simp only [stringsFields_stringsTrimSpace] at h
    rcases hf : stringsFields c with _ | ⟨f0, _ | ⟨f1, rest⟩⟩
    · rw [hf] at h
      simp at h
    · rw [hf] at h
      simp at h
    · rw [hf] at h
      have hlen : ¬ ((f0 :: f1 :: rest).length < 2) := by simp
      rw [if_neg hlen] at h
      simp only [List.getD_cons_zero, List.getD_cons_succ] at h
      by_cases hls : (stringsHasPrefix f0 "l" && f1 == "s") = true
      · rw [if_pos hls] at h
        cases h
      · rw [if_neg hls] at h
        by_cases hany : kernel.validIpCommand.any
            (kernel.ipCommandMatches (f0 :: f1 :: rest)) = true
        · have hany2 : kernel.validIpCommand.any
              (kernel.ipCommandMatches (f0 :: f1 :: (rest ++ stringsFields t))) = true := by
            rw [validIpCommand_any_iff] at hany ⊢
            rcases hany with hone | ⟨f2, rest1, hrest, hx⟩
            · exact Or.inl hone
            · exact Or.inr ⟨f2, rest1 ++ stringsFields t, by rw [hrest]; rfl, hx⟩
          unfold kernel.validateIPCommand
          have hatoi : ¬ (strconvAtoiOk (c ++ " " ++ t) = true) := by
            rw [strconvAtoiOk_append_space]
            decide
          rw [if_neg hatoi]
          simp only [stringsFields_stringsTrimSpace, stringsFields_append_space, hf,
            List.cons_append]
          have hlen2 : ¬ ((f0 :: f1 :: (rest ++ stringsFields t)).length < 2) := by simp
          rw [if_neg hlen2]
          simp only [List.getD_cons_zero, List.getD_cons_succ]
          rw [if_neg hls]
          have hn : ¬ ((!kernel.validIpCommand.any
              (kernel.ipCommandMatches (f0 :: f1 :: (rest ++ stringsFields t)))) = true) := by
            simp [hany2]
          rw [if_neg hn]
        · have hn : (!kernel.validIpCommand.any
              (kernel.ipCommandMatches (f0 :: f1 :: rest))) = true := by simpa using hany
          rw [if_pos hn] at h
          cases h

theorem kernel_executeCommand_calls (cs : ClientSet) (node image : String)
    (command : List String) (log : List ExecCall) :
    (kernel.executeCommand cs node image command log).calls =
      log ++ [ExecCall.DebugNode node image (["chroot", "/host"] ++ command) "" ""] := by
  have hcalls := kubernetes_DebugNode_default_paths cs node image (["chroot", "/host"] ++ command)
    log
  unfold kernel.executeCommand
  simp only []
  generalize kubernetes.DebugNode cs
    { Name := node, Image := image, Command := ["chroot", "/host"] ++ command } log = r
    at hcalls ⊢
  split
  · exact hcalls
  · split_ifs <;> exact hcalls

theorem GetIPCommandOutput_calls (cs : ClientSet) (inp : kernel.ListIPParams)
    (log : List ExecCall)
    (hprobe : (kernel.UtilityExists cs inp.Node inp.Image "ip" log).result = true)
    (hcommand : kernel.validateIPCommand inp.Command = .ok ())
    (hfilter : kernel.validateParameters inp.FilterParameters = .ok ())
    (hoptions : kernel.validateParameters inp.Options = .ok ()) :
    (kernel.GetIPCommandOutput cs inp log).calls =
      log ++ [ExecCall.DebugNode inp.Node inp.Image ["chroot", "/host", "ip", "-V"] "" "",
        ExecCall.DebugNode inp.Node inp.Image
          (["chroot", "/host", "ip"] ++ (if inp.Options = "" then [] else [inp.Options]) ++
            stringsFields inp.Command ++
            (if inp.FilterParameters = "" then [] else stringsFields inp.FilterParameters))
          "" ""] := by
  have hcalls := UtilityExists_calls cs inp.Node inp.Image "ip" log
  unfold kernel.GetIPCommandOutput
  generalize kernel.UtilityExists cs inp.Node inp.Image "ip" log = probe at hcalls hprobe ⊢
  simp only [hprobe, hcommand, hfilter, hoptions, ite_self, Bool.not_true, Bool.false_eq_true,
    if_false]
  have hexec := kernel_executeCommand_calls cs inp.Node inp.Image
    ((((newCommand ["ip"]).addIfNotEmpty inp.Options [inp.Options]).add
      (stringsFields inp.Command)).addIfNotEmpty inp.FilterParameters
        (stringsFields inp.FilterParameters)).build probe.calls
  have hargv : ((((newCommand ["ip"]).addIfNotEmpty inp.Options [inp.Options]).add
      (stringsFields inp.Command)).addIfNotEmpty inp.FilterParameters
        (stringsFields inp.FilterParameters)).build =
      ["ip"] ++ (if inp.Options = "" then [] else [inp.Options]) ++ stringsFields inp.Command ++
        (if inp.FilterParameters = "" then [] else stringsFields inp.FilterParameters) := by
    by_cases ho : inp.Options = "" <;> by_cases hp : inp.FilterParameters = "" <;>
      simp [ho, hp, newCommand, commandBuilder.add, commandBuilder.addIfNotEmpty,
        commandBuilder.build]
  have hfinal : ∀ r : HandlerReturn String,
      r.calls = probe.calls ++ [ExecCall.DebugNode inp.Node inp.Image
        (["chroot", "/host"] ++ ((((newCommand ["ip"]).addIfNotEmpty inp.Options
          [inp.Options]).add (stringsFields inp.Command)).addIfNotEmpty inp.FilterParameters
            (stringsFields inp.FilterParameters)).build) "" ""] →
      (match r.err with
        | some e => (⟨{}, some ("error while getting ip data: " ++ e), r.calls⟩ :
            HandlerReturn kernel.Result)
        | none => ⟨{ Data := kernel.limitOutputLines r.result inp.MaxLines }, none,
            r.calls⟩).calls =
        log ++ [ExecCall.DebugNode inp.Node inp.Image ["chroot", "/host", "ip", "-V"] "" "",
          ExecCall.DebugNode inp.Node inp.Image
            (["chroot", "/host", "ip"] ++ (if inp.Options = "" then [] else [inp.Options]) ++
              stringsFields inp.Command ++
              (if inp.FilterParameters = "" then [] else stringsFields inp.FilterParameters))
            "" ""] := by
    intro r hr
    have : r.calls = log ++ [ExecCall.DebugNode inp.Node inp.Image
          ["chroot", "/host", "ip", "-V"] "" "",
        ExecCall.DebugNode inp.Node inp.Image
          (["chroot", "/host", "ip"] ++ (if inp.Options = "" then [] else [inp.Options]) ++
            stringsFields inp.Command ++
            (if inp.FilterParameters = "" then [] else stringsFields inp.FilterParameters))
          "" ""] := by
      rw [hr, hcalls, hargv]
      simp
    split <;> exact this
  exact hfinal _ hexec

/-- C38: `validateIPCommand` reads only the first two fields of the command (three for
`xfrm`): when it accepts `c` it accepts `c ++ " " ++ t` for every text `t`.  A request that
`GetIPCommandOutput` accepts is run as `ip`, the options as one token if there are any, every
field of the command, and the fields of the filter parameters; `validateParameters` is
applied to the options and to the filter parameters only, so a command such as
`route show ;reboot` is accepted and its field `;reboot`, which `validateParameters` rejects,
is a token of the argv. -/
theorem validateIPCommand_ignores_later_fields :
    (∀ c t : String, kernel.validateIPCommand c = .ok () →
      kernel.validateIPCommand (c ++ " " ++ t) = .ok ()) ∧
    (∀ (cs : ClientSet) (inp : kernel.ListIPParams) (log : List ExecCall),
      (kernel.UtilityExists cs inp.Node inp.Image "ip" log).result = true →
      kernel.validateIPCommand inp.Command = .ok () →
      kernel.validateParameters inp.FilterParameters = .ok () →
      kernel.validateParameters inp.Options = .ok () →
      (kernel.GetIPCommandOutput cs inp log).calls =
        log ++ [ExecCall.DebugNode inp.Node inp.Image ["chroot", "/host", "ip", "-V"] "" "",
          ExecCall.DebugNode inp.Node inp.Image
            (["chroot", "/host", "ip"] ++ (if inp.Options = "" then [] else [inp.Options]) ++
              stringsFields inp.Command ++
              (if inp.FilterParameters = "" then [] else stringsFields inp.FilterParameters))
            "" ""]) ∧
    kernel.validateIPCommand "route show" = .ok () ∧
    kernel.validateIPCommand "route show ;reboot" = .ok () ∧
    (∃ e, kernel.validateParameters ";reboot" = .error e) ∧
    (kernel.GetIPCommandOutput (fun _ _ => {})
        { Node := "worker-1", Image := "netshoot", Command := "route show ;reboot" } []).calls =
      [ExecCall.DebugNode "worker-1" "netshoot" ["chroot", "/host", "ip", "-V"] "" "",
        ExecCall.DebugNode "worker-1" "netshoot"
          ["chroot", "/host", "ip", "route", "show", ";reboot"] "" ""] := by
  refine ⟨validateIPCommand_append, GetIPCommandOutput_calls, by decide, by decide,
    ⟨_, rfl⟩, by decide⟩

/-! ### C39, C40: the numbers in the argv of the packet capture -/

theorem Tcpdump_accepted (cs : ClientSet) (inp : external_tools.TcpdumpParams)
    (log : List ExecCall)
    (hiface : client.ValidateInterface inp.Interface = .ok ())
    (hfilter : client.ValidateBPFFilter inp.BPFFilter = .ok ())
    (hany : ¬ (inp.Interface = "any" ∧ inp.BPFFilter = "" ∧
      ((inp.Duration = 0 ∧ inp.PacketCount = 0) ∨ inp.Duration > 10 ∨ inp.PacketCount > 100)))
    (htwo : external_tools.requireAtLeastNParams 2 [("duration", decide (inp.Duration > 0)),
      ("packet_count", decide (inp.PacketCount > 0)), ("bpf_filter", inp.BPFFilter != "")] =
        .ok ())
    (hduration : external_tools.validateIntMax inp.Duration external_tools.MaxTcpdumpDuration
      "duration" "seconds" = .ok ())
    (hcount : external_tools.validateIntMax inp.PacketCount external_tools.MaxPacketCount
      "packet_count" "" = .ok ())
    (hsnaplen : external_tools.validateIntMax
      (if inp.Snaplen = 0 then external_tools.DefaultSnaplen else inp.Snaplen)
      external_tools.MaxSnaplen "snaplen" "bytes" = .ok ())
    (hformat : external_tools.stringWithDefault inp.OutputFormat "text" = "text" ∨
      external_tools.stringWithDefault inp.OutputFormat "text" = "pcap") :
    external_tools.Tcpdump cs inp log =
      external_tools.executeAndWrapResult cs inp.toTargetParams
        (["tcpdump", "-i", inp.Interface, "-n", "-s",
            strconvItoa (if inp.Snaplen = 0 then 96 else inp.Snaplen)] ++
          (if inp.PacketCount > 0 then ["-c", strconvItoa inp.PacketCount] else []) ++
          (if external_tools.stringWithDefault inp.OutputFormat "text" = "text" then ["-v"]
            else ["-w", "-"]) ++
          (if inp.BPFFilter = "" then [] else [inp.BPFFilter])) log := by
  have h1 : ¬ (inp.Interface = "any" ∧ inp.BPFFilter = "" ∧ inp.Duration = 0 ∧
      inp.PacketCount = 0) := fun h => hany ⟨h.1, h.2.1, Or.inl h.2.2⟩
  have h2 : ¬ (inp.Interface = "any" ∧ inp.BPFFilter = "" ∧
      (inp.Duration > 10 ∨ inp.PacketCount > 100)) := fun h => hany ⟨h.1, h.2.1, Or.inr h.2.2⟩
  unfold external_tools.Tcpdump
  simp only [hiface, hfilter, if_neg h1, if_neg h2, htwo, hduration, hcount, hsnaplen]
  have hd : external_tools.DefaultSnaplen = 96 := rfl
  rcases hformat with hf | hf
  · rw [hf]
    simp only [if_true, hd]
    by_cases hb : inp.BPFFilter = "" <;> by_cases hp : inp.PacketCount > 0 <;>
      simp [hb, hp, newCommand, commandBuilder.addIf, commandBuilder.add,
        commandBuilder.addIfNotEmpty, commandBuilder.build]
  · rw [hf]
    have hne : ¬ ("pcap" = "text") := by decide
    simp only [if_neg hne, if_true, hd]
    by_cases hb : inp.BPFFilter = "" <;> by_cases hp : inp.PacketCount > 0 <;>
      simp [hb, hp, newCommand, commandBuilder.addIf, commandBuilder.add,
        commandBuilder.addIfNotEmpty, commandBuilder.build]

theorem validateIntMax_ok_iff (value max : Int) (fieldName unit : String) :
    external_tools.validateIntMax value max fieldName unit = .ok () ↔ value ≤ max := by
  unfold external_tools.validateIntMax
  by_cases h : value > max
  · rw [if_pos h]
    constructor
    · intro h'
      split_ifs at h'
    · intro h'
      omega
  · rw [if_neg h]
    exact ⟨fun _ => by omega, fun _ => rfl⟩

/-- C39 fails on the code for the snapshot length: `Tcpdump` checks the snaplen with
`validateIntMax`, which has an upper bound only, so the request with `snaplen = -1` passes
validation and the command run is `tcpdump -i eth0 -n -s -1 -v "port 53"`.  For every request
that passes validation the value after `-s` is 96 when the snaplen is 0 and the snaplen
itself otherwise, which is at most 262 but can be any negative number; `-c` is emitted exactly
when the packet count is positive, and its value is then between 1 and 1000. -/
theorem Tcpdump_accepts_negative_snaplen :
    external_tools.validateIntMax (-1) external_tools.MaxSnaplen "snaplen" "bytes" = .ok () ∧
    external_tools.Tcpdump (fun _ _ => {})
        { TargetType := "node", NodeName := "worker-1", NodeImage := "netshoot",
          Interface := "eth0", Duration := 5, BPFFilter := "port 53", Snaplen := -1 } [] =
      ⟨{ Output := "", ExitCode := 0, Error := "" }, none,
        [ExecCall.DebugNode "worker-1" "netshoot"
          ["chroot", "/host", "tcpdump", "-i", "eth0", "-n", "-s", "-1", "-v", "port 53"]
          "" ""]⟩ ∧
    (∀ (cs : ClientSet) (inp : external_tools.TcpdumpParams) (log : List ExecCall),
      client.ValidateInterface inp.Interface = .ok () →
      client.ValidateBPFFilter inp.BPFFilter = .ok () →
      ¬ (inp.Interface = "any" ∧ inp.BPFFilter = "" ∧
        ((inp.Duration = 0 ∧ inp.PacketCount = 0) ∨ inp.Duration > 10 ∨
          inp.PacketCount > 100)) →
      external_tools.requireAtLeastNParams 2 [("duration", decide (inp.Duration > 0)),
        ("packet_count", decide (inp.PacketCount > 0)), ("bpf_filter", inp.BPFFilter != "")] =
          .ok () →
      external_tools.validateIntMax inp.Duration external_tools.MaxTcpdumpDuration
        "duration" "seconds" = .ok () →
      external_tools.validateIntMax inp.PacketCount external_tools.MaxPacketCount
        "packet_count" "" = .ok () →
      external_tools.validateIntMax
        (if inp.Snaplen = 0 then external_tools.DefaultSnaplen else inp.Snaplen)
        external_tools.MaxSnaplen "snaplen" "bytes" = .ok () →
      (external_tools.stringWithDefault inp.OutputFormat "text" = "text" ∨
        external_tools.stringWithDefault inp.OutputFormat "text" = "pcap") →
      external_tools.Tcpdump cs inp log =
        external_tools.executeAndWrapResult cs inp.toTargetParams
          (["tcpdump", "-i", inp.Interface, "-n", "-s",
              strconvItoa (if inp.Snaplen = 0 then 96 else inp.Snaplen)] ++
            (if inp.PacketCount > 0 then ["-c", strconvItoa inp.PacketCount] else []) ++
            (if external_tools.stringWithDefault inp.OutputFormat "text" = "text" then ["-v"]
              else ["-w", "-"]) ++
            (if inp.BPFFilter = "" then [] else [inp.BPFFilter])) log ∧
        (if inp.Snaplen = 0 then 96 else inp.Snaplen) ≤ 262 ∧
        (inp.Snaplen < 0 → (if inp.Snaplen = 0 then 96 else inp.Snaplen) < 1) ∧
        (inp.PacketCount > 0 → 1 ≤ inp.PacketCount ∧ inp.PacketCount ≤ 1000)) := by
  refine ⟨by decide, by decide, ?_⟩
  intro cs inp log hiface hfilter hany htwo hduration hcount hsnaplen hformat
  refine ⟨Tcpdump_accepted cs inp log hiface hfilter hany htwo hduration hcount hsnaplen
    hformat, ?_, ?_, ?_⟩
  · have h := (validateIntMax_ok_iff _ _ _ _).mp hsnaplen
    unfold external_tools.DefaultSnaplen external_tools.MaxSnaplen at h
    exact h
  · intro hneg
    have hne : ¬ (inp.Snaplen = 0) := by omega
    rw [if_neg hne]
    omega
  · intro hpos
    have h := (validateIntMax_ok_iff _ _ _ _).mp hcount
    unfold external_tools.MaxPacketCount at h
    exact ⟨by omega, h⟩

/-- C40: the command that `Tcpdump` runs does not depend on the duration.  Two requests that
differ in the duration only, each of which passes the rules that read the duration (the two
rules for the interface `any` without a filter, the at-least-two rule, and the maximum of 30
seconds), get the same return value from the same executor: the same checks fail or the same
argv is run, with the same output.  No token of the argv carries the duration. -/
theorem Tcpdump_argv_independent_of_duration (cs : ClientSet)
    (inp : external_tools.TcpdumpParams) (d1 d2 : Int) (log : List ExecCall)
    (hany1 : ¬ (inp.Interface = "any" ∧ inp.BPFFilter = "" ∧
      ((d1 = 0 ∧ inp.PacketCount = 0) ∨ d1 > 10 ∨ inp.PacketCount > 100)))
    (hany2 : ¬ (inp.Interface = "any" ∧ inp.BPFFilter = "" ∧
      ((d2 = 0 ∧ inp.PacketCount = 0) ∨ d2 > 10 ∨ inp.PacketCount > 100)))
    (htwo1 : external_tools.requireAtLeastNParams 2 [("duration", decide (d1 > 0)),
      ("packet_count", decide (inp.PacketCount > 0)), ("bpf_filter", inp.BPFFilter != "")] =
        .ok ())
    (htwo2 : external_tools.requireAtLeastNParams 2 [("duration", decide (d2 > 0)),
      ("packet_count", decide (inp.PacketCount > 0)), ("bpf_filter", inp.BPFFilter != "")] =
        .ok ())
    (hduration1 : external_tools.validateIntMax d1 external_tools.MaxTcpdumpDuration
      "duration" "seconds" = .ok ())
    (hduration2 : external_tools.validateIntMax d2 external_tools.MaxTcpdumpDuration
      "duration" "seconds" = .ok ()) :
    external_tools.Tcpdump cs { inp with Duration := d1 } log =
      external_tools.Tcpdump cs { inp with Duration := d2 } log := by
  have h11 : ¬ (inp.Interface = "any" ∧ inp.BPFFilter = "" ∧ d1 = 0 ∧
      inp.PacketCount = 0) := fun h => hany1 ⟨h.1, h.2.1, Or.inl h.2.2⟩
  have h12 : ¬ (inp.Interface = "any" ∧ inp.BPFFilter = "" ∧
      (d1 > 10 ∨ inp.PacketCount > 100)) := fun h => hany1 ⟨h.1, h.2.1, Or.inr h.2.2⟩
  have h21 : ¬ (inp.Interface = "any" ∧ inp.BPFFilter = "" ∧ d2 = 0 ∧
      inp.PacketCount = 0) := fun h => hany2 ⟨h.1, h.2.1, Or.inl h.2.2⟩
  have h22 : ¬ (inp.Interface = "any" ∧ inp.BPFFilter = "" ∧
      (d2 > 10 ∨ inp.PacketCount > 100)) := fun h => hany2 ⟨h.1, h.2.1, Or.inr h.2.2⟩
  unfold external_tools.Tcpdump
  simp only [if_neg h11, if_neg h12, if_neg h21, if_neg h22, htwo1, htwo2, hduration1,
    hduration2]

/-- Witness for C40: the captures on `eth0` with the filter `port 53` for 5 and for 30
seconds run the same command `tcpdump -i eth0 -n -s 96 -v "port 53"`. -/
theorem Tcpdump_argv_independent_of_duration_witness :
    external_tools.Tcpdump (fun _ _ => {})
        { TargetType := "node", NodeName := "worker-1", NodeImage := "netshoot",
          Interface := "eth0", Duration := 5, BPFFilter := "port 53" } [] =
      external_tools.Tcpdump (fun _ _ => {})
        { TargetType := "node", NodeName := "worker-1", NodeImage := "netshoot",
          Interface := "eth0", Duration := 30, BPFFilter := "port 53" } [] ∧
    (external_tools.Tcpdump (fun _ _ => {})
        { TargetType := "node", NodeName := "worker-1", NodeImage := "netshoot",
          Interface := "eth0", Duration := 30, BPFFilter := "port 53" } []).calls =
      [ExecCall.DebugNode "worker-1" "netshoot"
        ["chroot", "/host", "tcpdump", "-i", "eth0", "-n", "-s", "96", "-v", "port 53"]
        "" ""] :=
  ⟨Tcpdump_argv_independent_of_duration (fun _ _ => {})
      { TargetType := "node", NodeName := "worker-1", NodeImage := "netshoot",
        Interface := "eth0", BPFFilter := "port 53" } 5 30 []
      (by decide) (by decide) (by decide) (by decide) (by decide) (by decide),
    by decide⟩

end OvnkMcp
